import Mathlib

set_option linter.unusedVariables false

namespace ZshScanner

/-!  Shallow embedding of the tree-sitter-zsh external scanner
     (`src/scanner.c`, included in the repository sources after the
     grammar fragment).

     Modelling conventions:
     * characters are `Nat` code points (the C `int32_t lookahead`);
       end of input is code 0, matching the C scanner which tests
       `lexer->lookahead == '\0'` / `lexer->eof(lexer)`;
     * C byte strings (`Array(char)`) are `List Nat` of byte values;
       pushing a code point into one truncates it modulo 256 exactly
       as the C `char` conversion does;
     * the `ctype`/`wctype` predicates follow the default C locale,
       i.e. they accept exactly the ASCII ranges;
     * arrays keep the C array order: index 0 first, `array_back` is
       the last element of the list.  -/

/-- ASCII whitespace, as `iswspace` in the default C locale. -/
def iswspace (c : Nat) : Bool := c == 32 || (9 ≤ c && c ≤ 13)

/-- ASCII decimal digit, as `iswdigit` in the default C locale. -/
def iswdigit (c : Nat) : Bool := 48 ≤ c && c ≤ 57

/-- ASCII letter, as `iswalpha` in the default C locale. -/
def iswalpha (c : Nat) : Bool := (65 ≤ c && c ≤ 90) || (97 ≤ c && c ≤ 122)

/-- ASCII letter or digit, as `iswalnum` in the default C locale. -/
def iswalnum (c : Nat) : Bool := iswalpha c || iswdigit c

/-- ASCII decimal digit, as `isdigit`. -/
def isdigit (c : Nat) : Bool := iswdigit c

/-- The `TokenType` enumeration of the scanner, in source order. -/
inductive TokenType where
  | HEREDOC_START
  | SIMPLE_HEREDOC_BODY
  | HEREDOC_BODY_BEGINNING
  | HEREDOC_CONTENT
  | HEREDOC_END
  | FILE_DESCRIPTOR
  | EMPTY_VALUE
  | CONCAT
  | VARIABLE_NAME
  | SIMPLE_VARIABLE_NAME
  | SPECIAL_VARIABLE_NAME
  | TEST_OPERATOR
  | REGEX
  | REGEX_NO_SLASH
  | REGEX_NO_SPACE
  | EXPANSION_WORD
  | EXTGLOB_PATTERN
  | RAW_DOLLAR
  | BARE_DOLLAR
  | PEEK_BARE_DOLLAR
  | BRACE_START
  | IMMEDIATE_DOUBLE_HASH
  | ARRAY_STAR_TOKEN
  | ARRAY_AT_TOKEN
  | CLOSING_BRACE
  | CLOSING_BRACKET
  | CLOSING_PAREN
  | CLOSING_DOUBLE_PAREN
  | HEREDOC_ARROW
  | HEREDOC_ARROW_DASH
  | HASH_PATTERN
  | DOUBLE_HASH_PATTERN
  | ENTER_PATTERN
  | PATTERN_START
  | PATTERN_SUFFIX_START
  | NEWLINE
  | OPENING_PAREN
  | DOUBLE_OPENING_PAREN
  | OPENING_BRACKET
  | TEST_COMMAND_START
  | TEST_COMMAND_END
  | ESAC
  | ZSH_EXTENDED_GLOB_FLAGS
  | ERROR_RECOVERY
  deriving DecidableEq, Repr

open TokenType

/-- The valid-terminals set handed to each scan call (`const bool *valid_symbols`). -/
def ValidFn := TokenType → Bool

/-- Context tag `CTX_NONE` of `context_type_t`. -/
def CTX_NONE : Nat := 0
/-- Context tag for parameter expansion. -/
def CTX_PARAMETER : Nat := 1
/-- Context tag for arithmetic expansion. -/
def CTX_ARITHMETIC : Nat := 2
/-- Context tag for command substitution. -/
def CTX_COMMAND : Nat := 3
/-- Context tag for test commands. -/
def CTX_TEST : Nat := 4
/-- Context tag for brace expansion. -/
def CTX_BRACE_EXPANSION : Nat := 5
/-- Context tag for pattern removal inside a parameter expansion. -/
def CTX_PARAMETER_PATTERN_SUFFIX : Nat := 6
/-- Context tag for pattern substitution inside a parameter expansion. -/
def CTX_PARAMETER_PATTERN_SUBSTITUTE : Nat := 7

/-- The `Heredoc` record of the scanner. -/
structure Heredoc where
  is_raw : Bool
  started : Bool
  allows_indent : Bool
  delimiter : List Nat
  current_leading_word : List Nat
  deriving DecidableEq, Repr

/-- The `heredoc_new()` initializer. -/
def heredoc_new : Heredoc :=
  { is_raw := false
    started := false
    allows_indent := false
    delimiter := []
    current_leading_word := [] }

instance : Inhabited Heredoc := ⟨heredoc_new⟩

/-- The scanner state struct. -/
structure Scanner where
  last_glob_paren_depth : Nat
  ext_was_in_double_quote : Bool
  ext_saw_outside_quote : Bool
  context_stack : List Nat
  just_returned_variable_name : Bool
  just_returned_bare_dollar : Bool
  heredocs : List Heredoc
  deriving DecidableEq, Repr

/-- State allocated by `tree_sitter_zsh_external_scanner_create` (calloc). -/
def freshScanner : Scanner :=
  { last_glob_paren_depth := 0
    ext_was_in_double_quote := false
    ext_saw_outside_quote := false
    context_stack := []
    just_returned_variable_name := false
    just_returned_bare_dollar := false
    heredocs := [] }

/-- `get_current_context`: top of stack, `CTX_NONE` when empty. -/
def get_current_context (scanner : Scanner) : Nat :=
  scanner.context_stack.getLastD CTX_NONE

/-- `in_parameter_expansion`. -/
def in_parameter_expansion (scanner : Scanner) : Bool :=
  let ctx := get_current_context scanner
  ctx == CTX_PARAMETER || ctx == CTX_PARAMETER_PATTERN_SUFFIX ||
    ctx == CTX_PARAMETER_PATTERN_SUBSTITUTE

/-- `should_stop_at_pattern_operators`. -/
def should_stop_at_pattern_operators (scanner : Scanner) : Bool :=
  let ctx := get_current_context scanner
  ctx == CTX_PARAMETER || ctx == CTX_PARAMETER_PATTERN_SUFFIX ||
    ctx == CTX_PARAMETER_PATTERN_SUBSTITUTE

/-- `should_stop_at_pattern_slash`. -/
def should_stop_at_pattern_slash (scanner : Scanner) : Bool :=
  get_current_context scanner == CTX_PARAMETER_PATTERN_SUBSTITUTE

/-- `in_parameter_expansion_context`. -/
def in_parameter_expansion_context (scanner : Scanner) : Bool :=
  in_parameter_expansion scanner

/-- `should_break_on_slash`. -/
def should_break_on_slash (scanner : Scanner) : Bool :=
  get_current_context scanner == CTX_PARAMETER_PATTERN_SUBSTITUTE

/-- `enter_context`: push onto the context stack. -/
def enter_context (scanner : Scanner) (context : Nat) : Scanner :=
  { scanner with context_stack := scanner.context_stack ++ [context] }

/-- The `exit_context` operation: with a non-empty stack the top is
    popped whether or not it matches `expected_context` (the C code has
    the same `array_pop` in both branches of the comparison); with an
    empty stack nothing happens. -/
def exit_context (scanner : Scanner) (expected_context : Nat) : Scanner :=
  if scanner.context_stack.length > 0 then
    { scanner with context_stack := scanner.context_stack.dropLast }
  else
    scanner

/-- `in_expansion_context`. -/
def in_expansion_context (scanner : Scanner) : Bool :=
  let ctx := get_current_context scanner
  ctx == CTX_PARAMETER || ctx == CTX_ARITHMETIC || ctx == CTX_COMMAND

/-- `in_pattern_context`. -/
def in_pattern_context (scanner : Scanner) : Bool :=
  let ctx := get_current_context scanner
  ctx == CTX_PARAMETER_PATTERN_SUFFIX || ctx == CTX_PARAMETER_PATTERN_SUBSTITUTE

/-- `in_test_command`. -/
def in_test_command (scanner : Scanner) : Bool :=
  get_current_context scanner == CTX_TEST

/-- `in_error_recovery`. -/
def in_error_recovery (valid_symbols : ValidFn) : Bool :=
  valid_symbols ERROR_RECOVERY

/-- `reset_string`: clear a byte string. -/
def reset_string (_string : List Nat) : List Nat := []

/-- `reset_heredoc`: clears the boolean fields and the delimiter, the
    `current_leading_word` scratch buffer is left alone. -/
def reset_heredoc (heredoc : Heredoc) : Heredoc :=
  { heredoc with
      is_raw := false
      started := false
      allows_indent := false
      delimiter := reset_string heredoc.delimiter }

/-- The `reset` function: clears the scalar state and the context
    stack, and resets each heredoc record in place.  Note that it does
    not shrink the `heredocs` array. -/
def reset (scanner : Scanner) : Scanner :=
  { last_glob_paren_depth := 0
    ext_was_in_double_quote := false
    ext_saw_outside_quote := false
    context_stack := []
    just_returned_variable_name := false
    just_returned_bare_dollar := false
    heredocs := scanner.heredocs.map reset_heredoc }

/-! ## Serialization (`serialize` / `deserialize`) -/

/-- `TREE_SITTER_SERIALIZATION_BUFFER_SIZE` from tree_sitter/parser.h. -/
def TREE_SITTER_SERIALIZATION_BUFFER_SIZE : Nat := 1024

/-- Value of a C `(char)` cast of a boolean. -/
def b2n (b : Bool) : Nat := if b then 1 else 0

/-- Little-endian 4-byte encoding of a `uint32_t` (the
    `memcpy(&buffer[size], &heredoc->delimiter.size, sizeof(uint32_t))`). -/
def le32 (n : Nat) : List Nat :=
  [n % 256, n / 256 % 256, n / 256 / 256 % 256, n / 256 / 256 / 256 % 256]

/-- Little-endian 4-byte decode. -/
def decodeLE32 (b0 b1 b2 b3 : Nat) : Nat :=
  b0 + 256 * b1 + 65536 * b2 + 16777216 * b3

/-- The context-stack part of `serialize`: each tag is written as one
    byte, guarded by the running `size >= TREE_SITTER_SERIALIZATION_BUFFER_SIZE`
    check (which makes `serialize` return 0, modelled as `none`). -/
def serialize_contexts : List Nat → Nat → Option (List Nat)
  | [], _ => some []
  | c :: rest, size =>
    if TREE_SITTER_SERIALIZATION_BUFFER_SIZE ≤ size then none
    else (serialize_contexts rest (size + 1)).map (fun bs => c % 256 :: bs)

/-- The heredoc part of `serialize`: three flag bytes, a 4-byte
    little-endian length, then the delimiter bytes, guarded by the
    buffer-overflow check of the C loop. -/
def serialize_heredocs : List Heredoc → Nat → Option (List Nat)
  | [], _ => some []
  | h :: rest, size =>
    if TREE_SITTER_SERIALIZATION_BUFFER_SIZE ≤ size + 3 + 4 + h.delimiter.length then
      none
    else
      (serialize_heredocs rest (size + 3 + 4 + h.delimiter.length)).map
        (fun bs =>
          b2n h.is_raw :: b2n h.started :: b2n h.allows_indent ::
            (le32 h.delimiter.length ++ h.delimiter ++ bs))

/-- The `serialize` function.  Returns `none` where the C code returns
    length 0 because the state would not fit the buffer.  The seven
    header bytes are written unconditionally, then the context tags,
    then the heredoc records. -/
def serialize (scanner : Scanner) : Option (List Nat) :=
  (serialize_contexts scanner.context_stack 7).bind fun ctxBytes =>
    (serialize_heredocs scanner.heredocs (7 + scanner.context_stack.length)).map
      fun heredocBytes =>
        scanner.last_glob_paren_depth % 256 ::
        b2n scanner.ext_was_in_double_quote ::
        b2n scanner.ext_saw_outside_quote ::
        scanner.context_stack.length % 256 ::
        scanner.heredocs.length % 256 ::
        b2n scanner.just_returned_variable_name ::
        b2n scanner.just_returned_bare_dollar ::
        (ctxBytes ++ heredocBytes)

/-- Bytes read by a `memcpy` of `n` bytes starting at the head of the
    remaining buffer; reads past the end of the buffer (undefined in C,
    never exercised by the claims) are modelled as zeros. -/
def readBytes (n : Nat) (buf : List Nat) : List Nat :=
  buf.take n ++ List.replicate (n - buf.length) 0

/-- The heredoc-reading loop of `deserialize`.  `old` is the tail of
    the live `heredocs` array from the current index on: an existing
    record is reused (its `current_leading_word` survives), otherwise a
    fresh `heredoc_new()` is pushed.  Records of `old` beyond the
    serialized count are kept untouched — `deserialize` never shrinks
    the array. -/
def read_heredocs : List Heredoc → List Nat → Nat → List Heredoc
  | old, _, 0 => old
  | old, buf, Nat.succ n =>
    let base := old.headD heredoc_new
    let dsize := decodeLE32 (buf.getD 3 0) (buf.getD 4 0) (buf.getD 5 0) (buf.getD 6 0)
    { is_raw := buf.getD 0 0 ≠ 0
      started := buf.getD 1 0 ≠ 0
      allows_indent := buf.getD 2 0 ≠ 0
      delimiter := readBytes dsize (buf.drop 7)
      current_leading_word := base.current_leading_word } ::
      read_heredocs old.tail (buf.drop (7 + dsize)) n

/-- The `deserialize` function.  A zero-length buffer is a `reset`;
    otherwise the seven header bytes are read, then at most
    `context_stack_size` tags as far as the buffer reaches (the
    `size >= length` break), then `heredoc_count` heredoc records. -/
def deserialize (scanner : Scanner) (buffer : List Nat) : Scanner :=
  if buffer.length = 0 then reset scanner
  else
    let context_stack_size := buffer.getD 3 0
    let heredoc_count := buffer.getD 4 0
    let ctxs := (buffer.drop 7).take context_stack_size
    { last_glob_paren_depth := buffer.getD 0 0
      ext_was_in_double_quote := buffer.getD 1 0 ≠ 0
      ext_saw_outside_quote := buffer.getD 2 0 ≠ 0
      context_stack := ctxs
      just_returned_variable_name := buffer.getD 5 0 ≠ 0
      just_returned_bare_dollar := buffer.getD 6 0 ≠ 0
      heredocs := read_heredocs scanner.heredocs (buffer.drop (7 + ctxs.length)) heredoc_count }

/-! ## The lexer model

The TSLexer is modelled by the full input (a list of code points), the
current position, and the marked token end.  `lookahead` is the code
point at the current position, 0 at or past end of input, matching the
C scanner which only ever compares `lexer->lookahead` against `'\0'`
and `lexer->eof(lexer)`.  `advance` and `skip` both move the position
one code point to the right (the skipped-leading-whitespace distinction
only affects token extents, which no claim depends on). -/

structure Lexer where
  input : List Nat
  pos : Nat
  markedEnd : Nat
  deriving DecidableEq, Repr

/-- `lexer->lookahead`. -/
def Lexer.lookahead (lexer : Lexer) : Nat := lexer.input.getD lexer.pos 0

/-- `lexer->eof(lexer)`. -/
def Lexer.eof (lexer : Lexer) : Bool := lexer.input.length ≤ lexer.pos

/-- `advance(lexer)`, i.e. `lexer->advance(lexer, false)`. -/
def advance (lexer : Lexer) : Lexer := { lexer with pos := lexer.pos + 1 }

/-- `skip(lexer)`, i.e. `lexer->advance(lexer, true)`. -/
def skip (lexer : Lexer) : Lexer := { lexer with pos := lexer.pos + 1 }

/-- `lexer->mark_end(lexer)`. -/
def mark_end (lexer : Lexer) : Lexer := { lexer with markedEnd := lexer.pos }

/-- `lexer->get_column(lexer)`: code points since the last newline. -/
def get_column (lexer : Lexer) : Nat :=
  ((lexer.input.take lexer.pos).reverse.takeWhile (fun c => c != 10)).length

/-- Mutable state of one `scan` call: the scanner, the lexer, the
    result symbol, and the two locals `was_just_variable_name` /
    `was_just_bare_dollar` captured at the top of `scan`. -/
structure St where
  sc : Scanner
  lx : Lexer
  sym : Option TokenType
  was_just_variable_name : Bool
  was_just_bare_dollar : Bool
  deriving DecidableEq, Repr

/-- Current lookahead. -/
def St.look (st : St) : Nat := st.lx.lookahead

/-- Whether the lexer is at end of input. -/
def St.atEof (st : St) : Bool := st.lx.eof

/-- Advance the lexer. -/
def St.advance (st : St) : St := { st with lx := ZshScanner.advance st.lx }

/-- Skip a character. -/
def St.skip (st : St) : St := { st with lx := ZshScanner.skip st.lx }

/-- Mark the token end. -/
def St.mark_end (st : St) : St := { st with lx := ZshScanner.mark_end st.lx }

/-- Set `lexer->result_symbol`. -/
def St.setSym (st : St) (t : TokenType) : St := { st with sym := some t }

/-- Replace the lexer. -/
def St.withLx (st : St) (lexer : Lexer) : St := { st with lx := lexer }

/-- `array_back(&scanner->heredocs)` (call sites guard non-emptiness). -/
def St.back (st : St) : Heredoc := st.sc.heredocs.getLastD heredoc_new

/-- Mutate the record `array_back(&scanner->heredocs)` points at. -/
def St.modifyBack (st : St) (f : Heredoc → Heredoc) : St :=
  { st with sc :=
      { st.sc with heredocs := st.sc.heredocs.dropLast ++ [f st.back] } }

/-- `array_pop(&scanner->heredocs)`. -/
def St.popBack (st : St) : St :=
  { st with sc := { st.sc with heredocs := st.sc.heredocs.dropLast } }

/-- Push a context (`enter_context(scanner, c)`). -/
def St.enterCtx (st : St) (c : Nat) : St := { st with sc := enter_context st.sc c }

/-- Pop a context (`exit_context(scanner, c)`). -/
def St.exitCtx (st : St) (c : Nat) : St := { st with sc := exit_context st.sc c }

/-- Assign `scanner->last_glob_paren_depth` (a `uint8_t`, so modulo 256). -/
def St.setLgpd (st : St) (n : Nat) : St :=
  { st with sc := { st.sc with last_glob_paren_depth := n % 256 } }

/-- The double assignment `was_just_bare_dollar = scanner->just_returned_bare_dollar = b`. -/
def setJBD (b : Bool) (st : St) : St :=
  { st with
      was_just_bare_dollar := b
      sc := { st.sc with just_returned_bare_dollar := b } }

/-- Assignment `scanner->just_returned_variable_name = true`. -/
def setScJVN (st : St) : St :=
  { st with sc := { st.sc with just_returned_variable_name := true } }

/-- Iterated `advance` while the lookahead satisfies `p` (the C
    `while (p(lexer->lookahead)) advance/skip;` loops).  The fuel is
    always instantiated with more than the remaining input length. -/
def advance_while (p : Nat → Bool) : Nat → Lexer → Lexer
  | 0, lexer => lexer
  | fuel + 1, lexer =>
    if p lexer.lookahead then advance_while p fuel (advance lexer) else lexer

/-- Iterated `advance` while a predicate on the whole lexer holds (for
    loops whose condition also tests `lexer->eof`). -/
def advance_while_lx (p : Lexer → Bool) : Nat → Lexer → Lexer
  | 0, lexer => lexer
  | fuel + 1, lexer =>
    if p lexer then advance_while_lx p fuel (advance lexer) else lexer

/-! ## Word and heredoc helpers -/

/-- Loop body of `advance_word`: consume while not at the word end,
    handling one backslash escape; the first component is false exactly
    for the mid-loop `return false` (backslash at end of input), in
    which case the word so far is returned unfinished. -/
def advance_word_loop (quote : Nat) :
    Nat → List Nat → Bool → Lexer → (Bool × List Nat × Bool × Lexer)
  | 0, word, empty, lexer => (false, word, empty, lexer)
  | fuel + 1, word, empty, lexer =>
    if lexer.lookahead ≠ 0 ∧
        (if quote ≠ 0 then
          ¬(lexer.lookahead = quote ∨ lexer.lookahead = 13 ∨ lexer.lookahead = 10)
        else iswspace lexer.lookahead = false) then
      if lexer.lookahead = 92 then
        let lexer := advance lexer
        if lexer.lookahead = 0 then (false, word, empty, lexer)
        else advance_word_loop quote fuel (word ++ [lexer.lookahead % 256]) false (advance lexer)
      else
        advance_word_loop quote fuel (word ++ [lexer.lookahead % 256]) false (advance lexer)
    else (true, word, empty, lexer)

/-- The `advance_word` helper: consume a POSIX word (optionally quoted)
    into `unquoted_word`, appending a NUL; returns whether the word was
    non-empty. -/
def advance_word (lexer : Lexer) (unquoted_word : List Nat) :
    (Bool × List Nat × Lexer) :=
  let quote := if lexer.lookahead = 39 ∨ lexer.lookahead = 34 then lexer.lookahead else 0
  let lexer := if quote ≠ 0 then advance lexer else lexer
  match advance_word_loop quote (lexer.input.length + 2) unquoted_word true lexer with
  | (false, word, _, lexer2) => (false, word, lexer2)
  | (true, word, empty, lexer2) =>
    let word := word ++ [0]
    let lexer3 := if quote ≠ 0 ∧ lexer2.lookahead = quote then advance lexer2 else lexer2
    (!empty, word, lexer3)

/-- The `scan_raw_dollar` helper: skip spaces (but not newlines), then
    if the next character is `$`, consume it, set `BARE_DOLLAR` and
    succeed iff it stands alone (whitespace, end of input, or a double
    quote follows). -/
def scan_raw_dollar (st : St) : (Bool × St) :=
  let st := st.withLx (advance_while
    (fun c => iswspace c && c != 10) (st.lx.input.length + 2) st.lx)
  if st.look = 36 then
    let st := ((st.advance.setSym BARE_DOLLAR)).mark_end
    (iswspace st.look || st.atEof || st.look == 34, st)
  else (false, st)

/-- Comparison of a stored `char` against the `int32_t` lookahead as in
    `(int32_t)*array_get(&heredoc->delimiter, size) == lexer->lookahead`:
    the byte is sign-extended. -/
def char_matches (d : Nat) (l : Nat) : Bool :=
  (if d < 128 then (d : Int) else (d : Int) - 256) == (l : Int)

/-- Contents of a byte string up to its first NUL, for `strcmp`. -/
def cstr (s : List Nat) : List Nat := s.takeWhile (fun c => c != 0)

/-- Matching loop of `scan_heredoc_end_identifier`: consume while the
    line matches the delimiter.  The bounds test on
    `current_leading_word.size < delimiter.size` is checked before the
    delimiter byte is read (the C code reads first and then exits the
    loop, with the same observable result). -/
def scan_heredoc_end_loop : Nat → Heredoc → Lexer → (Heredoc × Lexer)
  | 0, heredoc, lexer => (heredoc, lexer)
  | fuel + 1, heredoc, lexer =>
    if lexer.lookahead ≠ 0 ∧ lexer.lookahead ≠ 10 ∧
        heredoc.current_leading_word.length < heredoc.delimiter.length ∧
        char_matches (heredoc.delimiter.getD heredoc.current_leading_word.length 0)
          lexer.lookahead = true then
      scan_heredoc_end_loop fuel
        { heredoc with current_leading_word :=
            heredoc.current_leading_word ++ [lexer.lookahead % 256] }
        (advance lexer)
    else (heredoc, lexer)

/-- The `scan_heredoc_end_identifier` helper: compare the current line
    against the delimiter byte for byte, rebuilding
    `current_leading_word`; equality is C `strcmp` equality. -/
def scan_heredoc_end_identifier (heredoc : Heredoc) (lexer : Lexer) :
    (Bool × Heredoc × Lexer) :=
  let h0 := { heredoc with current_leading_word := reset_string heredoc.current_leading_word }
  let res :=
    if 0 < h0.delimiter.length then scan_heredoc_end_loop h0.delimiter.length h0 lexer
    else (h0, lexer)
  let h2 := { res.1 with current_leading_word := res.1.current_leading_word ++ [0] }
  (if h2.delimiter.length == 0 then false
   else cstr h2.current_leading_word == cstr h2.delimiter, h2, res.2)

/-- The `scan_heredoc_start` helper: skip whitespace, record rawness
    from a leading quote or backslash, then read the delimiter word. -/
def scan_heredoc_start (heredoc : Heredoc) (lexer : Lexer) :
    (Bool × Heredoc × Lexer × Option TokenType) :=
  let lexer := advance_while iswspace (lexer.input.length + 2) lexer
  let sym := some HEREDOC_START
  let h := { heredoc with is_raw :=
    lexer.lookahead == 39 || lexer.lookahead == 34 || lexer.lookahead == 92 }
  match advance_word lexer h.delimiter with
  | (found_delimiter, word, lexer2) =>
    let h2 := { h with delimiter := word }
    if found_delimiter = false then
      (false, { h2 with delimiter := reset_string h2.delimiter }, lexer2, sym)
    else (true, h2, lexer2, sym)

/-- Loop of `scan_heredoc_content`; `did_advance` is the loop-carried
    flag.  Each continuing iteration advances the lexer, so the fuel
    (always more than the remaining input) is never exhausted. -/
def scan_heredoc_content_loop (middle_type end_type : TokenType) :
    Nat → Bool → St → (Bool × St)
  | 0, _, st => (false, st)
  | fuel + 1, did_advance, st =>
    if st.look = 0 then
      -- case '\0'
      if st.atEof ∧ did_advance then
        (true, (st.modifyBack reset_heredoc).setSym end_type)
      else (false, st)
    else if st.look = 92 then
      -- case '\\'
      scan_heredoc_content_loop middle_type end_type fuel true st.advance.advance
    else if st.look = 36 then
      -- case '$'
      if st.back.is_raw then
        scan_heredoc_content_loop middle_type end_type fuel true st.advance
      else if did_advance then
        let st := ((st.mark_end.setSym middle_type).modifyBack
          (fun h => { h with started := true })).advance
        if iswalpha st.look || st.look == 123 || st.look == 40 then (true, st)
        else scan_heredoc_content_loop middle_type end_type fuel did_advance st
      else if middle_type = HEREDOC_BODY_BEGINNING ∧ get_column st.lx = 0 then
        (true, (st.setSym middle_type).modifyBack (fun h => { h with started := true }))
      else (false, st)
    else if st.look = 10 then
      -- case '\n'
      let st := if ¬ did_advance then st.skip else st.advance
      let st :=
        if st.back.allows_indent then
          st.withLx (advance_while iswspace (st.lx.input.length + 2) st.lx)
        else st
      let st := (st.setSym (if st.back.started then middle_type else end_type)).mark_end
      match scan_heredoc_end_identifier st.back st.lx with
      | (ok, h2, lexer2) =>
        let st := (st.modifyBack (fun _ => h2)).withLx lexer2
        if ok then
          if st.sym = some HEREDOC_END then (true, st.popBack) else (true, st)
        else scan_heredoc_content_loop middle_type end_type fuel true st
    else
      -- default
      let step : (Bool × St) ⊕ St :=
        if get_column st.lx = 0 then
          let st := st.withLx (advance_while iswspace (st.lx.input.length + 2) st.lx)
          if end_type ≠ SIMPLE_HEREDOC_BODY then
            let st := st.setSym middle_type
            match scan_heredoc_end_identifier st.back st.lx with
            | (ok, h2, lexer2) =>
              let st := (st.modifyBack (fun _ => h2)).withLx lexer2
              if ok then Sum.inl (true, st) else Sum.inr st
          else
            let st := (st.setSym end_type).mark_end
            match scan_heredoc_end_identifier st.back st.lx with
            | (ok, h2, lexer2) =>
              let st := (st.modifyBack (fun _ => h2)).withLx lexer2
              if ok then Sum.inl (true, st) else Sum.inr st
        else Sum.inr st
      match step with
      | Sum.inl r => r
      | Sum.inr st =>
        scan_heredoc_content_loop middle_type end_type fuel true st.advance

/-- The `scan_heredoc_content` function. -/
def scan_heredoc_content (middle_type end_type : TokenType) (st : St) :
    (Bool × St) :=
  scan_heredoc_content_loop middle_type end_type (st.lx.input.length + 2) false st

/-! ## The goto targets at the end of `scan`

`scan` ends in four labelled blocks (`regex:`, `extglob_pattern:`,
`expansion_word:`, `brace_start:`) that fall through into one another
and are also entered by `goto` from earlier handlers.  Each is a
function from the scan state to the final result of `scan`. -/

/-- The `brace_start:` block: `{digits..digits}` ranges.  The context
    stack is deliberately not touched. -/
def brace_start_tail (vs : ValidFn) (st : St) : Bool × St :=
  if vs BRACE_START && !(in_error_recovery vs) then
    let st := st.withLx (advance_while iswspace (st.lx.input.length + 2) st.lx)
    if st.look != 123 then (false, st)
    else
      let st := st.advance.mark_end
      let st := st.withLx (advance_while isdigit (st.lx.input.length + 2) st.lx)
      if st.look != 46 then (false, st)
      else
        let st := st.advance
        if st.look != 46 then (false, st)
        else
          let st := st.advance
          let st := st.withLx (advance_while isdigit (st.lx.input.length + 2) st.lx)
          if st.look != 125 then (false, st)
          else (true, st.setSym BRACE_START)
  else (false, st)

/-- Inner parenthesis scan of the `expansion_word:` block
    (`while (lexer->lookahead != ')' && !lexer->eof(lexer))`); `inl` is
    an early return of the whole scan, `inr` carries the two flags and
    the state at loop exit. -/
def expansion_word_paren_loop :
    Nat → Bool → Bool → St → ((Bool × St) ⊕ (Bool × Bool × St))
  | 0, advanced_once, advance_once_space, st =>
    Sum.inr (advanced_once, advance_once_space, st)
  | fuel + 1, advanced_once, advance_once_space, st =>
    if st.look != 41 && !st.atEof then
      if st.look == 36 then
        let st := st.mark_end.advance
        if st.look == 123 || st.look == 40 || st.look == 39 || iswalnum st.look then
          Sum.inl (true, st.setSym EXPANSION_WORD)
        else expansion_word_paren_loop fuel true advance_once_space st
      else
        if should_stop_at_pattern_operators st.sc && st.look == 93 then
          Sum.inl (true, st.mark_end.setSym EXPANSION_WORD)
        else if should_stop_at_pattern_operators st.sc && (st.look == 35 || st.look == 37) then
          Sum.inl (true, st.mark_end.setSym EXPANSION_WORD)
        else if should_stop_at_pattern_operators st.sc && st.look == 58 then
          Sum.inl (true, st.mark_end.setSym EXPANSION_WORD)
        else
          expansion_word_paren_loop fuel (advanced_once || !(iswspace st.look))
            (advance_once_space || iswspace st.look) st.advance
    else Sum.inr (advanced_once, advance_once_space, st)

/-- Outer `for (;;)` loop of the `expansion_word:` block. -/
def expansion_word_loop :
    Nat → Bool → Bool → St → (Bool × St)
  | 0, _, _, st => (false, st)
  | fuel + 1, advanced_once, advance_once_space, st =>
    if st.look == 34 then (false, st)
    else
      let dstep : (Bool × St) ⊕ (Bool × St) :=
        if st.look == 36 then
          let st2 := st.mark_end.advance
          if st2.look == 123 || st2.look == 40 || st2.look == 39 || iswalnum st2.look then
            Sum.inl (true, st2.setSym EXPANSION_WORD)
          else Sum.inr (true, st2)
        else Sum.inr (advanced_once, st)
      match dstep with
      | Sum.inl r => r
      | Sum.inr (advanced_once, st) =>
        if st.look == 47 && should_stop_at_pattern_slash st.sc then
          (true, st.mark_end.setSym EXPANSION_WORD)
        else if st.look == 125 && in_parameter_expansion st.sc then
          (true, st.mark_end.setSym EXPANSION_WORD)
        else
          let pstep : (Bool × St) ⊕ (Bool × Bool × St) :=
            if st.look == 40 && !(advanced_once || advance_once_space) then
              let st2 := st.mark_end.advance
              match expansion_word_paren_loop (st2.lx.input.length + 2)
                  advanced_once advance_once_space st2 with
              | Sum.inl r => Sum.inl r
              | Sum.inr (a2, sp2, st3) =>
                let st3 := st3.mark_end
                if st3.look == 41 then Sum.inr (true, sp2, st3.advance.mark_end)
                else Sum.inl (false, st3)
            else Sum.inr (advanced_once, advance_once_space, st)
          match pstep with
          | Sum.inl r => r
          | Sum.inr (advanced_once, advance_once_space, st) =>
            if st.look == 39 then (false, st)
            else if st.atEof then (false, st)
            else if should_stop_at_pattern_operators st.sc && st.look == 93 then
              (true, st.mark_end.setSym EXPANSION_WORD)
            else if should_stop_at_pattern_operators st.sc &&
                (st.look == 35 || st.look == 37 || st.look == 47) &&
                (st.look == 47 &&
                  get_current_context st.sc == CTX_PARAMETER_PATTERN_SUBSTITUTE &&
                  !advanced_once) then
              (true, st.mark_end.setSym EXPANSION_WORD)
            else
              expansion_word_loop fuel (advanced_once || !(iswspace st.look))
                (advance_once_space || iswspace st.look) st.advance

/-- The `expansion_word:` block. -/
def expansion_word_tail (vs : ValidFn) (st : St) : Bool × St :=
  if vs EXPANSION_WORD then
    if st.was_just_variable_name && (st.look == 35 || st.look == 37) then (false, st)
    else expansion_word_loop (st.lx.input.length + 2) false false st
  else brace_start_tail vs st

/-- State of the balancing loop inside the `extglob_pattern:` block. -/
structure ExtglobState where
  saw_non_alphadot : Bool
  paren_depth : Nat
  bracket_depth : Nat
  brace_depth : Nat
  deriving DecidableEq, Repr

/-- Depth bookkeeping of the `extglob_pattern:` loop body. -/
def extglob_update (s : ExtglobState) (c : Nat) : ExtglobState :=
  if c == 40 then { s with paren_depth := s.paren_depth + 1 }
  else if c == 91 then { s with bracket_depth := s.bracket_depth + 1 }
  else if c == 123 then { s with brace_depth := s.brace_depth + 1 }
  else if c == 41 then { s with paren_depth := s.paren_depth - 1 }
  else if c == 93 then { s with bracket_depth := s.bracket_depth - 1 }
  else if c == 125 then { s with brace_depth := s.brace_depth - 1 }
  else s

/-- The `state.done` test of the `extglob_pattern:` loop body. -/
def extglob_done (s : ExtglobState) (c : Nat) : Bool :=
  (c == 41 && s.paren_depth == 0) ||
  (c == 93 && s.bracket_depth == 0) ||
  (c == 125 && s.brace_depth == 0)

/-- Trailing part of one iteration of the `extglob_pattern:` loop
    (after the `$` handling): space/quote exits, the escape handling,
    and the advance at the end of the loop body. -/
def extglob_iter_tail (s3 : ExtglobState) (was_space : Bool) (st : St) :
    (Bool × St) ⊕ (ExtglobState × St) :=
  if was_space then
    Sum.inl (s3.saw_non_alphadot, (st.mark_end.setSym EXTGLOB_PATTERN).setLgpd 0)
  else if st.look == 34 then
    Sum.inl (s3.saw_non_alphadot, (st.mark_end.setSym EXTGLOB_PATTERN).setLgpd 0)
  else
    let cont : ExtglobState × St :=
      if st.look == 92 then
        let s4 :=
          if !(iswalpha st.look) && st.look != 46 && st.look != 92 then
            { s3 with saw_non_alphadot := true }
          else s3
        let stA := st.advance
        (s4, if iswspace stA.look || stA.look == 34 then stA.advance else stA)
      else
        let s4 :=
          if !(iswalpha st.look) && st.look != 46 && st.look != 92 then
            { s3 with saw_non_alphadot := true }
          else s3
        (s4, st.advance)
    let st3 := if !was_space then cont.2.mark_end else cont.2
    Sum.inr (cont.1, st3)

/-- One iteration of the `while (!state.done)` loop of the
    `extglob_pattern:` block; `Sum.inl` is a result of the whole scan,
    `Sum.inr` the state carried into the next iteration.  The depths
    are `uint32_t` in C; the wrap-around of a decrement at 0 coincides
    with `state.done`, on which the loop exits, so truncated `Nat`
    subtraction is observationally the same. -/
def extglob_iter (s : ExtglobState) (st : St) : (Bool × St) ⊕ (ExtglobState × St) :=
  if st.look == 0 then Sum.inl (false, st)
  else
    let s2 := extglob_update s st.look
    let done := extglob_done s st.look
    let bstep : (Bool × St) ⊕ St :=
      if st.look == 124 then
        let st2 := st.mark_end.advance
        if s2.paren_depth == 0 && s2.bracket_depth == 0 && s2.brace_depth == 0 then
          Sum.inl (true, st2.setSym EXTGLOB_PATTERN)
        else Sum.inr st2
      else Sum.inr st
    match bstep with
    | Sum.inl r => Sum.inl r
    | Sum.inr st =>
      if !done then
        let was_space := iswspace st.look
        let dstep : (Bool × St) ⊕ (ExtglobState × St) :=
          if st.look == 36 then
            let st2 := st.mark_end
            let s3 :=
              if !(iswalpha st2.look) && st2.look != 46 && st2.look != 92 then
                { s2 with saw_non_alphadot := true }
              else s2
            let st2 := st2.advance
            if st2.look == 40 || st2.look == 123 then
              Sum.inl (s3.saw_non_alphadot,
                (st2.setSym EXTGLOB_PATTERN).setLgpd s3.paren_depth)
            else Sum.inr (s3, st2)
          else Sum.inr (s2, st)
        match dstep with
        | Sum.inl r => Sum.inl r
        | Sum.inr (s3, st) => extglob_iter_tail s3 was_space st
      else
        Sum.inl (s2.saw_non_alphadot, (st.setSym EXTGLOB_PATTERN).setLgpd 0)

/-- The `while (!state.done)` loop of the `extglob_pattern:` block,
    iterating `extglob_iter`. -/
def extglob_loop : Nat → ExtglobState → St → (Bool × St)
  | 0, _, st => (false, st)
  | fuel + 1, s, st =>
    match extglob_iter s st with
    | Sum.inl r => r
    | Sum.inr (s2, st2) => extglob_loop fuel s2 st2

/-- The `extglob_pattern:` block. -/
def extglob_tail (vs : ValidFn) (st : St) : Bool × St :=
  if in_parameter_expansion_context st.sc && vs EXTGLOB_PATTERN then (false, st)
  else if vs EXTGLOB_PATTERN && !(in_error_recovery vs) && !(vs REGEX) &&
      !(vs REGEX_NO_SLASH) && !(vs REGEX_NO_SPACE) then
    let st := st.withLx (advance_while iswspace (st.lx.input.length + 2) st.lx)
    if st.look == 63 || st.look == 42 || st.look == 43 || st.look == 64 ||
        st.look == 33 || st.look == 45 || st.look == 41 || st.look == 92 ||
        st.look == 46 || st.look == 91 || iswalpha st.look then
      let step1 : (Bool × St) ⊕ St :=
        if st.look == 92 then
          let st2 := st.advance
          if (iswspace st2.look || st2.look == 34) && st2.look != 13 && st2.look != 10 then
            Sum.inr st2.advance
          else Sum.inl (false, st2)
        else Sum.inr st
      match step1 with
      | Sum.inl r => r
      | Sum.inr st =>
        let step2 : (Bool × St) ⊕ St :=
          if st.look == 41 && st.sc.last_glob_paren_depth == 0 then
            let st2 := st.mark_end.advance
            if iswspace st2.look then Sum.inl (false, st2) else Sum.inr st2
          else Sum.inr st
        match step2 with
        | Sum.inl r => r
        | Sum.inr st =>
          let st := st.mark_end
          let was_non_alpha := !(iswalpha st.look)
          let step3 : (Bool × St) ⊕ St :=
            if st.look != 91 then
              if st.look == 101 then
                let st2 := st.mark_end.advance
                if st2.look == 115 then
                  let st3 := st2.advance
                  if st3.look == 97 then
                    let st4 := st3.advance
                    if st4.look == 99 then
                      let st5 := st4.advance
                      if iswspace st5.look then Sum.inl (false, st5) else Sum.inr st5
                    else Sum.inr st4
                  else Sum.inr st3
                else Sum.inr st2
              else Sum.inr st.advance
            else Sum.inr st
          match step3 with
          | Sum.inl r => r
          | Sum.inr st =>
            let step4 : (Bool × St) ⊕ St :=
              if st.look == 45 then
                let st2 := st.mark_end.advance
                let st2 := st2.withLx (advance_while iswalnum (st2.lx.input.length + 2) st2.lx)
                if st2.look == 41 || st2.look == 92 || st2.look == 46 then
                  Sum.inl (false, st2)
                else Sum.inr st2.mark_end
              else Sum.inr st
            match step4 with
            | Sum.inl r => r
            | Sum.inr st =>
              let step5 : (Bool × St) ⊕ St :=
                if st.look == 41 && st.sc.last_glob_paren_depth == 0 then
                  let st2 := st.mark_end.advance
                  if iswspace st2.look then
                    Sum.inl (was_non_alpha, st2.setSym EXTGLOB_PATTERN)
                  else Sum.inr st2
                else Sum.inr st
              match step5 with
              | Sum.inl r => r
              | Sum.inr st =>
                if iswspace st.look then
                  (true, (st.mark_end.setSym EXTGLOB_PATTERN).setLgpd 0)
                else
                  let step6 : (Bool × St) ⊕ St :=
                    if st.look == 36 then
                      let st2 := st.mark_end.advance
                      if st2.look == 123 || st2.look == 40 then
                        Sum.inl (true, st2.setSym EXTGLOB_PATTERN)
                      else Sum.inr st2
                    else Sum.inr st
                  match step6 with
                  | Sum.inl r => r
                  | Sum.inr st =>
                    if st.look == 124 then
                      (true, (st.mark_end.advance).setSym EXTGLOB_PATTERN)
                    else if !(iswalnum st.look) && st.look != 40 && st.look != 34 &&
                        st.look != 91 && st.look != 63 && st.look != 47 &&
                        st.look != 92 && st.look != 95 && st.look != 42 then
                      (false, st)
                    else
                      extglob_loop (st.lx.input.length + 2)
                        { saw_non_alphadot := was_non_alpha
                          paren_depth := st.sc.last_glob_paren_depth
                          bracket_depth := 0
                          brace_depth := 0 } st
    else (false, st.setLgpd 0)
  else expansion_word_tail vs st

/-- State of the balanced-expression loop in the `regex:` block.  The
    `done` flag is realized by control flow. -/
structure RegexState where
  advanced_once : Bool
  found_non_alnumdollarunderdash : Bool
  last_was_escape : Bool
  in_single_quote : Bool
  paren_depth : Nat
  bracket_depth : Nat
  brace_depth : Nat
  deriving DecidableEq, Repr

/-- Code run when the `regex:` loop exits with `state.done`. -/
def regex_finalize (vs : ValidFn) (s : RegexState) (st : St) : Bool × St :=
  let st := st.setSym
    (if vs REGEX_NO_SLASH then REGEX_NO_SLASH
     else if vs REGEX_NO_SPACE then REGEX_NO_SPACE
     else REGEX)
  if vs REGEX && !s.advanced_once then (false, st) else (true, st)

/-- Depth bookkeeping for one character of the `regex:` loop. -/
def regex_update (s : RegexState) (c : Nat) : RegexState :=
  if c == 92 then { s with last_was_escape := true }
  else if c == 40 then
    { s with paren_depth := s.paren_depth + 1, last_was_escape := false }
  else if c == 91 then
    { s with bracket_depth := s.bracket_depth + 1, last_was_escape := false }
  else if c == 123 then
    { s with
        brace_depth := if !s.last_was_escape then s.brace_depth + 1 else s.brace_depth
        last_was_escape := false }
  else if c == 41 then
    { s with paren_depth := s.paren_depth - 1, last_was_escape := false }
  else if c == 93 then
    { s with bracket_depth := s.bracket_depth - 1, last_was_escape := false }
  else if c == 125 then
    { s with brace_depth := s.brace_depth - 1, last_was_escape := false }
  else { s with last_was_escape := false }

/-- The `state.done` test of the `regex:` loop: an unescaped closer seen
    at depth zero. -/
def regex_done (s : RegexState) (c : Nat) : Bool :=
  (c == 41 && s.paren_depth == 0) || (c == 93 && s.bracket_depth == 0) ||
  (c == 125 && s.brace_depth == 0)

/-- The `vs REGEX` arm of the regex loop body. -/
def regex_core_regex (s2 : RegexState) (st : St) : (Bool × St) ⊕ (RegexState × St) :=
  let was_space := !s2.in_single_quote && iswspace st.look
  let st := st.advance
  let st := if !was_space || s2.paren_depth > 0 then st.mark_end else st
  Sum.inr ({ s2 with advanced_once := true }, st)

/-- The `vs REGEX_NO_SLASH` arm of the regex loop body. -/
def regex_core_noslash (s2 : RegexState) (st : St) : (Bool × St) ⊕ (RegexState × St) :=
  if st.look == 47 then
    Sum.inl (s2.advanced_once, st.mark_end.setSym REGEX_NO_SLASH)
  else if st.look == 92 then
    let st := st.advance
    let s3 := { s2 with advanced_once := true }
    if !st.atEof && st.look != 91 && st.look != 47 then
      Sum.inr (s3, (st.advance.mark_end).enterCtx CTX_PARAMETER)
    else Sum.inr (s3, st)
  else
    let was_space := !s2.in_single_quote && iswspace st.look
    let st := st.advance
    let st := if !was_space then st.mark_end else st
    Sum.inr ({ s2 with advanced_once := true }, st)

/-- The `vs REGEX_NO_SPACE` arm of the regex loop body. -/
def regex_core_nospace (s2 : RegexState) (st : St) : (Bool × St) ⊕ (RegexState × St) :=
  if st.look == 92 then
    let s3 := { s2 with found_non_alnumdollarunderdash := true }
    let st := st.advance
    let st := if !st.atEof then st.advance else st
    Sum.inr (s3, st)
  else if st.look == 36 then
    let st := st.mark_end.advance
    if st.look == 40 then Sum.inl (false, st)
    else if iswspace st.look then Sum.inl (true, (st.setSym REGEX_NO_SPACE).mark_end)
    else Sum.inr (s2, st)
  else
    let was_space := !s2.in_single_quote && iswspace st.look
    if was_space && s2.paren_depth == 0 then
      Sum.inl (s2.found_non_alnumdollarunderdash, st.mark_end.setSym REGEX_NO_SPACE)
    else
      let s3 :=
        if !(iswalnum st.look) && st.look != 36 && st.look != 45 && st.look != 95 then
          { s2 with found_non_alnumdollarunderdash := true }
        else s2
      Sum.inr (s3, st.advance)

/-- The body of one `regex:` loop pass after the single-quote-exit step. -/
def regex_iter_core (vs : ValidFn) (s : RegexState) (st : St) : (Bool × St) ⊕ (RegexState × St) :=
  if st.look == 0 then Sum.inl (false, st)
  else if st.look == 39 then
    Sum.inr ({ s with
        in_single_quote := !s.in_single_quote
        advanced_once := true
        last_was_escape := false }, st.advance)
  else
    let s2 := regex_update s st.look
    let done := regex_done s st.look
    if done then Sum.inl (regex_finalize vs s2 st)
    else if vs REGEX then regex_core_regex s2 st
    else if vs REGEX_NO_SLASH then regex_core_noslash s2 st
    else if vs REGEX_NO_SPACE then regex_core_nospace s2 st
    else
      -- unreachable: the block guard requires one of the three regex
      -- terminals (the C loop would not terminate here)
      Sum.inl (false, st)

/-- One pass of the `while (!state.done)` loop of the `regex:` block:
    `Sum.inl` returns from `scan`, `Sum.inr` continues the loop. -/
def regex_iter (vs : ValidFn) (s0 : RegexState) (st0 : St) : (Bool × St) ⊕ (RegexState × St) :=
  -- leaving a single-quoted span pushes CTX_PARAMETER
  let st := if s0.in_single_quote && st0.look == 39 then
      (st0.advance.mark_end).enterCtx CTX_PARAMETER else st0
  let s := if s0.in_single_quote && st0.look == 39 then
      { s0 with in_single_quote := false } else s0
  regex_iter_core vs s st

/-- The `while (!state.done)` loop of the `regex:` block.  As with the
    extglob loop, a depth decrement at 0 coincides with `done`. -/
def regex_loop (vs : ValidFn) : Nat → RegexState → St → (Bool × St)
  | 0, _, st => (false, st)
  | fuel + 1, s, st =>
    match regex_iter vs s st with
    | Sum.inl r => r
    | Sum.inr (s2, st2) => regex_loop vs fuel s2 st2

/-- The `regex:` block after the optional whitespace skip. -/
def regex_tail_core (vs : ValidFn) (st : St) : Bool × St :=
  if (st.look != 34 && st.look != 39) ||
      ((st.look == 36 || st.look == 39) && vs REGEX_NO_SLASH) ||
      (st.look == 39 && vs REGEX_NO_SPACE) then
    if st.look == 36 && vs REGEX_NO_SLASH then
      let st2 := st.mark_end.advance
      if st2.look == 40 then (false, st2)
      else
        regex_loop vs (st2.lx.input.length + 2)
          { advanced_once := false, found_non_alnumdollarunderdash := false,
            last_was_escape := false, in_single_quote := false,
            paren_depth := 0, bracket_depth := 0, brace_depth := 0 } st2.mark_end
    else
      regex_loop vs (st.lx.input.length + 2)
        { advanced_once := false, found_non_alnumdollarunderdash := false,
          last_was_escape := false, in_single_quote := false,
          paren_depth := 0, bracket_depth := 0, brace_depth := 0 } st.mark_end
  else extglob_tail vs st

/-- The `regex:` block. -/
def regex_tail (vs : ValidFn) (st : St) : Bool × St :=
  if (vs REGEX || vs REGEX_NO_SLASH || vs REGEX_NO_SPACE) && !(in_error_recovery vs) then
    let st :=
      if vs REGEX || vs REGEX_NO_SPACE then
        st.withLx (advance_while iswspace (st.lx.input.length + 2) st.lx)
      else st
    regex_tail_core vs st
  else extglob_tail vs st

/-! ## The handler sequence of `scan`

Each top-to-bottom `if` block of `scan` is one handler: it either
returns from `scan` (`Step.ret`) or falls through to the next block
(`Step.next`), possibly with characters consumed. -/

/-- Result of one handler block. -/
inductive Step where
  | ret (b : Bool) (st : St)
  | next (st : St)
  deriving DecidableEq, Repr

/-- A handler block of `scan`. -/
def Handler := ValidFn → St → Step

/-- Newline absorption (the first block of `scan`): when NEWLINE is
    valid and a newline is next, the run of newlines is skipped, the
    end marked and the result symbol set — and control falls through;
    the block never returns. -/
def newline_handler : Handler := fun vs st =>
  if vs NEWLINE && !(in_error_recovery vs) then
    if st.look == 10 then
      let st := st.withLx (advance_while (fun c => c == 10) (st.lx.input.length + 2) st.lx)
      Step.next (st.mark_end.setSym NEWLINE)
    else Step.next st
  else Step.next st

/-- Context-aware closing brace for parameter expansions. -/
def closing_brace_handler : Handler := fun vs st =>
  if st.look == 125 && vs CLOSING_BRACE && !(in_error_recovery vs) then
    let active := get_current_context st.sc
    if active == CTX_PARAMETER || active == CTX_PARAMETER_PATTERN_SUFFIX ||
        active == CTX_PARAMETER_PATTERN_SUBSTITUTE then
      Step.ret true (((st.exitCtx active).setSym CLOSING_BRACE).advance)
    else Step.next st
  else Step.next st

/-- The CONCAT block. -/
def concat_handler : Handler := fun vs st =>
  if vs CONCAT && !(in_error_recovery vs) then
    let ctx := get_current_context st.sc
    let inParamish := ctx == CTX_PARAMETER || ctx == CTX_PARAMETER_PATTERN_SUFFIX ||
        ctx == CTX_PARAMETER_PATTERN_SUBSTITUTE || ctx == CTX_BRACE_EXPANSION
    let afterBig : Step ⊕ St :=
      if !(st.look == 0 || iswspace st.look || st.look == 62 || st.look == 60 ||
            (st.look == 41 && vs CLOSING_PAREN) || st.look == 40 || st.look == 59 ||
            st.look == 38 || st.look == 124 ||
            (st.look == 125 && inParamish) ||
            (st.look == 93 && vs CLOSING_BRACKET) ||
            (st.look == 91 && st.was_just_variable_name)) then
        let st := st.setSym CONCAT
        if st.look == 96 then
          -- a`b` : concat only if the second backtick ends the word
          let st := st.mark_end.advance
          let st := st.withLx (advance_while_lx
            (fun l => l.lookahead != 96 && !l.eof) (st.lx.input.length + 2) st.lx)
          if st.atEof then Sum.inl (Step.ret false st)
          else
            let st := if st.look == 96 then st.advance else st
            Sum.inl (Step.ret (iswspace st.look || st.atEof) st)
        else if st.look == 92 then
          let st := st.mark_end.advance
          if st.look == 34 || st.look == 39 || st.look == 92 then
            Sum.inl (Step.ret true st)
          else if st.atEof then Sum.inl (Step.ret false st)
          else Sum.inr st
        else Sum.inl (Step.ret true st)
      else Sum.inr st
    match afterBig with
    | Sum.inl r => r
    | Sum.inr st =>
      if iswspace st.look && inParamish && !(vs EXPANSION_WORD) then
        Step.ret true (st.setSym CONCAT)
      else Step.next st
  else Step.next st

/-- The BARE_DOLLAR block. -/
def bare_dollar_handler : Handler := fun vs st =>
  if vs BARE_DOLLAR && !(in_error_recovery vs) then
    let st :=
      if st.look == 32 || st.look == 9 then
        st.withLx (advance_while_lx
          (fun l => (l.lookahead == 32 || l.lookahead == 9) && !l.eof)
          (st.lx.input.length + 2) st.lx)
      else st
    if st.look == 36 then
      let st := st.advance
      if !(st.look == 34) then
        Step.ret true (setJBD true (st.mark_end.setSym BARE_DOLLAR))
      else Step.ret false st
    else Step.next st
  else Step.next st

/-- The PEEK_BARE_DOLLAR block: succeeds without consuming. -/
def peek_bare_dollar_handler : Handler := fun vs st =>
  if vs PEEK_BARE_DOLLAR && !(in_error_recovery vs) then
    if st.look == 36 then Step.ret true (st.setSym PEEK_BARE_DOLLAR)
    else Step.next st
  else Step.next st

/-- BRACE_START directly after a BARE_DOLLAR: the start of a parameter
    expansion, pushing CTX_PARAMETER. -/
def brace_start_dollar_handler : Handler := fun vs st =>
  if vs BRACE_START && !(in_error_recovery vs) then
    if st.look == 123 then
      if st.was_just_bare_dollar then
        let st := setJBD false st.advance
        Step.ret true (((st.setSym BRACE_START).mark_end).enterCtx CTX_PARAMETER)
      else Step.next st
    else Step.next st
  else Step.next st

/-- Flag-character loop of the ZSH_EXTENDED_GLOB_FLAGS case; the
    letter alternatives of the C condition are all subsumed by
    `iswalnum`, which is kept verbatim. -/
def zsh_glob_flag_char (c : Nat) : Bool :=
  iswalnum c || c == 46 || c == 105 || c == 113 || c == 98 || c == 109 ||
  c == 110 || c == 115 || c == 66 || c == 73 || c == 78 || c == 85 ||
  c == 88 || c == 99 || c == 101 || c == 108 || c == 102 || c == 97 ||
  c == 67 || c == 111

/-- The `while` loop consuming glob-flag characters; tracks whether at
    least one flag character was found. -/
def glob_flags_loop : Nat → Bool → Lexer → (Bool × Lexer)
  | 0, found, lexer => (found, lexer)
  | fuel + 1, found, lexer =>
    if lexer.lookahead != 0 && zsh_glob_flag_char lexer.lookahead then
      glob_flags_loop fuel true (advance lexer)
    else (found, lexer)

/-- Opening parentheses after BARE_DOLLAR, and `(#flags)` glob flags. -/
def opening_paren_handler : Handler := fun vs st =>
  if (vs OPENING_PAREN || vs DOUBLE_OPENING_PAREN || vs ZSH_EXTENDED_GLOB_FLAGS) &&
      !(in_error_recovery vs) then
    let st := st.withLx (advance_while iswspace (st.lx.input.length + 2) st.lx)
    if st.look == 40 then
      let st := st.advance.mark_end
      if st.was_just_bare_dollar then
        if st.look == 40 && vs DOUBLE_OPENING_PAREN then
          let st := setJBD false st.advance.mark_end
          Step.ret true ((st.enterCtx CTX_ARITHMETIC).setSym DOUBLE_OPENING_PAREN)
        else if vs OPENING_PAREN then
          let st := setJBD false st
          Step.ret true ((st.enterCtx CTX_COMMAND).setSym OPENING_PAREN)
        else Step.next st
      else if vs OPENING_PAREN || vs ZSH_EXTENDED_GLOB_FLAGS then
        if st.look == 35 && vs ZSH_EXTENDED_GLOB_FLAGS then
          let st := st.advance
          match glob_flags_loop (st.lx.input.length + 2) false st.lx with
          | (found_flags, lexer2) =>
            let st := st.withLx lexer2
            if found_flags && st.look == 41 then
              Step.ret true (st.advance.mark_end.setSym ZSH_EXTENDED_GLOB_FLAGS)
            else Step.ret false st
        else if vs OPENING_PAREN then
          Step.ret true ((setJBD false st).setSym OPENING_PAREN)
        else Step.next st
      else Step.next st
    else Step.next st
  else Step.next st

/-- Opening brackets: `[[`, `$[` and plain `[`. -/
def opening_bracket_handler : Handler := fun vs st =>
  if (vs OPENING_BRACKET || vs TEST_COMMAND_START) && !(in_error_recovery vs) then
    let st := st.withLx (advance_while iswspace (st.lx.input.length + 2) st.lx)
    if st.look == 91 then
      let st := st.advance
      if st.look == 91 && vs TEST_COMMAND_START then
        let st := setJBD false st.advance
        Step.ret true (((st.setSym TEST_COMMAND_START).mark_end).enterCtx CTX_TEST)
      else if st.was_just_bare_dollar && vs OPENING_BRACKET then
        let st := setJBD false st
        Step.ret true (((st.setSym OPENING_BRACKET).mark_end).enterCtx CTX_ARITHMETIC)
      else if vs OPENING_BRACKET then
        let st := setJBD false st
        Step.ret true ((st.setSym OPENING_BRACKET).mark_end)
      else Step.next st
    else Step.next st
  else Step.next st

/-- Closing brackets: `]]` pops CTX_TEST; a single `]` does not pop. -/
def closing_bracket_handler : Handler := fun vs st =>
  if (vs TEST_COMMAND_END || vs CLOSING_BRACKET) && !(in_error_recovery vs) then
    let st := st.withLx (advance_while iswspace (st.lx.input.length + 2) st.lx)
    if st.look == 93 then
      let st := st.advance
      if st.look == 93 && vs TEST_COMMAND_END then
        let st := st.advance
        Step.ret true (((st.setSym TEST_COMMAND_END).mark_end).exitCtx CTX_TEST)
      else if vs CLOSING_BRACKET then
        let st := setJBD false st
        Step.ret true ((st.setSym CLOSING_BRACKET).mark_end)
      else Step.ret false st
    else Step.next st
  else Step.next st

/-- Closing parentheses: both `))` and a single `)` pop CTX_ARITHMETIC. -/
def closing_paren_handler : Handler := fun vs st =>
  if (vs CLOSING_PAREN || vs CLOSING_DOUBLE_PAREN) && !(in_error_recovery vs) then
    let st := st.withLx (advance_while iswspace (st.lx.input.length + 2) st.lx)
    if st.look == 41 then
      let st := st.advance
      if st.look == 41 && vs CLOSING_DOUBLE_PAREN then
        let st := st.advance
        Step.ret true (((st.setSym CLOSING_DOUBLE_PAREN).mark_end).exitCtx CTX_ARITHMETIC)
      else if vs CLOSING_PAREN then
        Step.ret true (((st.setSym CLOSING_PAREN).mark_end).exitCtx CTX_ARITHMETIC)
      else Step.ret false st
    else Step.next st
  else Step.next st

/-- PATTERN_START: pushes CTX_PARAMETER_PATTERN_SUBSTITUTE on top of
    CTX_PARAMETER. -/
def pattern_start_handler : Handler := fun vs st =>
  if vs PATTERN_START && !(in_error_recovery vs) then
    if get_current_context st.sc == CTX_PARAMETER && st.look != 125 then
      Step.ret true
        (((st.enterCtx CTX_PARAMETER_PATTERN_SUBSTITUTE).setSym PATTERN_START).mark_end)
    else Step.next st
  else Step.next st

/-- PATTERN_SUFFIX_START: pushes CTX_PARAMETER_PATTERN_SUFFIX. -/
def pattern_suffix_start_handler : Handler := fun vs st =>
  if vs PATTERN_SUFFIX_START && !(in_error_recovery vs) then
    if get_current_context st.sc == CTX_PARAMETER && st.look != 125 then
      Step.ret true
        (((st.enterCtx CTX_PARAMETER_PATTERN_SUFFIX).setSym PATTERN_SUFFIX_START).mark_end)
    else Step.next st
  else Step.next st

/-- Colon inside a parameter expansion: consumed, then declined. -/
def colon_handler : Handler := fun vs st =>
  if in_parameter_expansion st.sc && st.look == 58 && !(in_error_recovery vs) then
    Step.ret false st.advance
  else Step.next st

/-- Hash operators inside a parameter expansion. -/
def hash_handler : Handler := fun vs st =>
  if in_parameter_expansion st.sc && st.look == 35 && !(in_error_recovery vs) then
    let st := st.advance
    if st.look == 35 then
      if vs DOUBLE_HASH_PATTERN then
        Step.ret true ((st.advance.setSym DOUBLE_HASH_PATTERN).mark_end)
      else Step.ret false st
    else
      if vs HASH_PATTERN then
        Step.ret true ((st.setSym HASH_PATTERN).mark_end)
      else Step.ret false st
  else Step.next st

/-- IMMEDIATE_DOUBLE_HASH: two `#` not followed by `}`. -/
def immediate_double_hash_handler : Handler := fun vs st =>
  if vs IMMEDIATE_DOUBLE_HASH && !(in_error_recovery vs) then
    if st.look == 35 then
      let st := st.mark_end.advance
      if st.look == 35 then
        let st := st.advance
        if st.look != 125 then
          Step.ret true ((st.setSym IMMEDIATE_DOUBLE_HASH).mark_end)
        else Step.next st
      else Step.next st
    else Step.next st
  else Step.next st

/-- Array subscript operators `*` and `@`. -/
def array_ops_handler : Handler := fun vs st =>
  if (vs ARRAY_STAR_TOKEN || vs ARRAY_AT_TOKEN) && !(in_error_recovery vs) then
    if st.look == 42 && vs ARRAY_STAR_TOKEN && !(vs REGEX) && !(vs REGEX_NO_SLASH) &&
        !(vs REGEX_NO_SPACE) then
      Step.ret true (((st.setSym ARRAY_STAR_TOKEN).advance).mark_end)
    else if st.look == 64 && vs ARRAY_AT_TOKEN then
      Step.ret true (((st.setSym ARRAY_AT_TOKEN).advance).mark_end)
    else Step.next st
  else Step.next st

/-- EMPTY_VALUE: succeeds without consuming anything. -/
def empty_value_handler : Handler := fun vs st =>
  if vs EMPTY_VALUE then
    if iswspace st.look || st.atEof || st.look == 59 || st.look == 38 then
      Step.ret true (st.setSym EMPTY_VALUE)
    else Step.next st
  else Step.next st

/-- Heredoc body when the top heredoc has not started. -/
def heredoc_body_handler : Handler := fun vs st =>
  if (vs HEREDOC_BODY_BEGINNING || vs SIMPLE_HEREDOC_BODY) &&
      st.sc.heredocs.length > 0 && !st.back.started && !(in_error_recovery vs) then
    match scan_heredoc_content HEREDOC_BODY_BEGINNING SIMPLE_HEREDOC_BODY st with
    | (b, st) => Step.ret b st
  else Step.next st

/-- HEREDOC_END: matches the delimiter at the current position and pops
    the heredoc.  Not gated on error recovery. -/
def heredoc_end_handler : Handler := fun vs st =>
  if vs HEREDOC_END && st.sc.heredocs.length > 0 then
    match scan_heredoc_end_identifier st.back st.lx with
    | (ok, h2, lexer2) =>
      let st := (st.modifyBack (fun _ => h2)).withLx lexer2
      if ok then Step.ret true ((st.popBack).setSym HEREDOC_END)
      else Step.next st
  else Step.next st

/-- Heredoc content when the top heredoc has started. -/
def heredoc_content_handler : Handler := fun vs st =>
  if vs HEREDOC_CONTENT && st.sc.heredocs.length > 0 && st.back.started &&
      !(in_error_recovery vs) then
    match scan_heredoc_content HEREDOC_CONTENT HEREDOC_END st with
    | (b, st) => Step.ret b st
  else Step.next st

/-- HEREDOC_START: reads the delimiter of the most recently pushed
    pending heredoc (`array_back`). -/
def heredoc_start_handler : Handler := fun vs st =>
  if vs HEREDOC_START && !(in_error_recovery vs) && st.sc.heredocs.length > 0 then
    match scan_heredoc_start st.back st.lx with
    | (b, h2, lexer2, sym2) =>
      Step.ret b { (st.modifyBack (fun _ => h2)).withLx lexer2 with sym := sym2 }
  else Step.next st

/-- The trailing RAW_DOLLAR attempt shared by the TEST_OPERATOR block. -/
def raw_dollar_step : Handler := fun vs st =>
  if vs RAW_DOLLAR && !(in_error_recovery vs) then
    match scan_raw_dollar st with
    | (true, st) => Step.ret true st
    | (false, st) => Step.next st
  else Step.next st

/-- The TEST_OPERATOR block after the backslash handling: the `-flag`
    word reader followed by the RAW_DOLLAR attempt. -/
def test_operator_step2 (vs : ValidFn) (st : St) : Step :=
  let st :=
    if st.look == 10 && !(vs NEWLINE) then
      let st := st.skip
      st.withLx (advance_while iswspace (st.lx.input.length + 2) st.lx)
    else st
  let step2 : Step ⊕ St :=
    if st.look == 45 then
      let st2 := st.advance
      let beforeAlpha := st2.lx.pos
      let st2 := st2.withLx (advance_while iswalpha (st2.lx.input.length + 2) st2.lx)
      let advanced_once := st2.lx.pos > beforeAlpha
      if iswspace st2.look && advanced_once then
        let st3 := st2.mark_end.advance
        let ctx := get_current_context st3.sc
        if st3.look == 125 &&
            (ctx == CTX_PARAMETER || ctx == CTX_PARAMETER_PATTERN_SUFFIX ||
              ctx == CTX_PARAMETER_PATTERN_SUBSTITUTE) then
          if vs EXPANSION_WORD then
            Sum.inl (Step.ret true ((st3.mark_end).setSym EXPANSION_WORD))
          else Sum.inl (Step.ret false st3)
        else Sum.inl (Step.ret true (st3.setSym TEST_OPERATOR))
      else if iswspace st2.look && vs EXTGLOB_PATTERN then
        Sum.inl (Step.ret true (st2.setSym EXTGLOB_PATTERN))
      else Sum.inr st2
    else Sum.inr st
  match step2 with
  | Sum.inl r => r
  | Sum.inr st => raw_dollar_step vs st

/-- The TEST_OPERATOR block, with its `goto`s into the regex and
    extglob tails and the embedded RAW_DOLLAR attempt. -/
def test_operator_handler : Handler := fun vs st =>
  if vs TEST_OPERATOR && !(vs EXPANSION_WORD) then
    let st := st.withLx (advance_while (fun c => iswspace c && c != 10)
      (st.lx.input.length + 2) st.lx)
    let step1 : Step ⊕ St :=
      if st.look == 92 then
        if vs EXTGLOB_PATTERN then
          Sum.inl (match extglob_tail vs st with | (b, st) => Step.ret b st)
        else if vs REGEX_NO_SPACE then
          Sum.inl (match regex_tail vs st with | (b, st) => Step.ret b st)
        else
          let st := st.skip
          if st.atEof then Sum.inl (Step.ret false st)
          else if st.look == 13 then
            let st := st.skip
            let st := if st.look == 10 then st.skip else st
            Sum.inr (st.withLx (advance_while iswspace (st.lx.input.length + 2) st.lx))
          else if st.look == 10 then
            let st := st.skip
            Sum.inr (st.withLx (advance_while iswspace (st.lx.input.length + 2) st.lx))
          else Sum.inl (Step.ret false st)
      else Sum.inr st
    match step1 with
    | Sum.inl r => r
    | Sum.inr st => test_operator_step2 vs st
  else Step.next st

/-- SIMPLE_VARIABLE_NAME: an identifier. -/
def simple_variable_name_handler : Handler := fun vs st =>
  if vs SIMPLE_VARIABLE_NAME && !(in_error_recovery vs) then
    let st := st.withLx (advance_while iswspace (st.lx.input.length + 2) st.lx)
    if iswalpha st.look || st.look == 95 then
      let before := st.lx.pos
      let st := st.withLx (advance_while (fun c => iswalnum c || c == 95)
        (st.lx.input.length + 2) st.lx)
      if st.lx.pos > before then
        Step.ret true (setJBD false (st.mark_end.setSym SIMPLE_VARIABLE_NAME))
      else Step.next st
    else Step.next st
  else Step.next st

/-- SPECIAL_VARIABLE_NAME: `* @ ? ! # - $ _` or a digit; `#` and `!`
    are withheld inside parameter expansions. -/
def special_variable_name_handler : Handler := fun vs st =>
  if vs SPECIAL_VARIABLE_NAME && !(in_error_recovery vs) then
    let st := st.withLx (advance_while iswspace (st.lx.input.length + 2) st.lx)
    let in_param_expand := in_parameter_expansion_context st.sc
    if st.look == 42 || st.look == 64 || st.look == 63 || st.look == 33 ||
        st.look == 35 || st.look == 45 || st.look == 36 || st.look == 95 ||
        iswdigit st.look then
      let flag_char := st.look == 35 || st.look == 33
      let st := st.advance
      if !(in_param_expand && flag_char) then
        Step.ret true (setJBD false (st.mark_end.setSym SPECIAL_VARIABLE_NAME))
      else Step.ret false st
    else Step.next st
  else Step.next st

/-- Leading whitespace/line-continuation loop of the VARIABLE_NAME
    block; `inl` is an early result of the whole scan. -/
def variable_name_ws_loop (vs : ValidFn) : Nat → St → ((Bool × St) ⊕ St)
  | 0, st => Sum.inr st
  | fuel + 1, st =>
    if (st.look == 32 || st.look == 9 || st.look == 13 ||
        (st.look == 10 && !(vs NEWLINE))) && !(vs EXPANSION_WORD) then
      variable_name_ws_loop vs fuel st.skip
    else if st.look == 92 then
      let st := st.skip
      if st.atEof then
        Sum.inl (true, setScJVN (setJBD false (st.mark_end.setSym VARIABLE_NAME)))
      else
        let st := if st.look == 13 then st.skip else st
        if st.look == 10 then variable_name_ws_loop vs fuel st.skip
        else
          if st.look == 92 && vs EXPANSION_WORD then Sum.inl (expansion_word_tail vs st)
          else Sum.inl (false, st)
    else Sum.inr st

/-- Identifier consumption loop of the VARIABLE_NAME block, tracking
    whether everything seen so far was a digit. -/
def ident_loop : Nat → Bool → Lexer → (Bool × Lexer)
  | 0, is_number, lexer => (is_number, lexer)
  | fuel + 1, is_number, lexer =>
    if iswdigit lexer.lookahead then ident_loop fuel is_number (advance lexer)
    else if iswalpha lexer.lookahead || lexer.lookahead == 95 then
      ident_loop fuel false (advance lexer)
    else (is_number, lexer)

/-- The tail of the VARIABLE_NAME block after the identifier loop. -/
def variable_name_final (vs : ValidFn) (is_number0 : Bool) (st : St) : Step :=
  match ident_loop (st.lx.input.length + 2) is_number0 st.lx with
  | (is_number, lexer2) =>
    let st := st.withLx lexer2
    if is_number && vs FILE_DESCRIPTOR && (st.look == 62 || st.look == 60) then
      Step.ret true (st.setSym FILE_DESCRIPTOR)
    else if vs VARIABLE_NAME then
      if st.look == 43 then
        let st2 := st.mark_end.advance
        let ctx := get_current_context st2.sc
        if st2.look == 61 || st2.look == 58 ||
            (ctx == CTX_PARAMETER || ctx == CTX_PARAMETER_PATTERN_SUFFIX ||
              ctx == CTX_PARAMETER_PATTERN_SUBSTITUTE) then
          Step.ret true (setScJVN (setJBD false (st2.setSym VARIABLE_NAME)))
        else Step.ret false st2
      else if st.look == 47 then Step.ret false st
      else
        let ctx := get_current_context st.sc
        if st.look == 61 || st.look == 91 || st.look == 37 ||
            (st.look == 35 && !is_number) || st.look == 64 ||
            (st.look == 45 &&
              (ctx == CTX_PARAMETER || ctx == CTX_PARAMETER_PATTERN_SUFFIX ||
                ctx == CTX_PARAMETER_PATTERN_SUBSTITUTE)) then
          Step.ret true (setScJVN (setJBD false ((st.mark_end).setSym VARIABLE_NAME)))
        else if st.look == 63 then
          let st2 := st.mark_end.advance
          Step.ret (iswalpha st2.look)
            (setScJVN (setJBD false (st2.setSym VARIABLE_NAME)))
        else Step.ret false st
    else Step.ret false st

/-- The initial-identifier-character dispatch of the VARIABLE_NAME
    block, with its `goto`s to the brace-range, expansion-word and
    extglob tails. -/
def variable_name_stepC (vs : ValidFn) (st : St) : Step :=
  let stepC : Step ⊕ (Bool × St) :=
    if iswdigit st.look then Sum.inr (true, st.advance)
    else if iswalpha st.look || st.look == 95 then Sum.inr (false, st.advance)
    else if st.look == 123 then
      Sum.inl (match brace_start_tail vs st with | (b, st) => Step.ret b st)
    else if vs EXPANSION_WORD then
      Sum.inl (match expansion_word_tail vs st with | (b, st) => Step.ret b st)
    else if vs EXTGLOB_PATTERN then
      Sum.inl (match extglob_tail vs st with | (b, st) => Step.ret b st)
    else Sum.inl (Step.ret false st)
  match stepC with
  | Sum.inl r => r
  | Sum.inr (is_number0, st) => variable_name_final vs is_number0 st

/-- The HEREDOC_ARROW reader of the VARIABLE_NAME block. -/
def variable_name_stepB (vs : ValidFn) (st : St) : Step :=
  let stepB : Step ⊕ St :=
    if vs HEREDOC_ARROW && st.look == 60 then
      let st2 := st.advance
      if st2.look == 60 then
        let st2 := st2.advance
        if st2.look == 45 then
          let st2 := st2.advance
          let st2 := { st2 with sc :=
            { st2.sc with heredocs :=
                st2.sc.heredocs ++ [{ heredoc_new with allows_indent := true }] } }
          Sum.inl (Step.ret true (st2.setSym HEREDOC_ARROW_DASH))
        else if st2.look == 60 || st2.look == 61 then
          Sum.inl (Step.ret false st2)
        else
          let st2 := { st2 with sc :=
            { st2.sc with heredocs := st2.sc.heredocs ++ [heredoc_new] } }
          Sum.inl (Step.ret true (st2.setSym HEREDOC_ARROW))
      else Sum.inl (Step.ret false st2)
    else Sum.inr st
  match stepB with
  | Sum.inl r => r
  | Sum.inr st => variable_name_stepC vs st

/-- The special-character peek of the VARIABLE_NAME block. -/
def variable_name_stepA (vs : ValidFn) (st : St) : Step :=
  -- no '*', '@', '?', '-', '$', '0', '_', '#'
  let stepA : Step ⊕ St :=
    if !(vs EXPANSION_WORD) &&
        (st.look == 42 || st.look == 64 || st.look == 63 || st.look == 45 ||
          st.look == 48 || st.look == 95 || st.look == 35) then
      let st2 := st.mark_end.advance
      if st2.look == 61 || st2.look == 91 || st2.look == 58 || st2.look == 45 ||
          st2.look == 37 || st2.look == 47 then
        Sum.inl (Step.ret false st2)
      else if vs EXTGLOB_PATTERN && iswspace st2.look then
        Sum.inl (Step.ret true ((st2.mark_end).setSym EXTGLOB_PATTERN))
      else Sum.inr st2
    else Sum.inr st
  match stepA with
  | Sum.inl r => r
  | Sum.inr st => variable_name_stepB vs st

/-- The unified VARIABLE_NAME / FILE_DESCRIPTOR / HEREDOC_ARROW block. -/
def variable_name_handler : Handler := fun vs st =>
  if (vs VARIABLE_NAME || vs FILE_DESCRIPTOR || vs HEREDOC_ARROW) &&
      !(vs REGEX_NO_SLASH) && !(in_error_recovery vs) then
    match variable_name_ws_loop vs (st.lx.input.length + 2) st with
    | Sum.inl r => Step.ret r.1 r.2
    | Sum.inr st => variable_name_stepA vs st
  else Step.next st

/-- The second BARE_DOLLAR attempt (via `scan_raw_dollar`), just before
    the regex block. -/
def bare_dollar2_handler : Handler := fun vs st =>
  if vs BARE_DOLLAR && !(in_error_recovery vs) then
    match scan_raw_dollar st with
    | (true, st) => Step.ret true st
    | (false, st) => Step.next st
  else Step.next st

/-- The handler blocks of `scan` in source order; the regex tail (and
    through it the extglob, expansion-word and brace-range tails)
    follows them. -/
def main_handlers : List Handler :=
  [newline_handler, closing_brace_handler, concat_handler, bare_dollar_handler,
   peek_bare_dollar_handler, brace_start_dollar_handler, opening_paren_handler,
   opening_bracket_handler, closing_bracket_handler, closing_paren_handler,
   pattern_start_handler, pattern_suffix_start_handler, colon_handler,
   hash_handler, immediate_double_hash_handler, array_ops_handler,
   empty_value_handler, heredoc_body_handler, heredoc_end_handler,
   heredoc_content_handler, heredoc_start_handler, test_operator_handler,
   simple_variable_name_handler, special_variable_name_handler,
   variable_name_handler, bare_dollar2_handler]

/-- Run the handler blocks in order; a falling-through chain ends in
    the continuation `k` (the regex tail). -/
def runChain (vs : ValidFn) (k : St → Bool × St) : List Handler → St → Bool × St
  | [], st => k st
  | h :: hs, st =>
    match h vs st with
    | Step.ret b st2 => (b, st2)
    | Step.next st2 => runChain vs k hs st2

/-- The `scan` function: capture and clear the history flags, then run
    the handler blocks. -/
def scan (scanner : Scanner) (lexer : Lexer) (vs : ValidFn) : Bool × St :=
  let st : St :=
    { sc := { scanner with
        just_returned_variable_name := false
        just_returned_bare_dollar := false }
      lx := lexer
      sym := none
      was_just_variable_name := scanner.just_returned_variable_name
      was_just_bare_dollar := scanner.just_returned_bare_dollar }
  runChain vs (regex_tail vs) main_handlers st

/-! ## Concrete scan instances used by the claims

Valid-terminal sets are written as pattern matches so that they reduce
definitionally. -/

/-- Valid set containing only NEWLINE. -/
def vsNEWLINE : ValidFn := fun t => match t with | NEWLINE => true | _ => false

/-- Valid set containing only PATTERN_START. -/
def vsPATTERN_START : ValidFn := fun t => match t with | PATTERN_START => true | _ => false

/-- Valid set containing only PATTERN_SUFFIX_START. -/
def vsPATTERN_SUFFIX_START : ValidFn :=
  fun t => match t with | PATTERN_SUFFIX_START => true | _ => false

/-- Valid set containing only CLOSING_BRACE. -/
def vsCLOSING_BRACE : ValidFn := fun t => match t with | CLOSING_BRACE => true | _ => false

/-- Valid set containing only HEREDOC_START. -/
def vsHEREDOC_START : ValidFn := fun t => match t with | HEREDOC_START => true | _ => false

/-- Valid set containing only HEREDOC_ARROW. -/
def vsHEREDOC_ARROW : ValidFn := fun t => match t with | HEREDOC_ARROW => true | _ => false

/-- Valid set containing only ZSH_EXTENDED_GLOB_FLAGS. -/
def vsZSH : ValidFn := fun t => match t with | ZSH_EXTENDED_GLOB_FLAGS => true | _ => false

/-- Valid set containing only EMPTY_VALUE. -/
def vsEMPTY_VALUE : ValidFn := fun t => match t with | EMPTY_VALUE => true | _ => false

/-- Valid set containing only CONCAT. -/
def vsCONCAT : ValidFn := fun t => match t with | CONCAT => true | _ => false

/-- Valid set containing only PEEK_BARE_DOLLAR. -/
def vsPEEK : ValidFn := fun t => match t with | PEEK_BARE_DOLLAR => true | _ => false

/-- Valid set of the two heredoc body-opening terminals. -/
def vsHeredocBody : ValidFn :=
  fun t => match t with
  | HEREDOC_BODY_BEGINNING => true | SIMPLE_HEREDOC_BODY => true | _ => false

/-- Valid set containing only REGEX_NO_SLASH. -/
def vsREGEX_NO_SLASH : ValidFn := fun t => match t with | REGEX_NO_SLASH => true | _ => false

/-- Valid set containing only REGEX_NO_SPACE. -/
def vsREGEX_NO_SPACE : ValidFn := fun t => match t with | REGEX_NO_SPACE => true | _ => false

/-- Valid set containing only REGEX. -/
def vsREGEX : ValidFn := fun t => match t with | REGEX => true | _ => false

/-- Valid set containing only EXPANSION_WORD. -/
def vsEXPANSION_WORD : ValidFn := fun t => match t with | EXPANSION_WORD => true | _ => false

/-- Valid set of EXPANSION_WORD together with the ERROR_RECOVERY signal. -/
def vsEW_ER : ValidFn :=
  fun t => match t with
  | EXPANSION_WORD => true | ERROR_RECOVERY => true | _ => false

/-- Valid set of TEST_OPERATOR and EXTGLOB_PATTERN with ERROR_RECOVERY. -/
def vsTO_EXT_ER : ValidFn :=
  fun t => match t with
  | TEST_OPERATOR => true | EXTGLOB_PATTERN => true | ERROR_RECOVERY => true | _ => false

/-! ## C10: the context-stack operations are total -/

/-- C10: querying the current context of an empty stack yields CTX_NONE,
    and popping with an empty stack leaves the scanner unchanged, so a
    closing delimiter seen with no open context cannot corrupt the
    stack. -/
theorem c10_context_ops_total (scanner : Scanner) (expected : Nat)
    (h : scanner.context_stack = []) :
    get_current_context scanner = CTX_NONE ∧
      exit_context scanner expected = scanner := by
  constructor
  · simp [get_current_context, h, List.getLastD]
  · simp [exit_context, h]

/-- Witness for C10 at the fresh scanner. -/
theorem c10_context_ops_total_witness :
    get_current_context freshScanner = CTX_NONE ∧
      exit_context freshScanner CTX_TEST = freshScanner :=
  c10_context_ops_total freshScanner CTX_TEST rfl

/-! ## C6: deserializing a zero-length buffer -/

/-- A scanner with one live heredoc record, as left behind by parsing a
    heredoc. -/
def c6Sc : Scanner :=
  { freshScanner with heredocs :=
      [{ is_raw := true, started := true, allows_indent := true,
         delimiter := [65, 0], current_leading_word := [66, 0] }] }

/-- C6 counterexample: deserializing a zero-length buffer into a
    scanner holding one heredoc record does not give a fresh scanner —
    the record count survives the reset. -/
theorem c6_counterexample :
    deserialize c6Sc [] ≠ freshScanner ∧
      (deserialize c6Sc []).heredocs.length = 1 := by
  constructor
  · intro h
    have := congrArg (fun s => s.heredocs.length) h
    simp [deserialize, reset, c6Sc, freshScanner] at this
  · rfl

/-- C6 amended: a zero-length buffer resets the scalar fields and the
    context stack and clears every heredoc record in place (delimiter
    emptied, flags false, scratch word kept), but the heredoc sequence
    keeps its length; only on a scanner with no heredoc records does
    this coincide with a fresh scanner. -/
theorem c6_deserialize_empty_resets (scanner : Scanner) :
    deserialize scanner [] =
      { freshScanner with heredocs := scanner.heredocs.map reset_heredoc } := by
  rfl

/-! ## C7: the NEWLINE handler sets the symbol but never returns -/

/-- Lexer over the failing input, two newlines then a semicolon. -/
def c7Lx : Lexer := { input := [10, 10, 59], pos := 0, markedEnd := 0 }

/-- C7 (code bug): with NEWLINE the only valid terminal and a newline
    run in the input, the scan consumes (skips) the whole run and sets
    the result symbol to NEWLINE — but returns false, because the
    newline block falls through instead of returning true. -/
theorem c7_newline_false :
    (scan freshScanner c7Lx vsNEWLINE).1 = false ∧
      (scan freshScanner c7Lx vsNEWLINE).2.sym = some NEWLINE ∧
      (scan freshScanner c7Lx vsNEWLINE).2.lx.pos = 2 := by
  decide

/-! ## C8: the glob-flag character class -/

/-- The flag class written in the specification: the letters
    `iqbmnsBINUXcelfaCo`, the decimal digits, and the dot.  Modelled
    from the spec for comparison with the code's class. -/
def spec_glob_flag_class (c : Nat) : Bool :=
  c == 105 || c == 113 || c == 98 || c == 109 || c == 110 || c == 115 ||
  c == 66 || c == 73 || c == 78 || c == 85 || c == 88 || c == 99 ||
  c == 101 || c == 108 || c == 102 || c == 97 || c == 67 || c == 111 ||
  iswdigit c || c == 46

/-- Lexer over the input `(#z)`. -/
def c8Lx : Lexer := { input := [40, 35, 122, 41], pos := 0, markedEnd := 0 }

/-- C8 counterexample: `(#z)` is emitted as ZSH_EXTENDED_GLOB_FLAGS with
    all four characters consumed although `z` is outside the class the
    claim states (the code accepts any `iswalnum` character). -/
theorem c8_counterexample :
    (scan freshScanner c8Lx vsZSH).1 = true ∧
      (scan freshScanner c8Lx vsZSH).2.sym = some ZSH_EXTENDED_GLOB_FLAGS ∧
      (scan freshScanner c8Lx vsZSH).2.lx.pos = 4 ∧
      spec_glob_flag_class 122 = false := by
  decide

/-- The class the code actually accepts: any ASCII alphanumeric or dot
    (the explicit letter alternatives are subsumed by `iswalnum`). -/
lemma zsh_glob_flag_char_iff (c : Nat) :
    zsh_glob_flag_char c = (iswalnum c || c == 46) := by
  rw [Bool.eq_iff_iff]
  simp only [zsh_glob_flag_char, iswalnum, iswalpha, iswdigit, Bool.or_eq_true,
    Bool.and_eq_true, beq_iff_eq, decide_eq_true_eq]
  omega

/-- C8 amended: every character consumed by the flag loop of the
    ZSH_EXTENDED_GLOB_FLAGS handler is an ASCII letter or digit or a
    dot — the class is all of `iswalnum` plus `.`, of which the
    claimed letter list is a strict subset. -/
theorem c8_flag_class (fuel : Nat) (found : Bool) (lexer : Lexer) (i : Nat)
    (hi : lexer.pos ≤ i) (hlt : i < (glob_flags_loop fuel found lexer).2.pos) :
    iswalnum (lexer.input.getD i 0) = true ∨ lexer.input.getD i 0 = 46 := by
  induction fuel generalizing found lexer with
  | zero => exact absurd (show i < lexer.pos from hlt) (by omega)
  | succ fuel ih =>
    rw [glob_flags_loop] at hlt
    by_cases hc : (lexer.lookahead != 0 && zsh_glob_flag_char lexer.lookahead) = true
    · rw [if_pos hc] at hlt
      rcases Nat.eq_or_lt_of_le hi with he | hgt
      · subst he
        have := hc
        simp only [Bool.and_eq_true, zsh_glob_flag_char_iff, Bool.or_eq_true,
          beq_iff_eq] at this
        simpa [Lexer.lookahead] using this.2
      · exact ih true (advance lexer) (by simp [advance]; omega) hlt
    · rw [if_neg hc] at hlt
      exact absurd (show i < lexer.pos from hlt) (by omega)

/-- Witness for C8's amended theorem: the consumed character `z`. -/
theorem c8_flag_class_witness :
    (0 ≤ 0 ∧ 0 < (glob_flags_loop 2 false { input := [122, 41], pos := 0, markedEnd := 0 }).2.pos) ∧
      (iswalnum (([122, 41] : List Nat).getD 0 0) = true ∨
        (([122, 41] : List Nat).getD 0 0) = 46) :=
  ⟨⟨by decide, by decide⟩,
    c8_flag_class 2 false { input := [122, 41], pos := 0, markedEnd := 0 } 0
      (by decide) (by decide)⟩

/-! ## C3: PATTERN_START / PATTERN_SUFFIX_START and the context stack -/

/-- A scanner whose only open context is a parameter expansion. -/
def c3Sc : Scanner := { freshScanner with context_stack := [CTX_PARAMETER] }

/-- Lexer over the input `o}` (the pattern about to be scanned). -/
def c3Lx : Lexer := { input := [111, 125], pos := 0, markedEnd := 0 }

/-- Lexer standing on the closing `}`. -/
def c3Lx2 : Lexer := { input := [111, 125], pos := 1, markedEnd := 1 }

/-- C3 counterexample: emitting PATTERN_START with PARAMETER on top
    pushes a new entry instead of replacing the top — the stack grows
    from one entry to two, and the subsequent closing brace pops only
    the pushed entry, leaving [CTX_PARAMETER] rather than the stack
    from before the `$\x7b` (which was empty). -/
theorem c3_counterexample :
    (scan c3Sc c3Lx vsPATTERN_START).1 = true ∧
      (scan c3Sc c3Lx vsPATTERN_START).2.sym = some PATTERN_START ∧
      (scan c3Sc c3Lx vsPATTERN_START).2.sc.context_stack =
        [CTX_PARAMETER, CTX_PARAMETER_PATTERN_SUBSTITUTE] ∧
      (scan c3Sc c3Lx vsPATTERN_START).2.sc.context_stack.length ≠
        c3Sc.context_stack.length ∧
      (scan ((scan c3Sc c3Lx vsPATTERN_START).2.sc) c3Lx2 vsCLOSING_BRACE).2.sc.context_stack =
        [CTX_PARAMETER] := by
  decide

/-- C3 amended: with PARAMETER on top and the lookahead not `\x7d`,
    PATTERN_START (resp. PATTERN_SUFFIX_START) pushes
    PARAM_PATTERN_SUBSTITUTE (resp. PARAM_PATTERN_SUFFIX) on top of the
    retained PARAMETER entry, emitting a zero-width token; the
    subsequent closing brace pops exactly the pushed entry, so the
    stack returns to its state from just after the `$\x7b` (PARAMETER
    still on top), not to its state from before it. -/
theorem c3_pattern_start_pushes (scanner : Scanner) (below : List Nat)
    (lx lx2 : Lexer)
    (hstk : scanner.context_stack = below ++ [CTX_PARAMETER])
    (hlk : lx.lookahead ≠ 125) (hlk2 : lx2.lookahead = 125) :
    (scan scanner lx vsPATTERN_START).1 = true ∧
      (scan scanner lx vsPATTERN_START).2.sym = some PATTERN_START ∧
      (scan scanner lx vsPATTERN_START).2.lx.pos = lx.pos ∧
      (scan scanner lx vsPATTERN_START).2.sc.context_stack =
        below ++ [CTX_PARAMETER, CTX_PARAMETER_PATTERN_SUBSTITUTE] ∧
      (scan ((scan scanner lx vsPATTERN_START).2.sc) lx2 vsCLOSING_BRACE).1 = true ∧
      (scan ((scan scanner lx vsPATTERN_START).2.sc) lx2 vsCLOSING_BRACE).2.sym =
        some CLOSING_BRACE ∧
      (scan ((scan scanner lx vsPATTERN_START).2.sc) lx2 vsCLOSING_BRACE).2.sc.context_stack =
        below ++ [CTX_PARAMETER] ∧
      (scan scanner lx vsPATTERN_SUFFIX_START).1 = true ∧
      (scan scanner lx vsPATTERN_SUFFIX_START).2.sym = some PATTERN_SUFFIX_START ∧
      (scan scanner lx vsPATTERN_SUFFIX_START).2.sc.context_stack =
        below ++ [CTX_PARAMETER, CTX_PARAMETER_PATTERN_SUFFIX] := by
  have hconc : below ++ [CTX_PARAMETER, CTX_PARAMETER_PATTERN_SUBSTITUTE] =
      (below ++ [CTX_PARAMETER]) ++ [CTX_PARAMETER_PATTERN_SUBSTITUTE] := by simp
  have hconc2 : below ++ [CTX_PARAMETER, CTX_PARAMETER_PATTERN_SUFFIX] =
      (below ++ [CTX_PARAMETER]) ++ [CTX_PARAMETER_PATTERN_SUFFIX] := by simp
  simp [scan, runChain, main_handlers, newline_handler, closing_brace_handler,
    concat_handler, bare_dollar_handler, peek_bare_dollar_handler,
    brace_start_dollar_handler, opening_paren_handler, opening_bracket_handler,
    closing_bracket_handler, closing_paren_handler, pattern_start_handler,
    pattern_suffix_start_handler, vsPATTERN_START, vsPATTERN_SUFFIX_START,
    vsCLOSING_BRACE, in_error_recovery, get_current_context, hstk,
    St.look, St.enterCtx, St.exitCtx, St.setSym, St.mark_end, St.advance,
    mark_end, enter_context, exit_context, hlk, hlk2, hconc, hconc2,
    CTX_PARAMETER, CTX_PARAMETER_PATTERN_SUBSTITUTE, CTX_PARAMETER_PATTERN_SUFFIX]

/-- Witness for C3's amended theorem. -/
theorem c3_pattern_start_pushes_witness :
    (c3Sc.context_stack = [] ++ [CTX_PARAMETER] ∧ c3Lx.lookahead ≠ 125 ∧
        c3Lx2.lookahead = 125) ∧
      (scan c3Sc c3Lx vsPATTERN_START).1 = true := by
  refine ⟨⟨by decide, by decide, by decide⟩, ?_⟩
  exact (c3_pattern_start_pushes c3Sc [] c3Lx c3Lx2 (by decide) (by decide) (by decide)).1

/-! ## C5: which pending heredoc the scanner operates on -/

/-- A scanner with two pending (empty) heredoc records, as after two
    heredoc arrows. -/
def c5Sc : Scanner := { freshScanner with heredocs := [heredoc_new, heredoc_new] }

/-- Lexer over the input `A B` followed by a newline. -/
def c5Lx : Lexer := { input := [65, 32, 66, 10], pos := 0, markedEnd := 0 }

/-- C5 counterexample: with two pending heredocs, HEREDOC_START reads
    the delimiter `A` into the most recently pushed record — the
    earliest record keeps an empty delimiter, contradicting FIFO
    order. -/
theorem c5_counterexample :
    (scan c5Sc c5Lx vsHEREDOC_START).1 = true ∧
      (scan c5Sc c5Lx vsHEREDOC_START).2.sym = some HEREDOC_START ∧
      (scan c5Sc c5Lx vsHEREDOC_START).2.sc.heredocs.map Heredoc.delimiter =
        [[], [65, 0]] := by
  decide

/-- C5 amended: pending heredocs are processed LIFO, not FIFO: every
    heredoc operation targets `array_back`, the most recently pushed
    record, so HEREDOC_START reads its delimiter into the latest
    pending heredoc while all earlier records are left untouched. -/
theorem c5_heredoc_start_targets_back (scanner : Scanner) (hs : List Heredoc)
    (hh : scanner.heredocs = hs ++ [heredoc_new]) :
    (scan scanner c5Lx vsHEREDOC_START).1 = true ∧
      (scan scanner c5Lx vsHEREDOC_START).2.sym = some HEREDOC_START ∧
      (scan scanner c5Lx vsHEREDOC_START).2.sc.heredocs =
        hs ++ [{ heredoc_new with delimiter := [65, 0] }] := by
  simp [scan, runChain, main_handlers, newline_handler, closing_brace_handler,
    concat_handler, bare_dollar_handler, peek_bare_dollar_handler,
    brace_start_dollar_handler, opening_paren_handler, opening_bracket_handler,
    closing_bracket_handler, closing_paren_handler, pattern_start_handler,
    pattern_suffix_start_handler, colon_handler, hash_handler,
    immediate_double_hash_handler, array_ops_handler, empty_value_handler,
    heredoc_body_handler, heredoc_end_handler, heredoc_content_handler,
    heredoc_start_handler, vsHEREDOC_START, in_error_recovery,
    scan_heredoc_start, advance_word, advance_word_loop, advance_while,
    reset_string, heredoc_new, c5Lx, St.look, St.back, St.modifyBack,
    St.withLx, Lexer.lookahead, advance, iswspace, in_parameter_expansion,
    get_current_context, hh]

/-- Witness for C5's amended theorem. -/
theorem c5_heredoc_start_targets_back_witness :
    c5Sc.heredocs = [heredoc_new] ++ [heredoc_new] ∧
      (scan c5Sc c5Lx vsHEREDOC_START).2.sc.heredocs =
        [heredoc_new] ++ [{ heredoc_new with delimiter := [65, 0] }] := by
  refine ⟨by decide, ?_⟩
  exact (c5_heredoc_start_targets_back c5Sc [heredoc_new] (by decide)).2.2

/-! ## C1: the serialization round trip -/

/-- Scanner states reachable from a fresh scanner through scan calls
    (each call may be given any lexer and any valid-terminal set). -/
inductive ScanReachable : Scanner → Prop where
  | init : ScanReachable freshScanner
  | step (sc : Scanner) (lx : Lexer) (vs : ValidFn) :
      ScanReachable sc → ScanReachable ((scan sc lx vs).2.sc)

/-- Lexer over `<<`. -/
def c1Lx1 : Lexer := { input := [60, 60], pos := 0, markedEnd := 0 }

/-- Lexer over `EOF` and a newline. -/
def c1Lx2 : Lexer := { input := [69, 79, 70, 10], pos := 0, markedEnd := 0 }

/-- Lexer over the heredoc body `hi`, newline, `EOF`, newline. -/
def c1Lx3 : Lexer :=
  { input := [104, 105, 10, 69, 79, 70, 10], pos := 0, markedEnd := 0 }

/-- State after scanning the heredoc arrow. -/
def c1Sc1 : Scanner := (scan freshScanner c1Lx1 vsHEREDOC_ARROW).2.sc

/-- State after reading the delimiter `EOF`. -/
def c1Sc2 : Scanner := (scan c1Sc1 c1Lx2 vsHEREDOC_START).2.sc

/-- State after scanning the simple heredoc body: the pending record's
    `current_leading_word` now holds the matched delimiter bytes. -/
def c1Sc3 : Scanner := (scan c1Sc2 c1Lx3 vsHeredocBody).2.sc

/-- C1 counterexample: a state reachable in three scan calls has a
    heredoc whose `current_leading_word` is non-empty; that field is
    not serialized, so deserializing the serialized buffer (into a
    scanner with no live records, e.g. a fresh one) does not restore
    the state — value equality fails on `current_leading_word`. -/
theorem c1_counterexample :
    ScanReachable c1Sc3 ∧
      c1Sc3.heredocs.map Heredoc.current_leading_word = [[69, 79, 70, 0]] ∧
      (serialize c1Sc3).map (deserialize freshScanner) ≠ some c1Sc3 := by
  refine ⟨?_, by decide, by decide⟩
  exact ScanReachable.step c1Sc2 c1Lx3 vsHeredocBody
    (ScanReachable.step c1Sc1 c1Lx2 vsHEREDOC_START
      (ScanReachable.step freshScanner c1Lx1 vsHEREDOC_ARROW ScanReachable.init))

/-- Number of bytes `serialize` wants to write. -/
def serializedSize (sc : Scanner) : Nat :=
  7 + sc.context_stack.length +
    (sc.heredocs.map (fun h => 7 + h.delimiter.length)).sum

/-- States the serializer round-trips: counters fit their single
    byte, tags and delimiter bytes fit a byte, and the whole state fits
    the serialization buffer.  Every state reachable by scan calls
    satisfies this as long as nesting stays below the buffer bounds. -/
def SerializableOK (sc : Scanner) : Prop :=
  sc.last_glob_paren_depth < 256 ∧
  sc.context_stack.length < 256 ∧
  sc.heredocs.length < 256 ∧
  (∀ c ∈ sc.context_stack, c < 256) ∧
  (∀ h ∈ sc.heredocs, ∀ b ∈ h.delimiter, b < 256) ∧
  serializedSize sc < TREE_SITTER_SERIALIZATION_BUFFER_SIZE

/-- The byte image of the heredoc records. -/
def encode_heredocs : List Heredoc → List Nat
  | [] => []
  | h :: rest =>
    b2n h.is_raw :: b2n h.started :: b2n h.allows_indent ::
      (le32 h.delimiter.length ++ h.delimiter ++ encode_heredocs rest)

lemma serialize_contexts_eq (cs : List Nat) :
    ∀ size, size + cs.length ≤ TREE_SITTER_SERIALIZATION_BUFFER_SIZE →
      serialize_contexts cs size = some (cs.map (fun c => c % 256)) := by
  induction cs with
  | nil => intro size h; rfl
  | cons c rest ih =>
    intro size h
    simp only [List.length_cons] at h
    rw [serialize_contexts, if_neg (by omega), ih (size + 1) (by omega)]
    rfl

lemma serialize_heredocs_eq (hs : List Heredoc) :
    ∀ size, size + (hs.map (fun h => 7 + h.delimiter.length)).sum <
        TREE_SITTER_SERIALIZATION_BUFFER_SIZE →
      serialize_heredocs hs size = some (encode_heredocs hs) := by
  induction hs with
  | nil => intro size h; rfl
  | cons hd rest ih =>
    intro size h
    simp only [List.map_cons, List.sum_cons] at h
    rw [serialize_heredocs, if_neg (by omega),
      ih (size + 3 + 4 + hd.delimiter.length) (by omega)]
    rfl

lemma decodeLE32_le32 (n : Nat) (hn : n < 4294967296) :
    decodeLE32 (n % 256) (n / 256 % 256) (n / 256 / 256 % 256)
      (n / 256 / 256 / 256 % 256) = n := by
  simp only [decodeLE32]
  omega

lemma decide_b2n_ne (b : Bool) : (decide (b2n b ≠ 0)) = b := by
  cases b <;> rfl

lemma decide_b2n_eq (b : Bool) : (decide (b2n b = 0)) = !b := by
  cases b <;> rfl

lemma map_mod_256_eq (cs : List Nat) (h : ∀ c ∈ cs, c < 256) :
    cs.map (fun c => c % 256) = cs := by
  induction cs with
  | nil => rfl
  | cons c rest ih =>
    simp only [List.map_cons]
    rw [Nat.mod_eq_of_lt (h c (by simp)), ih (fun d hd => h d (by simp [hd]))]

lemma read_heredocs_cons (old : List Heredoc) (b0 b1 b2 : Nat)
    (delim tail : List Nat) (n : Nat) (hd32 : delim.length < 4294967296) :
    read_heredocs old
        (b0 :: b1 :: b2 :: (le32 delim.length ++ (delim ++ tail))) (n + 1) =
      { is_raw := decide (b0 ≠ 0)
        started := decide (b1 ≠ 0)
        allows_indent := decide (b2 ≠ 0)
        delimiter := delim
        current_leading_word :=
          (old.headD heredoc_new).current_leading_word } ::
        read_heredocs old.tail tail n := by
  rw [read_heredocs]
  have hds : decodeLE32
      ((b0 :: b1 :: b2 :: (le32 delim.length ++ (delim ++ tail))).getD 3 0)
      ((b0 :: b1 :: b2 :: (le32 delim.length ++ (delim ++ tail))).getD 4 0)
      ((b0 :: b1 :: b2 :: (le32 delim.length ++ (delim ++ tail))).getD 5 0)
      ((b0 :: b1 :: b2 :: (le32 delim.length ++ (delim ++ tail))).getD 6 0) =
      delim.length := by
    show decodeLE32 (delim.length % 256) (delim.length / 256 % 256)
      (delim.length / 256 / 256 % 256) (delim.length / 256 / 256 / 256 % 256) =
      delim.length
    exact decodeLE32_le32 delim.length hd32
  simp only [hds]
  have hdrop7 : (b0 :: b1 :: b2 :: (le32 delim.length ++ (delim ++ tail))).drop 7 =
      delim ++ tail := rfl
  have hread : readBytes delim.length (delim ++ tail) = delim := by
    have h1 : (delim ++ tail).take delim.length = delim := List.take_left delim tail
    have h2 : delim.length - (delim ++ tail).length = 0 := by
      rw [List.length_append]; omega
    simp [readBytes, h1, h2]
  have hsplit : (b0 :: b1 :: b2 :: (le32 delim.length ++ (delim ++ tail))) =
      (b0 :: b1 :: b2 :: (le32 delim.length ++ delim)) ++ tail := by simp
  have hdrop : (b0 :: b1 :: b2 :: (le32 delim.length ++ (delim ++ tail))).drop
      (7 + delim.length) = tail := by
    rw [hsplit]
    exact List.drop_left' (by simp [le32]; omega)
  simp only [hdrop7, hread, hdrop]
  rfl

lemma read_heredocs_encode (hs : List Heredoc)
    (hd : ∀ h ∈ hs, h.delimiter.length < 4294967296) :
    read_heredocs [] (encode_heredocs hs) hs.length =
      hs.map (fun h => { h with current_leading_word := [] }) := by
  induction hs with
  | nil => rfl
  | cons h rest ih =>
    have hlen : h.delimiter.length < 4294967296 := hd h (by simp)
    have hassoc : encode_heredocs (h :: rest) =
        b2n h.is_raw :: b2n h.started :: b2n h.allows_indent ::
          (le32 h.delimiter.length ++ (h.delimiter ++ encode_heredocs rest)) := by
      simp [encode_heredocs]
    simp only [List.length_cons, List.map_cons, hassoc]
    rw [read_heredocs_cons [] (b2n h.is_raw) (b2n h.started) (b2n h.allows_indent)
      h.delimiter (encode_heredocs rest) rest.length hlen]
    simp only [List.tail_nil]
    rw [ih (fun g hg => hd g (by simp [hg]))]
    simp [decide_b2n_ne, decide_b2n_eq, heredoc_new]

/-- C1 amended: for every state whose counters fit one byte each and
    whose serialization fits the buffer, serializing and then
    deserializing (into a scanner with no live heredoc records, such as
    a fresh one) restores every field of the state except that each
    heredoc's `current_leading_word` scratch buffer comes back empty —
    that field is never written to the buffer. -/
theorem c1_serialize_roundtrip (sc : Scanner) (hok : SerializableOK sc) :
    (serialize sc).map (deserialize freshScanner) =
      some { sc with heredocs :=
        sc.heredocs.map (fun h => { h with current_leading_word := [] }) } := by
  obtain ⟨hg, hcl, hhl, hct, hdb, hsz⟩ := hok
  simp only [serializedSize, TREE_SITTER_SERIALIZATION_BUFFER_SIZE] at hsz
  have hctx : serialize_contexts sc.context_stack 7 =
      some (sc.context_stack.map (fun c => c % 256)) :=
    serialize_contexts_eq sc.context_stack 7
      (by simp only [TREE_SITTER_SERIALIZATION_BUFFER_SIZE]; omega)
  have hher : serialize_heredocs sc.heredocs (7 + sc.context_stack.length) =
      some (encode_heredocs sc.heredocs) :=
    serialize_heredocs_eq sc.heredocs (7 + sc.context_stack.length)
      (by simp only [TREE_SITTER_SERIALIZATION_BUFFER_SIZE]; omega)
  have hmap : sc.context_stack.map (fun c => c % 256) = sc.context_stack :=
    map_mod_256_eq sc.context_stack hct
  have hd32 : ∀ h ∈ sc.heredocs, h.delimiter.length < 4294967296 := by
    intro h hm
    have : (7 + h.delimiter.length) ≤
        (sc.heredocs.map (fun g => 7 + g.delimiter.length)).sum := by
      exact List.single_le_sum (fun x _ => Nat.zero_le x) _
        (List.mem_map_of_mem _ hm)
    omega
  rw [serialize, hctx, hher]
  simp only [Option.some_bind, Option.bind_some, Option.map_some', Option.some.injEq, hmap]
  set buffer : List Nat :=
    sc.last_glob_paren_depth % 256 ::
      b2n sc.ext_was_in_double_quote ::
      b2n sc.ext_saw_outside_quote ::
      sc.context_stack.length % 256 ::
      sc.heredocs.length % 256 ::
      b2n sc.just_returned_variable_name ::
      b2n sc.just_returned_bare_dollar ::
      (sc.context_stack ++ encode_heredocs sc.heredocs) with hbuffer
  have hlen0 : buffer.length ≠ 0 := by simp [hbuffer]
  have hctxs : (buffer.drop 7).take (buffer.getD 3 0) = sc.context_stack := by
    have h7 : buffer.drop 7 = sc.context_stack ++ encode_heredocs sc.heredocs := rfl
    have h3 : buffer.getD 3 0 = sc.context_stack.length % 256 := rfl
    rw [h7, h3, Nat.mod_eq_of_lt hcl]
    exact List.take_left sc.context_stack _
  have hheredocs :
      read_heredocs freshScanner.heredocs
        (buffer.drop (7 + ((buffer.drop 7).take (buffer.getD 3 0)).length))
        (buffer.getD 4 0) =
      sc.heredocs.map (fun h => { h with current_leading_word := [] }) := by
    rw [hctxs]
    have h4 : buffer.getD 4 0 = sc.heredocs.length % 256 := rfl
    have hsplit : buffer =
        (sc.last_glob_paren_depth % 256 ::
          b2n sc.ext_was_in_double_quote ::
          b2n sc.ext_saw_outside_quote ::
          sc.context_stack.length % 256 ::
          sc.heredocs.length % 256 ::
          b2n sc.just_returned_variable_name ::
          b2n sc.just_returned_bare_dollar :: sc.context_stack) ++
          encode_heredocs sc.heredocs := by
      simp [hbuffer]
    have hdropC : buffer.drop (7 + sc.context_stack.length) =
        encode_heredocs sc.heredocs := by
      rw [hsplit]
      exact List.drop_left' (by simp; omega)
    rw [h4, Nat.mod_eq_of_lt hhl, hdropC]
    exact read_heredocs_encode sc.heredocs hd32
  simp only [deserialize, if_neg hlen0]
  obtain ⟨g, dq, sq, stk, jv, jb, hs⟩ := sc
  simp only [Scanner.mk.injEq]
  refine ⟨?_, ?_, ?_, hctxs, ?_, ?_, hheredocs⟩
  · exact Nat.mod_eq_of_lt hg
  · exact decide_b2n_ne dq
  · exact decide_b2n_ne sq
  · exact decide_b2n_ne jv
  · exact decide_b2n_ne jb

/-- A concrete serializable state with a context and a pending heredoc. -/
def c1WSc : Scanner :=
  { last_glob_paren_depth := 3
    ext_was_in_double_quote := true
    ext_saw_outside_quote := false
    context_stack := [CTX_PARAMETER, CTX_TEST]
    just_returned_variable_name := true
    just_returned_bare_dollar := false
    heredocs := [{ is_raw := true, started := false, allows_indent := true,
                   delimiter := [69, 79, 70, 0],
                   current_leading_word := [90, 0] }] }

/-- Witness for C1's amended theorem. -/
theorem c1_serialize_roundtrip_witness :
    SerializableOK c1WSc ∧
      (serialize c1WSc).map (deserialize freshScanner) =
        some { c1WSc with heredocs :=
          c1WSc.heredocs.map (fun h => { h with current_leading_word := [] }) } :=
  ⟨by simp only [SerializableOK, serializedSize, TREE_SITTER_SERIALIZATION_BUFFER_SIZE]; decide,
    c1_serialize_roundtrip c1WSc
      (by simp only [SerializableOK, serializedSize, TREE_SITTER_SERIALIZATION_BUFFER_SIZE]; decide)⟩

/-! ## C2, C4, C9: counterexamples -/

/-- Lexer over `abc`. -/
def c2LxA : Lexer := { input := [97, 98, 99], pos := 0, markedEnd := 0 }

/-- Lexer over `;`. -/
def c2LxSemi : Lexer := { input := [59], pos := 0, markedEnd := 0 }

/-- Lexer over `$`. -/
def c2LxDollar : Lexer := { input := [36], pos := 0, markedEnd := 0 }

/-- Lexer over `)`. -/
def c2LxParen : Lexer := { input := [41], pos := 0, markedEnd := 0 }

/-- Lexer over `/x`. -/
def c2LxSlash : Lexer := { input := [47, 120], pos := 0, markedEnd := 0 }

/-- Lexer over `$x`. -/
def c2LxDollarX : Lexer := { input := [36, 120], pos := 0, markedEnd := 0 }

/-- A scanner inside a pattern substitution. -/
def c2ScSub : Scanner :=
  { freshScanner with context_stack := [CTX_PARAMETER_PATTERN_SUBSTITUTE] }

/-- A scanner with one pending unstarted heredoc delimited by `EOF`. -/
def c2ScHd : Scanner :=
  { freshScanner with heredocs := [{ heredoc_new with delimiter := [69, 79, 70, 0] }] }

/-- C2 counterexample: scan calls that return true without moving the
    input position while emitting CONCAT, EMPTY_VALUE, PATTERN_START,
    PATTERN_SUFFIX_START, HEREDOC_BODY_BEGINNING, REGEX_NO_SLASH,
    REGEX_NO_SPACE and EXPANSION_WORD; and PEEK_BARE_DOLLAR emitted by
    two successive scans at the same position. -/
theorem c2_counterexample :
    ((scan freshScanner c2LxA vsCONCAT).1 = true ∧
      (scan freshScanner c2LxA vsCONCAT).2.sym = some CONCAT ∧
      (scan freshScanner c2LxA vsCONCAT).2.lx.pos = 0) ∧
    ((scan freshScanner c2LxSemi vsEMPTY_VALUE).1 = true ∧
      (scan freshScanner c2LxSemi vsEMPTY_VALUE).2.sym = some EMPTY_VALUE ∧
      (scan freshScanner c2LxSemi vsEMPTY_VALUE).2.lx.pos = 0) ∧
    ((scan c3Sc c3Lx vsPATTERN_START).2.sym = some PATTERN_START ∧
      (scan c3Sc c3Lx vsPATTERN_START).2.lx.pos = 0) ∧
    ((scan c3Sc c3Lx vsPATTERN_SUFFIX_START).2.sym = some PATTERN_SUFFIX_START ∧
      (scan c3Sc c3Lx vsPATTERN_SUFFIX_START).2.lx.pos = 0) ∧
    ((scan c2ScHd c2LxDollarX vsHeredocBody).1 = true ∧
      (scan c2ScHd c2LxDollarX vsHeredocBody).2.sym = some HEREDOC_BODY_BEGINNING ∧
      (scan c2ScHd c2LxDollarX vsHeredocBody).2.lx.pos = 0) ∧
    ((scan freshScanner c2LxParen vsREGEX_NO_SLASH).1 = true ∧
      (scan freshScanner c2LxParen vsREGEX_NO_SLASH).2.sym = some REGEX_NO_SLASH ∧
      (scan freshScanner c2LxParen vsREGEX_NO_SLASH).2.lx.pos = 0) ∧
    ((scan freshScanner c2LxParen vsREGEX_NO_SPACE).1 = true ∧
      (scan freshScanner c2LxParen vsREGEX_NO_SPACE).2.sym = some REGEX_NO_SPACE ∧
      (scan freshScanner c2LxParen vsREGEX_NO_SPACE).2.lx.pos = 0) ∧
    ((scan c2ScSub c2LxSlash vsEXPANSION_WORD).1 = true ∧
      (scan c2ScSub c2LxSlash vsEXPANSION_WORD).2.sym = some EXPANSION_WORD ∧
      (scan c2ScSub c2LxSlash vsEXPANSION_WORD).2.lx.pos = 0) ∧
    ((scan freshScanner c2LxDollar vsPEEK).1 = true ∧
      (scan freshScanner c2LxDollar vsPEEK).2.sym = some PEEK_BARE_DOLLAR ∧
      (scan freshScanner c2LxDollar vsPEEK).2.lx.pos = 0 ∧
      (scan (scan freshScanner c2LxDollar vsPEEK).2.sc c2LxDollar vsPEEK).1 = true ∧
      (scan (scan freshScanner c2LxDollar vsPEEK).2.sc c2LxDollar vsPEEK).2.sym =
        some PEEK_BARE_DOLLAR ∧
      (scan (scan freshScanner c2LxDollar vsPEEK).2.sc c2LxDollar vsPEEK).2.lx.pos = 0) := by
  decide

/-- Lexer over `a'b'c )`. -/
def c4Lx : Lexer := { input := [97, 39, 98, 39, 99, 32, 41], pos := 0, markedEnd := 0 }

/-- Lexer over a backslash escape inside a regex: `a\bc/`. -/
def c4Lx2 : Lexer := { input := [97, 92, 98, 99, 47], pos := 0, markedEnd := 0 }

/-- C4 counterexample: scan calls that emit REGEX (crossing a
    single-quoted span) and REGEX_NO_SLASH (crossing a backslash
    escape) push CTX_PARAMETER onto the context stack although no
    context-changing delimiter token was scanned. -/
theorem c4_counterexample :
    ((scan freshScanner c4Lx vsREGEX).1 = true ∧
      (scan freshScanner c4Lx vsREGEX).2.sym = some REGEX ∧
      (scan freshScanner c4Lx vsREGEX).2.sc.context_stack = [CTX_PARAMETER]) ∧
    ((scan freshScanner c4Lx2 vsREGEX_NO_SLASH).1 = true ∧
      (scan freshScanner c4Lx2 vsREGEX_NO_SLASH).2.sym = some REGEX_NO_SLASH ∧
      (scan freshScanner c4Lx2 vsREGEX_NO_SLASH).2.sc.context_stack = [CTX_PARAMETER]) := by
  decide

/-- Lexer over `abc\x7d`. -/
def c9Lx : Lexer := { input := [97, 98, 99, 125], pos := 0, markedEnd := 0 }

/-- Lexer over `- x`. -/
def c9Lx2 : Lexer := { input := [45, 32, 120], pos := 0, markedEnd := 0 }

/-- C9 counterexample: with ERROR_RECOVERY set the scanner still
    returns true with EXPANSION_WORD (that block is not gated on error
    recovery) and with EXTGLOB_PATTERN (via the TEST_OPERATOR block's
    bare-dash path). -/
theorem c9_counterexample :
    ((scan c3Sc c9Lx vsEW_ER).1 = true ∧
      (scan c3Sc c9Lx vsEW_ER).2.sym = some EXPANSION_WORD) ∧
    ((scan freshScanner c9Lx2 vsTO_EXT_ER).1 = true ∧
      (scan freshScanner c9Lx2 vsTO_EXT_ER).2.sym = some EXTGLOB_PATTERN) := by
  decide

/-! ## The handler contracts

One shared contract covers the three whole-scan claims: position
monotonicity and progress-or-zero-width for C2, the regex stack effect
for C4, and the error-recovery guarantees for C9. -/

/-- Tokens a successful scan may emit without consuming input. -/
def zeroWidthTokens : List TokenType :=
  [PEEK_BARE_DOLLAR, CONCAT, EMPTY_VALUE, PATTERN_START, PATTERN_SUFFIX_START,
   HEREDOC_BODY_BEGINNING, REGEX_NO_SLASH, REGEX_NO_SPACE, EXPANSION_WORD]

/-- The three regex terminals. -/
def regexTokens : List TokenType := [REGEX, REGEX_NO_SLASH, REGEX_NO_SPACE]

/-- Well-formed pending delimiters: empty or not starting with a NUL
    byte (true of every state reachable over inputs without code points
    that are multiples of 256). -/
def WFdelims (hs : List Heredoc) : Prop :=
  ∀ h ∈ hs, h.delimiter = [] ∨ h.delimiter.headD 0 ≠ 0

/-- What a handler guarantees when it falls through. -/
def nextOK (st st2 : St) : Prop :=
  st.lx.pos ≤ st2.lx.pos ∧
  st2.sc.context_stack = st.sc.context_stack ∧
  st2.sc.heredocs.length ≤ st.sc.heredocs.length ∧
  (WFdelims st.sc.heredocs → WFdelims st2.sc.heredocs)

/-- What a handler (or the whole scan) guarantees when it returns. -/
def retOK (vs : ValidFn) (st : St) (b : Bool) (st2 : St) : Prop :=
  st.lx.pos ≤ st2.lx.pos ∧
  (in_error_recovery vs = true →
    st2.sc.context_stack = st.sc.context_stack ∧
    st2.sc.heredocs.length ≤ st.sc.heredocs.length) ∧
  (b = true → ∃ t, st2.sym = some t ∧
    (WFdelims st.sc.heredocs → st.lx.pos < st2.lx.pos ∨ t ∈ zeroWidthTokens) ∧
    (t ∈ regexTokens → ∃ n,
      st2.sc.context_stack = st.sc.context_stack ++ List.replicate n CTX_PARAMETER) ∧
    (in_error_recovery vs = true → t ∉ regexTokens))

/-- A handler obeying both contracts. -/
def handlerOK (h : Handler) : Prop :=
  ∀ vs st,
    (∀ st2, h vs st = Step.next st2 → nextOK st st2) ∧
    (∀ b st2, h vs st = Step.ret b st2 → retOK vs st b st2)

@[simp] lemma advance_pos (lexer : Lexer) : (advance lexer).pos = lexer.pos + 1 := rfl
@[simp] lemma skip_pos (lexer : Lexer) : (skip lexer).pos = lexer.pos + 1 := rfl
@[simp] lemma mark_end_pos (lexer : Lexer) : (mark_end lexer).pos = lexer.pos := rfl
@[simp] lemma advance_input (lexer : Lexer) : (advance lexer).input = lexer.input := rfl
@[simp] lemma skip_input (lexer : Lexer) : (skip lexer).input = lexer.input := rfl
@[simp] lemma mark_end_input (lexer : Lexer) : (mark_end lexer).input = lexer.input := rfl

@[simp] lemma St_advance_lx_pos (st : St) : st.advance.lx.pos = st.lx.pos + 1 := rfl
@[simp] lemma St_advance_sc (st : St) : st.advance.sc = st.sc := rfl
@[simp] lemma St_advance_sym (st : St) : st.advance.sym = st.sym := rfl
@[simp] lemma St_skip_lx_pos (st : St) : st.skip.lx.pos = st.lx.pos + 1 := rfl
@[simp] lemma St_skip_sc (st : St) : st.skip.sc = st.sc := rfl
@[simp] lemma St_skip_sym (st : St) : st.skip.sym = st.sym := rfl
@[simp] lemma St_mark_end_lx_pos (st : St) : st.mark_end.lx.pos = st.lx.pos := rfl
@[simp] lemma St_mark_end_sc (st : St) : st.mark_end.sc = st.sc := rfl
@[simp] lemma St_mark_end_sym (st : St) : st.mark_end.sym = st.sym := rfl
@[simp] lemma St_setSym_sym (st : St) (t : TokenType) : (st.setSym t).sym = some t := rfl
@[simp] lemma St_setSym_sc (st : St) (t : TokenType) : (st.setSym t).sc = st.sc := rfl
@[simp] lemma St_setSym_lx (st : St) (t : TokenType) : (st.setSym t).lx = st.lx := rfl
@[simp] lemma St_withLx_lx (st : St) (lexer : Lexer) : (st.withLx lexer).lx = lexer := rfl
@[simp] lemma St_withLx_sc (st : St) (lexer : Lexer) : (st.withLx lexer).sc = st.sc := rfl
@[simp] lemma St_withLx_sym (st : St) (lexer : Lexer) : (st.withLx lexer).sym = st.sym := rfl
@[simp] lemma St_enterCtx_stack (st : St) (c : Nat) :
    (st.enterCtx c).sc.context_stack = st.sc.context_stack ++ [c] := rfl
@[simp] lemma St_enterCtx_heredocs (st : St) (c : Nat) :
    (st.enterCtx c).sc.heredocs = st.sc.heredocs := rfl
@[simp] lemma St_enterCtx_lx (st : St) (c : Nat) : (st.enterCtx c).lx = st.lx := rfl
@[simp] lemma St_enterCtx_sym (st : St) (c : Nat) : (st.enterCtx c).sym = st.sym := rfl
@[simp] lemma St_exitCtx_heredocs (st : St) (c : Nat) :
    (st.exitCtx c).sc.heredocs = st.sc.heredocs := by
  simp [St.exitCtx, exit_context]
  split <;> rfl
@[simp] lemma St_exitCtx_lx (st : St) (c : Nat) : (st.exitCtx c).lx = st.lx := rfl
@[simp] lemma St_exitCtx_sym (st : St) (c : Nat) : (st.exitCtx c).sym = st.sym := rfl
@[simp] lemma setJBD_stack (b : Bool) (st : St) :
    (setJBD b st).sc.context_stack = st.sc.context_stack := rfl
@[simp] lemma setJBD_heredocs (b : Bool) (st : St) :
    (setJBD b st).sc.heredocs = st.sc.heredocs := rfl
@[simp] lemma setJBD_lx (b : Bool) (st : St) : (setJBD b st).lx = st.lx := rfl
@[simp] lemma setJBD_sym (b : Bool) (st : St) : (setJBD b st).sym = st.sym := rfl
@[simp] lemma setScJVN_stack (st : St) :
    (setScJVN st).sc.context_stack = st.sc.context_stack := rfl
@[simp] lemma setScJVN_heredocs (st : St) :
    (setScJVN st).sc.heredocs = st.sc.heredocs := rfl
@[simp] lemma setScJVN_lx (st : St) : (setScJVN st).lx = st.lx := rfl
@[simp] lemma setScJVN_sym (st : St) : (setScJVN st).sym = st.sym := rfl
@[simp] lemma St_setLgpd_stack (st : St) (n : Nat) :
    (st.setLgpd n).sc.context_stack = st.sc.context_stack := rfl
@[simp] lemma St_setLgpd_heredocs (st : St) (n : Nat) :
    (st.setLgpd n).sc.heredocs = st.sc.heredocs := rfl
@[simp] lemma St_setLgpd_lx (st : St) (n : Nat) : (st.setLgpd n).lx = st.lx := rfl
@[simp] lemma St_setLgpd_sym (st : St) (n : Nat) : (st.setLgpd n).sym = st.sym := rfl
@[simp] lemma St_modifyBack_stack (st : St) (f : Heredoc → Heredoc) :
    (st.modifyBack f).sc.context_stack = st.sc.context_stack := rfl
@[simp] lemma St_modifyBack_lx (st : St) (f : Heredoc → Heredoc) :
    (st.modifyBack f).lx = st.lx := rfl
@[simp] lemma St_modifyBack_sym (st : St) (f : Heredoc → Heredoc) :
    (st.modifyBack f).sym = st.sym := rfl
@[simp] lemma St_popBack_stack (st : St) :
    (st.popBack).sc.context_stack = st.sc.context_stack := rfl
@[simp] lemma St_popBack_lx (st : St) : (st.popBack).lx = st.lx := rfl
@[simp] lemma St_popBack_sym (st : St) : (st.popBack).sym = st.sym := rfl

lemma St_modifyBack_length (st : St) (f : Heredoc → Heredoc)
    (h : st.sc.heredocs ≠ []) :
    (st.modifyBack f).sc.heredocs.length = st.sc.heredocs.length := by
  simp [St.modifyBack]
  cases hh : st.sc.heredocs with
  | nil => exact absurd hh h
  | cons a l => simp [hh]

lemma St_popBack_length (st : St) :
    (st.popBack).sc.heredocs.length ≤ st.sc.heredocs.length := by
  simp [St.popBack]

lemma advance_while_le (p : Nat → Bool) :
    ∀ (fuel : Nat) (lexer : Lexer), lexer.pos ≤ (advance_while p fuel lexer).pos := by
  intro fuel
  induction fuel with
  | zero => intro lexer; exact le_refl _
  | succ fuel ih =>
    intro lexer
    rw [advance_while]
    split
    · exact le_trans (by simp) (ih (advance lexer))
    · exact le_refl _

lemma advance_while_lx_le (p : Lexer → Bool) :
    ∀ (fuel : Nat) (lexer : Lexer), lexer.pos ≤ (advance_while_lx p fuel lexer).pos := by
  intro fuel
  induction fuel with
  | zero => intro lexer; exact le_refl _
  | succ fuel ih =>
    intro lexer
    rw [advance_while_lx]
    split
    · exact le_trans (by simp) (ih (advance lexer))
    · exact le_refl _

lemma glob_flags_loop_le :
    ∀ (fuel : Nat) (found : Bool) (lexer : Lexer),
      lexer.pos ≤ (glob_flags_loop fuel found lexer).2.pos := by
  intro fuel
  induction fuel with
  | zero => intro found lexer; exact le_refl _
  | succ fuel ih =>
    intro found lexer
    rw [glob_flags_loop]
    split
    · exact le_trans (by simp) (ih true (advance lexer))
    · exact le_refl _

lemma ident_loop_le :
    ∀ (fuel : Nat) (b : Bool) (lexer : Lexer),
      lexer.pos ≤ (ident_loop fuel b lexer).2.pos := by
  intro fuel
  induction fuel with
  | zero => intro b lexer; exact le_refl _
  | succ fuel ih =>
    intro b lexer
    rw [ident_loop]
    split
    · exact le_trans (by simp) (ih b (advance lexer))
    · split
      · exact le_trans (by simp) (ih false (advance lexer))
      · exact le_refl _

/-- Build `retOK` for a return that preserves the stack. -/
lemma retOK_mk {vs : ValidFn} {st st2 : St} {b : Bool} (t : TokenType)
    (hp : st.lx.pos ≤ st2.lx.pos)
    (hsym : b = true → st2.sym = some t) (hreg : t ∉ regexTokens)
    (hstk : st2.sc.context_stack = st.sc.context_stack)
    (hh : st2.sc.heredocs.length ≤ st.sc.heredocs.length)
    (hprog : b = true → WFdelims st.sc.heredocs →
      st.lx.pos < st2.lx.pos ∨ t ∈ zeroWidthTokens) :
    retOK vs st b st2 :=
  ⟨hp, fun _ => ⟨hstk, hh⟩,
    fun hb => ⟨t, hsym hb, hprog hb, fun hr => absurd hr hreg, fun _ => hreg⟩⟩

/-- Build `retOK false` (the symbol clause is vacuous). -/
lemma retOK_false {vs : ValidFn} {st st2 : St}
    (hp : st.lx.pos ≤ st2.lx.pos)
    (hstk : st2.sc.context_stack = st.sc.context_stack)
    (hh : st2.sc.heredocs.length ≤ st.sc.heredocs.length) :
    retOK vs st false st2 :=
  ⟨hp, fun _ => ⟨hstk, hh⟩, fun h => absurd h (by simp)⟩

/-- Build `retOK` for handlers gated on error recovery being off. -/
lemma retOK_noER {vs : ValidFn} {st st2 : St} {b : Bool} (t : TokenType)
    (hner : in_error_recovery vs = false)
    (hp : st.lx.pos ≤ st2.lx.pos)
    (hsym : b = true → st2.sym = some t) (hreg : t ∉ regexTokens)
    (hprog : b = true → WFdelims st.sc.heredocs →
      st.lx.pos < st2.lx.pos ∨ t ∈ zeroWidthTokens) :
    retOK vs st b st2 :=
  ⟨hp, fun h => absurd h (by simp [hner]),
    fun hb => ⟨t, hsym hb, hprog hb, fun hr => absurd hr hreg,
      fun her => absurd her (by simp [hner])⟩⟩

/-- Build `retOK` for a return that pushes only CTX_PARAMETER entries
    (the regex block). -/
lemma retOK_regex {vs : ValidFn} {st st2 : St} {b : Bool} (t : TokenType)
    (hner : in_error_recovery vs = false)
    (hp : st.lx.pos ≤ st2.lx.pos)
    (hsym : b = true → st2.sym = some t)
    (hprog : b = true → st.lx.pos < st2.lx.pos ∨ t ∈ zeroWidthTokens)
    (hstk : b = true → ∃ n,
      st2.sc.context_stack = st.sc.context_stack ++ List.replicate n CTX_PARAMETER) :
    retOK vs st b st2 :=
  ⟨hp, fun h => absurd h (by simp [hner]),
    fun hb => ⟨t, hsym hb, fun _ => hprog hb, fun _ => hstk hb,
      fun her => absurd her (by simp [hner])⟩⟩

/-- Build `retOK false` for handlers gated on error recovery being off. -/
lemma retOK_false_noER {vs : ValidFn} {st st2 : St}
    (hner : in_error_recovery vs = false)
    (hp : st.lx.pos ≤ st2.lx.pos) :
    retOK vs st false st2 :=
  ⟨hp, fun h => absurd h (by simp [hner]), fun h => absurd h (by simp)⟩

lemma nextOK_refl (st : St) : nextOK st st := ⟨le_refl _, rfl, le_refl _, id⟩

/-- `nextOK` for fall-throughs that only move the lexer. -/
lemma nextOK_scEq {st st2 : St} (hp : st.lx.pos ≤ st2.lx.pos)
    (hsc : st2.sc = st.sc) : nextOK st st2 :=
  ⟨hp, by rw [hsc], by rw [hsc], fun h => by rwa [hsc]⟩

lemma retOK_trans {vs : ValidFn} {st st1 st2 : St} {b : Bool}
    (h1 : nextOK st st1) (h2 : retOK vs st1 b st2) : retOK vs st b st2 := by
  obtain ⟨hp1, hstk1, hh1, hwf1⟩ := h1
  obtain ⟨hp2, her2, hb2⟩ := h2
  refine ⟨le_trans hp1 hp2, ?_, ?_⟩
  · intro her
    obtain ⟨ha, hb⟩ := her2 her
    exact ⟨ha.trans hstk1, le_trans hb hh1⟩
  · intro hb
    obtain ⟨t, hsym, hprog, hreg, hner⟩ := hb2 hb
    refine ⟨t, hsym, ?_, ?_, hner⟩
    · intro hwf
      rcases hprog (hwf1 hwf) with h | h
      · exact Or.inl (lt_of_le_of_lt hp1 h)
      · exact Or.inr h
    · intro ht
      obtain ⟨n, hn⟩ := hreg ht
      exact ⟨n, by rw [hn, hstk1]⟩

lemma runChain_ok (vs : ValidFn) (k : St → Bool × St)
    (hk : ∀ st, retOK vs st (k st).1 (k st).2) :
    ∀ hs : List Handler, (∀ h ∈ hs, handlerOK h) →
      ∀ st, retOK vs st (runChain vs k hs st).1 (runChain vs k hs st).2 := by
  intro hs
  induction hs with
  | nil => intro _ st; exact hk st
  | cons h rest ih =>
    intro hok st
    have hh := hok h (by simp)
    have hrest := ih (fun g hg => hok g (by simp [hg]))
    rw [runChain]
    cases hstep : h vs st with
    | ret b st2 =>
      exact (hh vs st).2 b st2 hstep
    | next st2 =>
      exact retOK_trans ((hh vs st).1 st2 hstep) (hrest st2)

/-! ### Well-formed delimiters under the heredoc mutations -/

lemma WFdelims_nil : WFdelims [] := fun h hh => absurd hh (List.not_mem_nil h)

lemma getLastD_mem_of_ne_nil {α : Type} (l : List α) (d : α) (h : l ≠ []) :
    l.getLastD d ∈ l := by
  induction l generalizing d with
  | nil => exact absurd rfl h
  | cons a t ih =>
    cases t with
    | nil => simp [List.getLastD]
    | cons b u => exact List.mem_cons_of_mem a (ih a (by simp))

lemma WFdelims_back {hs : List Heredoc} (hwf : WFdelims hs) :
    (hs.getLastD heredoc_new).delimiter = [] ∨
      (hs.getLastD heredoc_new).delimiter.headD 0 ≠ 0 := by
  cases hh : hs with
  | nil => left; rfl
  | cons a l =>
    exact hwf _ (hh ▸ getLastD_mem_of_ne_nil hs heredoc_new (by simp [hh]))

lemma WFdelims_popBack {st : St} (hwf : WFdelims st.sc.heredocs) :
    WFdelims (st.popBack).sc.heredocs :=
  fun h hh => hwf h ((List.dropLast_sublist _).subset hh)

lemma WFdelims_modifyBack {st : St} {f : Heredoc → Heredoc}
    (hwf : WFdelims st.sc.heredocs)
    (hf : (f st.back).delimiter = st.back.delimiter ∨ (f st.back).delimiter = []) :
    WFdelims (st.modifyBack f).sc.heredocs := by
  intro g hg
  simp only [St.modifyBack] at hg
  rcases List.mem_append.mp hg with hg | hg
  · exact hwf g ((List.dropLast_sublist _).subset hg)
  · have hge : g = f st.back := by simpa using hg
    subst hge
    rcases hf with hf | hf
    · rw [hf]
      exact WFdelims_back hwf
    · exact Or.inl hf

/-! ### The heredoc-end matcher advances on a well-formed delimiter -/

lemma cstr_append_zero (x : List Nat) : cstr (x ++ [0]) = cstr x := by
  induction x with
  | nil => simp [cstr]
  | cons a t ih =>
    by_cases ha : a = 0
    · simp [cstr, ha]
    · simp only [cstr, List.cons_append, List.takeWhile_cons]
      simp only [cstr] at ih
      simp [ha, ih]

lemma cstr_ne_nil {d : List Nat} (hne : d ≠ []) (hh : d.headD 0 ≠ 0) :
    cstr d ≠ [] := by
  cases d with
  | nil => exact absurd rfl hne
  | cons a t =>
    simp only [List.headD_cons] at hh
    simp [cstr, List.takeWhile_cons, hh]

lemma scan_heredoc_end_loop_spec :
    ∀ (fuel : Nat) (h : Heredoc) (lexer : Lexer),
      (scan_heredoc_end_loop fuel h lexer).1.delimiter = h.delimiter ∧
      (scan_heredoc_end_loop fuel h lexer).2.pos + h.current_leading_word.length =
        lexer.pos + (scan_heredoc_end_loop fuel h lexer).1.current_leading_word.length := by
  intro fuel
  induction fuel with
  | zero => intro h lexer; exact ⟨rfl, rfl⟩
  | succ fuel ih =>
    intro h lexer
    rw [scan_heredoc_end_loop]
    split
    · have := ih { h with current_leading_word :=
        h.current_leading_word ++ [lexer.lookahead % 256] } (advance lexer)
      refine ⟨this.1, ?_⟩
      have h2 := this.2
      simp only [List.length_append, List.length_cons, List.length_nil,
        advance_pos] at h2 ⊢
      omega
    · exact ⟨rfl, rfl⟩

lemma scan_heredoc_end_identifier_spec (h : Heredoc) (lexer : Lexer) :
    (scan_heredoc_end_identifier h lexer).2.1.delimiter = h.delimiter ∧
    lexer.pos ≤ (scan_heredoc_end_identifier h lexer).2.2.pos ∧
    ((scan_heredoc_end_identifier h lexer).1 = true →
      (h.delimiter = [] ∨ h.delimiter.headD 0 ≠ 0) →
      lexer.pos < (scan_heredoc_end_identifier h lexer).2.2.pos) := by
  simp only [scan_heredoc_end_identifier, reset_string]
  split
  · rename_i hlen
    have hsp := scan_heredoc_end_loop_spec h.delimiter.length
      { h with current_leading_word := [] } lexer
    refine ⟨hsp.1, ?_, ?_⟩
    · have h2 := hsp.2
      simp only [List.length_nil] at h2
      omega
    · intro hok hwf
      split_ifs at hok with hdz
      rw [beq_iff_eq, cstr_append_zero, hsp.1] at hok
      have hde : h.delimiter ≠ [] := by
        intro he
        rw [hsp.1, he] at hdz
        simp at hdz
      have hdh : h.delimiter.headD 0 ≠ 0 := by
        rcases hwf with hwf | hwf
        · exact absurd hwf hde
        · exact hwf
      have hcd : cstr h.delimiter ≠ [] := cstr_ne_nil hde hdh
      have hcw : (scan_heredoc_end_loop h.delimiter.length
          { h with current_leading_word := [] }
          lexer).1.current_leading_word ≠ [] := by
        intro he
        rw [he] at hok
        simp only [cstr, List.takeWhile_nil] at hok
        exact hcd hok.symm
      have hlen2 := List.length_pos.mpr hcw
      have h2 := hsp.2
      simp only [List.length_nil] at h2
      omega
  · rename_i hlen
    refine ⟨rfl, le_refl _, ?_⟩
    intro hok _
    have hde : h.delimiter.length = 0 := by omega
    simp [hde] at hok

/-! ### The word reader -/

lemma advance_word_loop_spec (quote : Nat) :
    ∀ (fuel : Nat) (word : List Nat) (empty : Bool) (lexer : Lexer),
      lexer.pos ≤ (advance_word_loop quote fuel word empty lexer).2.2.2.pos ∧
      ((advance_word_loop quote fuel word empty lexer).1 = true →
        (advance_word_loop quote fuel word empty lexer).2.2.1 = false →
        empty = false ∨ lexer.pos <
          (advance_word_loop quote fuel word empty lexer).2.2.2.pos) := by
  intro fuel
  induction fuel with
  | zero =>
    intro word empty lexer
    exact ⟨le_refl _, fun h => by simp [advance_word_loop] at h⟩
  | succ fuel ih =>
    intro word empty lexer
    simp only [advance_word_loop]
    split
    · split
      · split
        · split
          · exact ⟨by show lexer.pos ≤ (advance lexer).pos; simp only [advance_pos]; omega,
              fun h => by simp at h⟩
          · have h := ih (word ++ [(advance lexer).lookahead % 256]) false
              (advance (advance lexer))
            refine ⟨le_trans (by simp only [advance_pos]; omega) h.1, fun _ _ => Or.inr ?_⟩
            exact lt_of_lt_of_le (by simp only [advance_pos]; omega) h.1
        · have h := ih (word ++ [lexer.lookahead % 256]) false (advance lexer)
          refine ⟨le_trans (by simp only [advance_pos]; omega) h.1, fun _ _ => Or.inr ?_⟩
          exact lt_of_lt_of_le (by simp only [advance_pos]; omega) h.1
      · exact ⟨le_refl _, fun _ hne => Or.inl hne⟩
    · split
      · split
        · split
          · exact ⟨by show lexer.pos ≤ (advance lexer).pos; simp only [advance_pos]; omega,
              fun h => by simp at h⟩
          · have h := ih (word ++ [(advance lexer).lookahead % 256]) false
              (advance (advance lexer))
            refine ⟨le_trans (by simp only [advance_pos]; omega) h.1, fun _ _ => Or.inr ?_⟩
            exact lt_of_lt_of_le (by simp only [advance_pos]; omega) h.1
        · have h := ih (word ++ [lexer.lookahead % 256]) false (advance lexer)
          refine ⟨le_trans (by simp only [advance_pos]; omega) h.1, fun _ _ => Or.inr ?_⟩
          exact lt_of_lt_of_le (by simp only [advance_pos]; omega) h.1
      · exact ⟨le_refl _, fun _ hne => Or.inl hne⟩

lemma advance_word_spec (lexer : Lexer) (word : List Nat) :
    lexer.pos ≤ (advance_word lexer word).2.2.pos ∧
    ((advance_word lexer word).1 = true → lexer.pos < (advance_word lexer word).2.2.pos) := by
  simp only [advance_word]
  have hq0 : lexer.pos ≤
      (if (if lexer.lookahead = 39 ∨ lexer.lookahead = 34 then lexer.lookahead else 0) ≠ 0
        then advance lexer else lexer).pos := by
    split_ifs <;> first
      | exact le_refl _
      | (simp only [advance_pos]; omega)
  have hsp := advance_word_loop_spec
    (if lexer.lookahead = 39 ∨ lexer.lookahead = 34 then lexer.lookahead else 0)
    (((if (if lexer.lookahead = 39 ∨ lexer.lookahead = 34 then lexer.lookahead else 0) ≠ 0
        then advance lexer else lexer)).input.length + 2) word true
    (if (if lexer.lookahead = 39 ∨ lexer.lookahead = 34 then lexer.lookahead else 0) ≠ 0
      then advance lexer else lexer)
  split
  · rename_i w lexer2 heq
    rw [heq] at hsp
    refine ⟨le_trans hq0 hsp.1, fun hb => absurd hb (by simp)⟩
  · rename_i w empty2 lexer2 heq
    rw [heq] at hsp
    have hl3 : lexer2.pos ≤
        (if (if lexer.lookahead = 39 ∨ lexer.lookahead = 34 then lexer.lookahead else 0) ≠ 0 ∧
            lexer2.lookahead =
              (if lexer.lookahead = 39 ∨ lexer.lookahead = 34 then lexer.lookahead else 0)
          then advance lexer2 else lexer2).pos := by
      split_ifs <;> first
        | exact le_refl _
        | (simp only [advance_pos]; omega)
    refine ⟨le_trans (le_trans hq0 hsp.1) hl3, ?_⟩
    intro hb
    have he : empty2 = false := by
      cases empty2 with
      | false => rfl
      | true => simp at hb
    rcases hsp.2 rfl he with h | h
    · simp at h
    · exact lt_of_lt_of_le (lt_of_le_of_lt hq0 h) hl3

/-! ### `scan_raw_dollar` and `scan_heredoc_start` -/

lemma scan_raw_dollar_spec (st : St) :
    st.lx.pos ≤ (scan_raw_dollar st).2.lx.pos ∧
    (scan_raw_dollar st).2.sc = st.sc ∧
    ((scan_raw_dollar st).1 = true →
      (scan_raw_dollar st).2.sym = some BARE_DOLLAR ∧
      st.lx.pos < (scan_raw_dollar st).2.lx.pos) := by
  simp only [scan_raw_dollar]
  have hle := advance_while_le (fun c => iswspace c && c != 10)
    (st.lx.input.length + 2) st.lx
  split
  · refine ⟨?_, rfl, ?_⟩
    · simp only [St_mark_end_lx_pos, St_advance_lx_pos, St_withLx_lx, St_setSym_lx]
      omega
    · intro _
      refine ⟨rfl, ?_⟩
      simp only [St_mark_end_lx_pos, St_advance_lx_pos, St_withLx_lx, St_setSym_lx]
      omega
  · exact ⟨by simpa using hle, rfl, fun h => by simp at h⟩

lemma scan_heredoc_start_spec (h : Heredoc) (lexer : Lexer) :
    (scan_heredoc_start h lexer).2.2.2 = some HEREDOC_START ∧
    lexer.pos ≤ (scan_heredoc_start h lexer).2.2.1.pos ∧
    ((scan_heredoc_start h lexer).1 = true →
      lexer.pos < (scan_heredoc_start h lexer).2.2.1.pos) := by
  simp only [scan_heredoc_start]
  have hle := advance_while_le iswspace (lexer.input.length + 2) lexer
  have hsp := advance_word_spec (advance_while iswspace (lexer.input.length + 2) lexer)
    h.delimiter
  split
  · exact ⟨rfl, le_trans hle hsp.1, fun hb => by simp at hb⟩
  · rename_i hff
    refine ⟨rfl, le_trans hle hsp.1, fun _ => ?_⟩
    have hb : (advance_word (advance_while iswspace (lexer.input.length + 2) lexer)
        h.delimiter).1 = true := by
      cases hx : (advance_word (advance_while iswspace (lexer.input.length + 2) lexer)
          h.delimiter).1 with
      | false => exact absurd hx hff
      | true => rfl
    exact lt_of_le_of_lt hle (hsp.2 hb)

/-! ### The heredoc-content scanner: position monotone, result symbol in
the two heredoc terminals, and progress unless the zero-width
HEREDOC_BODY_BEGINNING case fires -/

lemma scan_heredoc_content_loop_spec (middle_type end_type : TokenType) :
    ∀ (fuel : Nat) (da : Bool) (st : St) (b : Bool) (st2 : St),
      scan_heredoc_content_loop middle_type end_type fuel da st = (b, st2) →
      st.lx.pos ≤ st2.lx.pos ∧
      (b = true → ∃ t, st2.sym = some t ∧ (t = middle_type ∨ t = end_type) ∧
        (WFdelims st.sc.heredocs →
          da = true ∨ st.lx.pos < st2.lx.pos ∨
          (t = middle_type ∧ middle_type = HEREDOC_BODY_BEGINNING))) := by
  intro fuel
  induction fuel with
  | zero =>
    intro da st b st2 heq
    rw [scan_heredoc_content_loop] at heq
    injection heq with h1 h2
    subst h1
    subst h2
    exact ⟨le_refl _, fun h => by simp at h⟩
  | succ fuel ih =>
    intro da st b st2 heq
    rw [scan_heredoc_content_loop] at heq
    split at heq
    · -- NUL lookahead
      split at heq
      · rename_i hc
        injection heq with h1 h2
        subst h1
        subst h2
        exact ⟨le_refl _, fun _ => ⟨end_type, rfl, Or.inr rfl, fun _ => Or.inl hc.2⟩⟩
      · injection heq with h1 h2
        subst h1
        subst h2
        exact ⟨le_refl _, fun h => by simp at h⟩
    · split at heq
      · -- backslash: skip the escaped character
        have h := ih true st.advance.advance b st2 heq
        refine ⟨le_trans (by simp only [St_advance_lx_pos]; omega) h.1, fun hb => ?_⟩
        obtain ⟨t, hsym, hmem, _⟩ := h.2 hb
        exact ⟨t, hsym, hmem, fun _ =>
          Or.inr (Or.inl (lt_of_lt_of_le (by simp only [St_advance_lx_pos]; omega) h.1))⟩
      · split at heq
        · -- dollar
          split at heq
          · -- raw heredoc: the dollar is plain content
            have h := ih true st.advance b st2 heq
            refine ⟨le_trans (by simp only [St_advance_lx_pos]; omega) h.1, fun hb => ?_⟩
            obtain ⟨t, hsym, hmem, _⟩ := h.2 hb
            exact ⟨t, hsym, hmem, fun _ =>
              Or.inr (Or.inl (lt_of_lt_of_le (by simp only [St_advance_lx_pos]; omega) h.1))⟩
          · split at heq
            · -- dollar after content was consumed
              rename_i hda
              dsimp only at heq
              split at heq
              · injection heq with h1 h2
                subst h1
                subst h2
                refine ⟨by simp only [St_advance_lx_pos, St_modifyBack_lx, St_setSym_lx,
                  St_mark_end_lx_pos]; omega, fun _ => ⟨middle_type, rfl, Or.inl rfl,
                  fun _ => Or.inl hda⟩⟩
              · have h := ih da (((st.mark_end.setSym middle_type).modifyBack
                  (fun h => { h with started := true })).advance) b st2 heq
                refine ⟨le_trans (by simp only [St_advance_lx_pos, St_modifyBack_lx,
                  St_setSym_lx, St_mark_end_lx_pos]; omega) h.1, fun hb => ?_⟩
                obtain ⟨t, hsym, hmem, _⟩ := h.2 hb
                refine ⟨t, hsym, hmem, fun _ => Or.inr (Or.inl ?_)⟩
                exact lt_of_lt_of_le (by simp only [St_advance_lx_pos, St_modifyBack_lx,
                  St_setSym_lx, St_mark_end_lx_pos]; omega) h.1
            · split at heq
              · -- zero-width HEREDOC_BODY_BEGINNING at column 0
                rename_i hcond
                injection heq with h1 h2
                subst h1
                subst h2
                exact ⟨le_refl _, fun _ => ⟨middle_type, rfl, Or.inl rfl,
                  fun _ => Or.inr (Or.inr ⟨rfl, hcond.1⟩)⟩⟩
              · injection heq with h1 h2
                subst h1
                subst h2
                exact ⟨le_refl _, fun h => by simp at h⟩
        · split at heq
          · -- newline
            dsimp only at heq
            rw [show st.skip = st.advance from rfl, ite_self] at heq
            set stM := (if st.advance.back.allows_indent = true
              then st.advance.withLx (advance_while iswspace
                (st.advance.lx.input.length + 2) st.advance.lx)
              else st.advance) with hstM
            set tk := (if stM.back.started = true then middle_type else end_type) with htk
            have hmem : tk = middle_type ∨ tk = end_type := by
              rw [htk]
              split
              · exact Or.inl rfl
              · exact Or.inr rfl
            have hstMpos : st.lx.pos < stM.lx.pos := by
              rw [hstM]
              have hind := advance_while_le iswspace (st.advance.lx.input.length + 2)
                st.advance.lx
              split_ifs
              · simp only [St_withLx_lx, St_advance_lx_pos] at hind ⊢
                omega
              · simp only [St_advance_lx_pos]
                omega
            have hend := scan_heredoc_end_identifier_spec
              ((stM.setSym tk).mark_end.back) ((stM.setSym tk).mark_end.lx)
            simp only [St_mark_end_lx_pos, St_setSym_lx] at hend
            split at heq
            · -- the line matched the delimiter
              split at heq
              · injection heq with h1 h2x
                subst h1
                subst h2x
                refine ⟨(by simp only [St_popBack_lx, St_withLx_lx, St_modifyBack_lx]; exact le_trans (le_of_lt hstMpos) hend.2.1),
                  fun _ => ?_⟩
                exact ⟨tk, (by
                    simp only [St_popBack_sym, St_withLx_sym, St_modifyBack_sym,
                      St_mark_end_sym, St_setSym_sym]), hmem, fun _ => Or.inr (Or.inl (by
                    simp only [St_popBack_lx, St_withLx_lx, St_modifyBack_lx]
                    exact lt_of_lt_of_le hstMpos hend.2.1))⟩
              · injection heq with h1 h2x
                subst h1
                subst h2x
                refine ⟨(by simp only [St_withLx_lx, St_modifyBack_lx]; exact le_trans (le_of_lt hstMpos) hend.2.1), fun _ => ?_⟩
                exact ⟨tk, (by
                    simp only [St_withLx_sym, St_modifyBack_sym,
                      St_mark_end_sym, St_setSym_sym]), hmem, fun _ => Or.inr (Or.inl (by
                    simp only [St_withLx_lx, St_modifyBack_lx]
                    exact lt_of_lt_of_le hstMpos hend.2.1))⟩
            · -- no match: keep scanning the body
              have h := ih true (((stM.setSym tk).mark_end.modifyBack
                (fun _ => (scan_heredoc_end_identifier (stM.setSym tk).mark_end.back
                  (stM.setSym tk).mark_end.lx).2.1)).withLx
                (scan_heredoc_end_identifier (stM.setSym tk).mark_end.back
                  (stM.setSym tk).mark_end.lx).2.2) b st2 heq
              refine ⟨le_trans (by simp only [St_withLx_lx, St_modifyBack_lx, St_mark_end_lx_pos, St_setSym_lx]; exact le_trans (le_of_lt hstMpos) hend.2.1) h.1, fun hb => ?_⟩
              obtain ⟨t, hsym, hmem2, _⟩ := h.2 hb
              refine ⟨t, hsym, hmem2, fun _ => Or.inr (Or.inl ?_)⟩
              exact lt_of_lt_of_le (by simp only [St_withLx_lx, St_modifyBack_lx, St_mark_end_lx_pos, St_setSym_lx]; exact lt_of_lt_of_le hstMpos hend.2.1) h.1
          · -- default character class
            dsimp only at heq
            set SW := st.withLx (advance_while iswspace (st.lx.input.length + 2) st.lx)
              with hSW
            have hSWpos : st.lx.pos ≤ SW.lx.pos := by
              rw [hSW]
              simpa using advance_while_le iswspace (st.lx.input.length + 2) st.lx
            split at heq
            · -- an early result out of the column-0 delimiter test
              rename_i r heqStep
              subst heq
              split_ifs at heqStep with hcol hse hok hok2
              -- the mismatched Sum constructor cases are discharged by split_ifs
              · -- middle-type branch, delimiter matched
                have hend := scan_heredoc_end_identifier_spec
                  ((SW.setSym middle_type).back) ((SW.setSym middle_type).lx)
                simp only [St_setSym_lx] at hend
                injection heqStep with heqr
                injection heqr with h1 h2x
                subst h1
                subst h2x
                refine ⟨(by simp only [St_withLx_lx, St_modifyBack_lx]; exact le_trans hSWpos hend.2.1), fun _ => ?_⟩
                refine ⟨middle_type, (by
                  simp only [St_withLx_sym, St_modifyBack_sym, St_setSym_sym]), Or.inl rfl,
                  fun hwf => Or.inr (Or.inl ?_)⟩
                have hp := hend.2.2 hok (by
                  have hb : (SW.setSym middle_type).back = st.back := by rw [hSW]; rfl
                  rw [hb]
                  exact WFdelims_back hwf)
                simp only [St_withLx_lx, St_modifyBack_lx]
                exact lt_of_le_of_lt hSWpos hp
              · -- end-type branch (SIMPLE_HEREDOC_BODY), delimiter matched
                have hend := scan_heredoc_end_identifier_spec
                  (((SW.setSym end_type).mark_end).back) (((SW.setSym end_type).mark_end).lx)
                simp only [St_mark_end_lx_pos, St_setSym_lx] at hend
                injection heqStep with heqr
                injection heqr with h1 h2x
                subst h1
                subst h2x
                refine ⟨(by simp only [St_withLx_lx, St_modifyBack_lx]; exact le_trans hSWpos hend.2.1), fun _ => ?_⟩
                refine ⟨end_type, (by
                  simp only [St_withLx_sym, St_modifyBack_sym, St_mark_end_sym,
                    St_setSym_sym]), Or.inr rfl,
                  fun hwf => Or.inr (Or.inl ?_)⟩
                have hp := hend.2.2 hok2 (by
                  have hb : ((SW.setSym end_type).mark_end).back = st.back := by rw [hSW]; rfl
                  rw [hb]
                  exact WFdelims_back hwf)
                simp only [St_withLx_lx, St_modifyBack_lx]
                exact lt_of_le_of_lt hSWpos hp
            · -- fall through: consume one character and continue
              rename_i stX heqStep
              have hstX : st.lx.pos ≤ stX.lx.pos := by
                split_ifs at heqStep with hcol hse hok hok2
                · have hend := scan_heredoc_end_identifier_spec
                    ((SW.setSym middle_type).back) ((SW.setSym middle_type).lx)
                  simp only [St_setSym_lx] at hend
                  injection heqStep with heqr
                  rw [← heqr]
                  simp only [St_withLx_lx, St_modifyBack_lx]
                  exact le_trans hSWpos hend.2.1
                · have hend := scan_heredoc_end_identifier_spec
                    (((SW.setSym end_type).mark_end).back) (((SW.setSym end_type).mark_end).lx)
                  simp only [St_mark_end_lx_pos, St_setSym_lx] at hend
                  injection heqStep with heqr
                  rw [← heqr]
                  simp only [St_withLx_lx, St_modifyBack_lx]
                  exact le_trans hSWpos hend.2.1
                · injection heqStep with heqr
                  rw [← heqr]
              have h := ih true stX.advance b st2 heq
              refine ⟨le_trans (le_trans hstX (by simp only [St_advance_lx_pos]; omega)) h.1,
                fun hb => ?_⟩
              obtain ⟨t, hsym, hmem, _⟩ := h.2 hb
              refine ⟨t, hsym, hmem, fun _ => Or.inr (Or.inl ?_)⟩
              exact lt_of_lt_of_le
                (lt_of_le_of_lt hstX (by simp only [St_advance_lx_pos]; omega)) h.1

lemma scan_heredoc_content_spec (middle_type end_type : TokenType) (st : St) (b : Bool)
    (st2 : St) (heq : scan_heredoc_content middle_type end_type st = (b, st2)) :
    st.lx.pos ≤ st2.lx.pos ∧
    (b = true → ∃ t, st2.sym = some t ∧ (t = middle_type ∨ t = end_type) ∧
      (WFdelims st.sc.heredocs →
        st.lx.pos < st2.lx.pos ∨ (t = middle_type ∧ middle_type = HEREDOC_BODY_BEGINNING))) := by
  have h := scan_heredoc_content_loop_spec middle_type end_type (st.lx.input.length + 2)
    false st b st2 heq
  refine ⟨h.1, fun hb => ?_⟩
  obtain ⟨t, hsym, hmem, hprog⟩ := h.2 hb
  refine ⟨t, hsym, hmem, fun hwf => ?_⟩
  rcases hprog hwf with h | h | h
  · simp at h
  · exact Or.inl h
  · exact Or.inr h

/-! ### Position normalization lemmas for the goto tails -/

lemma St_advance_lx (st : St) : st.advance.lx = advance st.lx := rfl

lemma St_skip_lx (st : St) : st.skip.lx = skip st.lx := rfl

lemma St_mark_end_lx (st : St) : st.mark_end.lx = mark_end st.lx := rfl

lemma advance_while_input (p : Nat → Bool) :
    ∀ (n : Nat) (lexer : Lexer), (advance_while p n lexer).input = lexer.input := by
  intro n
  induction n with
  | zero => intro lexer; rfl
  | succ n ih =>
    intro lexer
    rw [advance_while]
    split
    · rw [ih]
      rfl
    · rfl

lemma advance_while_lx_input (p : Lexer → Bool) :
    ∀ (n : Nat) (lexer : Lexer), (advance_while_lx p n lexer).input = lexer.input := by
  intro n
  induction n with
  | zero => intro lexer; rfl
  | succ n ih =>
    intro lexer
    rw [advance_while_lx]
    split
    · rw [ih]
      rfl
    · rfl

lemma glob_flags_loop_input :
    ∀ (n : Nat) (found : Bool) (lexer : Lexer),
      (glob_flags_loop n found lexer).2.input = lexer.input := by
  intro n
  induction n with
  | zero => intro found lexer; rfl
  | succ n ih =>
    intro found lexer
    rw [glob_flags_loop]
    split
    · rw [ih]
      rfl
    · rfl

lemma ident_loop_input :
    ∀ (n : Nat) (b : Bool) (lexer : Lexer),
      (ident_loop n b lexer).2.input = lexer.input := by
  intro n
  induction n with
  | zero => intro b lexer; rfl
  | succ n ih =>
    intro b lexer
    rw [ident_loop]
    split
    · rw [ih]
      rfl
    · split
      · rw [ih]
        rfl
      · rfl

/-! ### The `brace_start:` tail -/

/-- Contract of a `goto` tail: it ends the scan, so it obeys the return
    contract from any start state. -/
def tailOK (k : ValidFn → St → Bool × St) : Prop :=
  ∀ (vs : ValidFn) (st : St) (b : Bool) (st2 : St),
    k vs st = (b, st2) → retOK vs st b st2

lemma brace_start_tail_ok : tailOK brace_start_tail := by
  intro vs st b st2 heq
  unfold brace_start_tail at heq
  dsimp only at heq
  have h1 := advance_while_le iswspace (st.lx.input.length + 2) st.lx
  split_ifs at heq with hg h123 h46a h46b h125
  · -- no opening brace
    injection heq with hb1 hb2
    subst hb1
    subst hb2
    exact retOK_false (by simpa using h1) rfl (le_refl _)
  · -- no dot after the first digit run
    injection heq with hb1 hb2
    subst hb1
    subst hb2
    refine retOK_false ?_ rfl (le_refl _)
    have h2 := advance_while_le isdigit (st.lx.input.length + 2)
      (mark_end (advance (advance_while iswspace (st.lx.input.length + 2) st.lx)))
    simp only [St_withLx_lx, St_advance_lx, St_mark_end_lx, advance_while_input,
      mark_end_input, advance_input, mark_end_pos, advance_pos] at h2 ⊢
    omega
  · -- a single dot only
    injection heq with hb1 hb2
    subst hb1
    subst hb2
    have h2 := advance_while_le isdigit (st.lx.input.length + 2)
      (mark_end (advance (advance_while iswspace (st.lx.input.length + 2) st.lx)))
    refine retOK_false ?_ rfl (le_refl _)
    simp only [St_withLx_lx, St_advance_lx, St_mark_end_lx, advance_while_input,
      mark_end_input, advance_input, mark_end_pos, advance_pos] at h2 ⊢
    omega
  · -- no closing brace after the second digit run
    injection heq with hb1 hb2
    subst hb1
    subst hb2
    have h2 := advance_while_le isdigit (st.lx.input.length + 2)
      (mark_end (advance (advance_while iswspace (st.lx.input.length + 2) st.lx)))
    have h3 := advance_while_le isdigit (st.lx.input.length + 2)
      (advance (advance (advance_while isdigit (st.lx.input.length + 2)
        (mark_end (advance (advance_while iswspace (st.lx.input.length + 2) st.lx))))))
    refine retOK_false ?_ rfl (le_refl _)
    simp only [St_withLx_lx, St_advance_lx, St_mark_end_lx, advance_while_input,
      mark_end_input, advance_input, mark_end_pos, advance_pos] at h2 h3 ⊢
    omega
  · -- a complete brace range: BRACE_START
    injection heq with hb1 hb2
    subst hb1
    subst hb2
    have h2 := advance_while_le isdigit (st.lx.input.length + 2)
      (mark_end (advance (advance_while iswspace (st.lx.input.length + 2) st.lx)))
    have h3 := advance_while_le isdigit (st.lx.input.length + 2)
      (advance (advance (advance_while isdigit (st.lx.input.length + 2)
        (mark_end (advance (advance_while iswspace (st.lx.input.length + 2) st.lx))))))
    refine retOK_mk BRACE_START ?_ (fun _ => rfl) (by simp [regexTokens]) rfl (le_refl _)
      (fun _ _ => Or.inl ?_) <;>
    · simp only [St_setSym_lx, St_withLx_lx, St_advance_lx, St_mark_end_lx,
        advance_while_input, mark_end_input, advance_input, mark_end_pos, advance_pos]
        at h2 h3 ⊢
      omega
  · -- guard off
    injection heq with hb1 hb2
    subst hb1
    subst hb2
    exact retOK_false (le_refl _) rfl (le_refl _)

/-! ### The `expansion_word:` tail: the scanner state is untouched and
a successful return carries EXPANSION_WORD -/

lemma expansion_word_paren_loop_spec :
    ∀ (fuel : Nat) (a sp : Bool) (st : St),
      match expansion_word_paren_loop fuel a sp st with
      | Sum.inl r => st.lx.pos ≤ r.2.lx.pos ∧ r.2.sc = st.sc ∧
          (r.1 = true → r.2.sym = some EXPANSION_WORD)
      | Sum.inr r => st.lx.pos ≤ r.2.2.lx.pos ∧ r.2.2.sc = st.sc := by
  intro fuel
  induction fuel with
  | zero =>
    intro a sp st
    rw [expansion_word_paren_loop]
    exact ⟨le_refl _, rfl⟩
  | succ fuel ih =>
    intro a sp st
    rw [expansion_word_paren_loop]
    dsimp only
    split
    · -- the loop produced an early whole-scan result
      rename_i r heq
      split_ifs at heq with c1 c2 c3 c4 c5 c6
      · -- dollar followed by an expansion opener
        injection heq with h
        rw [← h]
        exact ⟨by simp only [St_setSym_lx, St_advance_lx, St_mark_end_lx, advance_pos,
          mark_end_pos]; omega, rfl, fun _ => rfl⟩
      · -- recursion after a plain dollar
        have h := ih true sp st.mark_end.advance
        rw [heq] at h
        dsimp only at h
        refine ⟨le_trans ?_ h.1, h.2.1.trans rfl, h.2.2⟩
        simp only [St_advance_lx, St_mark_end_lx, advance_pos, mark_end_pos]
        omega
      · injection heq with h
        rw [← h]
        exact ⟨le_refl _, rfl, fun _ => rfl⟩
      · injection heq with h
        rw [← h]
        exact ⟨le_refl _, rfl, fun _ => rfl⟩
      · injection heq with h
        rw [← h]
        exact ⟨le_refl _, rfl, fun _ => rfl⟩
      · -- recursion after an ordinary character
        have h := ih (a || !iswspace st.look) (sp || iswspace st.look) st.advance
        rw [heq] at h
        dsimp only at h
        refine ⟨le_trans ?_ h.1, h.2.1.trans rfl, h.2.2⟩
        simp only [St_advance_lx, advance_pos]
        omega
    · -- the loop exited normally
      rename_i r heq
      split_ifs at heq with c1 c2 c3 c4 c5 c6
      · -- recursion after a plain dollar
        have h := ih true sp st.mark_end.advance
        rw [heq] at h
        dsimp only at h
        refine ⟨le_trans ?_ h.1, h.2.trans rfl⟩
        simp only [St_advance_lx, St_mark_end_lx, advance_pos, mark_end_pos]
        omega
      · -- recursion after an ordinary character
        have h := ih (a || !iswspace st.look) (sp || iswspace st.look) st.advance
        rw [heq] at h
        dsimp only at h
        refine ⟨le_trans ?_ h.1, h.2.trans rfl⟩
        simp only [St_advance_lx, advance_pos]
        omega
      · -- loop exit
        injection heq with h
        rw [← h]
        exact ⟨le_refl _, rfl⟩

lemma expansion_word_loop_spec :
    ∀ (fuel : Nat) (a sp : Bool) (st : St) (b : Bool) (st2 : St),
      expansion_word_loop fuel a sp st = (b, st2) →
      st.lx.pos ≤ st2.lx.pos ∧ st2.sc = st.sc ∧
      (b = true → st2.sym = some EXPANSION_WORD) := by
  intro fuel
  induction fuel with
  | zero =>
    intro a sp st b st2 heq
    rw [expansion_word_loop] at heq
    injection heq with h1 h2
    subst h1
    subst h2
    exact ⟨le_refl _, rfl, fun h => by simp at h⟩
  | succ fuel ih =>
    intro a sp st b st2 heq
    rw [expansion_word_loop] at heq
    dsimp only at heq
    have hrest : ∀ (a3 sp3 : Bool) (stD : St),
        st.lx.pos ≤ stD.lx.pos → stD.sc = st.sc →
        (if (stD.look == 39) = true then (false, stD)
         else if stD.atEof = true then (false, stD)
         else if (should_stop_at_pattern_operators stD.sc && stD.look == 93) = true then
           (true, stD.mark_end.setSym EXPANSION_WORD)
         else if (should_stop_at_pattern_operators stD.sc &&
             (stD.look == 35 || stD.look == 37 || stD.look == 47) &&
             (stD.look == 47 &&
               get_current_context stD.sc == CTX_PARAMETER_PATTERN_SUBSTITUTE &&
               !a3)) = true then
           (true, stD.mark_end.setSym EXPANSION_WORD)
         else
           expansion_word_loop fuel (a3 || !(iswspace stD.look))
             (sp3 || iswspace stD.look) stD.advance) = (b, st2) →
        st.lx.pos ≤ st2.lx.pos ∧ st2.sc = st.sc ∧
        (b = true → st2.sym = some EXPANSION_WORD) := by
      intro a3 sp3 stD hpos hsc heqD
      split_ifs at heqD
      · injection heqD with h1 h2
        subst h1
        subst h2
        exact ⟨hpos, hsc, fun h => by simp at h⟩
      · injection heqD with h1 h2
        subst h1
        subst h2
        exact ⟨hpos, hsc, fun h => by simp at h⟩
      · injection heqD with h1 h2
        subst h1
        subst h2
        exact ⟨hpos, hsc, fun _ => rfl⟩
      · injection heqD with h1 h2
        subst h1
        subst h2
        exact ⟨hpos, hsc, fun _ => rfl⟩
      · have h := ih (a3 || !(iswspace stD.look)) (sp3 || iswspace stD.look)
          stD.advance b st2 heqD
        refine ⟨le_trans (le_trans hpos (by simp only [St_advance_lx, advance_pos]; omega))
          h.1, h.2.1.trans hsc, h.2.2⟩
    split at heq
    · -- double quote: give up
      injection heq with h1 h2
      subst h1
      subst h2
      exact ⟨le_refl _, rfl, fun h => by simp at h⟩
    · split at heq
      · -- a dollar expansion start ended the scan early
        rename_i r heq2
        subst heq
        split_ifs at heq2 with h36 hstart
        injection heq2 with h
        injection h with h1 h2
        subst h1
        subst h2
        refine ⟨?_, rfl, fun _ => rfl⟩
        simp only [St_setSym_lx, St_advance_lx, St_mark_end_lx, advance_pos, mark_end_pos]
        omega
      · -- fall through with the (possibly advanced) state
        rename_i aC stC heq2
        have hCC : st.lx.pos ≤ stC.lx.pos ∧ stC.sc = st.sc := by
          split_ifs at heq2 with h36 hstart
          · injection heq2 with h
            injection h with h1 h2
            subst h2
            refine ⟨?_, rfl⟩
            simp only [St_advance_lx, St_mark_end_lx, advance_pos, mark_end_pos]
            omega
          · injection heq2 with h
            injection h with h1 h2
            subst h2
            exact ⟨le_refl _, rfl⟩
        split_ifs at heq with c47 c125 c40
        · -- pattern slash stop
          injection heq with h1 h2
          subst h1
          subst h2
          exact ⟨hCC.1, hCC.2, fun _ => rfl⟩
        · -- closing brace stop
          injection heq with h1 h2
          subst h1
          subst h2
          exact ⟨hCC.1, hCC.2, fun _ => rfl⟩
        · -- balanced parenthesis scan
          split at heq
          · -- the parenthesis step ended the whole scan
            rename_i r heq3
            subst heq
            split at heq3
            · -- the inner loop returned early
              rename_i r2 heq4
              injection heq3 with h
              subst h
              have hp := expansion_word_paren_loop_spec
                (stC.mark_end.advance.lx.input.length + 2) aC sp stC.mark_end.advance
              rw [heq4] at hp
              dsimp only at hp
              refine ⟨le_trans hCC.1 (le_trans ?_ hp.1), hp.2.1.trans hCC.2, hp.2.2⟩
              simp only [St_advance_lx, St_mark_end_lx, advance_pos, mark_end_pos]
              omega
            · -- unterminated parenthesis: the scan fails
              rename_i a2 sp2 st3 heq4
              have hp := expansion_word_paren_loop_spec
                (stC.mark_end.advance.lx.input.length + 2) aC sp stC.mark_end.advance
              rw [heq4] at hp
              dsimp only at hp
              split_ifs at heq3 with h41
              injection heq3 with h
              injection h with h1 h2
              subst h1
              subst h2
              refine ⟨?_, hp.2.trans hCC.2, fun hx => by simp at hx⟩
              have hp1 := hp.1
              have hC1 := hCC.1
              simp only [St_advance_lx, St_mark_end_lx, advance_pos, mark_end_pos]
                at hp1 ⊢
              omega
          · -- the parenthesis step fell through: continue after `)`
            rename_i a3 sp3 stD heq3
            have hDD : st.lx.pos ≤ stD.lx.pos ∧ stD.sc = st.sc := by
              split at heq3
              · exact absurd heq3 (by simp)
              · rename_i a2 sp2 st3 heq4
                have hp := expansion_word_paren_loop_spec
                  (stC.mark_end.advance.lx.input.length + 2) aC sp stC.mark_end.advance
                rw [heq4] at hp
                dsimp only at hp
                split_ifs at heq3 with h41
                injection heq3 with h
                injection h with h1 hx
                injection hx with h2 h3
                subst h3
                constructor
                · have hp1 := hp.1
                  have hC1 := hCC.1
                  simp only [St_advance_lx, St_mark_end_lx, advance_pos, mark_end_pos]
                    at hp1 ⊢
                  omega
                · exact hp.2.trans hCC.2
            exact hrest a3 sp3 stD hDD.1 hDD.2 heq
        · dsimp only at heq
          exact hrest aC sp stC hCC.1 hCC.2 heq
lemma expansion_word_tail_ok : tailOK expansion_word_tail := by
  intro vs st b st2 heq
  unfold expansion_word_tail at heq
  split_ifs at heq with hg hwjvn
  · injection heq with h1 h2
    subst h1
    subst h2
    exact retOK_false (le_refl _) rfl (le_refl _)
  · have h := expansion_word_loop_spec (st.lx.input.length + 2) false false st b st2 heq
    refine retOK_mk EXPANSION_WORD h.1 (fun hb => h.2.2 hb) (by decide) ?_ ?_
      (fun _ _ => Or.inr (by decide))
    · rw [h.2.1]
    · exact le_of_eq (by rw [h.2.1])
  · exact brace_start_tail_ok vs st b st2 heq

/-! ### The `extglob_pattern:` tail -/

lemma extglob_iter_tail_inl (s3 : ExtglobState) (was_space : Bool) (st : St)
    (b : Bool) (st2 : St)
    (heq : extglob_iter_tail s3 was_space st = Sum.inl (b, st2)) :
    st.lx.pos ≤ st2.lx.pos ∧ st2.sc.context_stack = st.sc.context_stack ∧
    st2.sc.heredocs = st.sc.heredocs ∧
    (b = true → st2.sym = some EXTGLOB_PATTERN ∧
      (st.lx.pos < st2.lx.pos ∨ was_space = true ∨ st.look = 34)) := by
  unfold extglob_iter_tail at heq
  dsimp only at heq
  split_ifs at heq with hws h34
  · injection heq with h
    injection h with h1 h2
    subst h1
    subst h2
    exact ⟨le_refl _, rfl, rfl, fun _ => ⟨rfl, Or.inr (Or.inl hws)⟩⟩
  · injection heq with h
    injection h with h1 h2
    subst h1
    subst h2
    exact ⟨le_refl _, rfl, rfl, fun _ => ⟨rfl, Or.inr (Or.inr (by simpa using h34))⟩⟩

lemma extglob_iter_tail_inr (s3 : ExtglobState) (was_space : Bool) (st : St)
    (s4 : ExtglobState) (st2 : St)
    (heq : extglob_iter_tail s3 was_space st = Sum.inr (s4, st2)) :
    st.lx.pos < st2.lx.pos ∧ st2.sc = st.sc := by
  unfold extglob_iter_tail at heq
  dsimp only at heq
  split_ifs at heq
  all_goals injection heq with h
  all_goals injection h with h1 h2
  all_goals subst h2
  all_goals refine ⟨?_, rfl⟩
  all_goals simp only [St_advance_lx, St_mark_end_lx, advance_pos, mark_end_pos]
  all_goals omega

lemma extglob_iter_spec (s : ExtglobState) (st : St) :
    (∀ b st2, extglob_iter s st = Sum.inl (b, st2) →
      st.lx.pos ≤ st2.lx.pos ∧ st2.sc.context_stack = st.sc.context_stack ∧
      st2.sc.heredocs = st.sc.heredocs ∧
      (b = true → st2.sym = some EXTGLOB_PATTERN ∧
        (st.lx.pos < st2.lx.pos ∨ iswspace st.look = true ∨ st.look = 41 ∨
          st.look = 93 ∨ st.look = 125 ∨ st.look = 34))) ∧
    (∀ s2 st2, extglob_iter s st = Sum.inr (s2, st2) →
      st.lx.pos < st2.lx.pos ∧ st2.sc = st.sc) := by
  constructor
  · intro b st2 heq
    unfold extglob_iter at heq
    dsimp only at heq
    split at heq
    · -- NUL lookahead
      injection heq with h
      injection h with h1 h2
      subst h1
      subst h2
      exact ⟨le_refl _, rfl, rfl, fun h => by simp at h⟩
    · split at heq
      · -- the pipe step ended the whole scan
        rename_i r heq2
        injection heq with h
        subst h
        split_ifs at heq2 with h124 hdep
        injection heq2 with h
        injection h with h1 h2
        subst h1
        subst h2
        refine ⟨?_, rfl, rfl, fun _ => ⟨rfl, Or.inl ?_⟩⟩ <;>
        · simp only [St_setSym_lx, St_advance_lx, St_mark_end_lx, advance_pos, mark_end_pos]
          omega
      · -- fall through the pipe step
        rename_i stP heq2
        have hP : stP.sc = st.sc ∧ (stP = st ∨ st.lx.pos < stP.lx.pos) := by
          split_ifs at heq2 with h124 hdep
          · injection heq2 with h
            rw [← h]
            exact ⟨rfl, Or.inr (by
              simp only [St_advance_lx, St_mark_end_lx, advance_pos, mark_end_pos]; omega)⟩
          · injection heq2 with h
            rw [← h]
            exact ⟨rfl, Or.inl rfl⟩
        split at heq
        · -- not done yet
          split at heq
          · -- the dollar step ended the whole scan
            rename_i r heq3
            injection heq with h
            subst h
            have hleaf : ∀ (bb : Bool) (n : Nat),
                (bb, (stP.mark_end.advance.setSym EXTGLOB_PATTERN).setLgpd n) = (b, st2) →
                st.lx.pos ≤ st2.lx.pos ∧
                st2.sc.context_stack = st.sc.context_stack ∧
                st2.sc.heredocs = st.sc.heredocs ∧
                (b = true → st2.sym = some EXTGLOB_PATTERN ∧
                  (st.lx.pos < st2.lx.pos ∨ iswspace st.look = true ∨ st.look = 41 ∨
                    st.look = 93 ∨ st.look = 125 ∨ st.look = 34)) := by
              intro bb n hinj
              injection hinj with h1 h2
              subst h1
              subst h2
              have hPp := hP.2
              refine ⟨?_,
                (by simp only [St_setLgpd_stack, St_setSym_sc, St_advance_sc, St_mark_end_sc]; rw [hP.1]),
                (by simp only [St_setLgpd_heredocs, St_setSym_sc, St_advance_sc, St_mark_end_sc]; rw [hP.1]),
                fun _ => ⟨rfl, Or.inl ?_⟩⟩ <;>
              · rcases hPp with hPp | hPp
                · subst hPp
                  simp only [St_setSym_lx, St_setLgpd_lx, St_advance_lx, St_mark_end_lx,
                    advance_pos, mark_end_pos]
                  omega
                · simp only [St_setSym_lx, St_setLgpd_lx, St_advance_lx, St_mark_end_lx,
                    advance_pos, mark_end_pos] at hPp ⊢
                  omega
            split_ifs at heq3 with h36 hsaw h40123 h40123b
            all_goals injection heq3 with h
            all_goals exact hleaf _ _ h
          · -- the tail of the iteration
            rename_i s3 stPP heq3
            have hPP : stPP.sc = stP.sc ∧ (stPP = stP ∨ stP.lx.pos < stPP.lx.pos) := by
              split_ifs at heq3 with h36 hsaw h40123 h40123b
              all_goals injection heq3 with h
              all_goals injection h with h1 h2
              all_goals rw [← h2]
              · exact ⟨rfl, Or.inr (by
                  simp only [St_advance_lx, St_mark_end_lx, advance_pos, mark_end_pos]; omega)⟩
              · exact ⟨rfl, Or.inr (by
                  simp only [St_advance_lx, St_mark_end_lx, advance_pos, mark_end_pos]; omega)⟩
              · exact ⟨rfl, Or.inl rfl⟩
            have h := extglob_iter_tail_inl s3 (iswspace stP.look) stPP b st2 heq
            have hle : st.lx.pos ≤ stPP.lx.pos := by
              rcases hPP.2 with h' | h'
              · subst h'
                rcases hP.2 with h'' | h''
                · subst h''
                  exact le_refl _
                · exact le_of_lt h''
              · rcases hP.2 with h'' | h''
                · subst h''
                  exact le_of_lt h'
                · exact le_of_lt (lt_trans h'' h')
            refine ⟨le_trans hle h.1, by rw [h.2.1, hPP.1, hP.1],
              by rw [h.2.2.1, hPP.1, hP.1], fun hb => ?_⟩
            obtain ⟨hsym, hprog⟩ := h.2.2.2 hb
            refine ⟨hsym, ?_⟩
            rcases hprog with hprog | hprog | hprog
            · exact Or.inl (lt_of_le_of_lt hle hprog)
            · -- the stop was on whitespace at the pipe-step state
              rcases hP.2 with h' | h'
              · subst h'
                exact Or.inr (Or.inl hprog)
              · exact Or.inl (lt_of_lt_of_le (lt_of_lt_of_le h' (by
                  rcases hPP.2 with h'' | h''
                  · subst h''
                    exact le_refl _
                  · exact le_of_lt h'')) h.1)
            · -- the stop was on a double quote
              rcases hPP.2 with h' | h'
              · subst h'
                rcases hP.2 with h'' | h''
                · subst h''
                  exact Or.inr (Or.inr (Or.inr (Or.inr (Or.inr hprog))))
                · exact Or.inl (lt_of_lt_of_le h'' (le_trans (le_refl _) h.1))
              · rcases hP.2 with h'' | h''
                · subst h''
                  exact Or.inl (lt_of_lt_of_le h' h.1)
                · exact Or.inl (lt_of_lt_of_le (lt_trans h'' h') h.1)
        · -- done: a balanced closer ends the pattern
          rename_i hdone
          injection heq with h
          injection h with h1 h2
          subst h1
          subst h2
          have hdone1 : extglob_done s st.look = true := by
            rcases Bool.eq_false_or_eq_true (extglob_done s st.look) with hd | hd
            · exact hd
            · rw [hd] at hdone
              simp at hdone
          have hdone2 : st.look = 41 ∨ st.look = 93 ∨ st.look = 125 := by
            simp only [extglob_done, Bool.or_eq_true, Bool.and_eq_true, beq_iff_eq] at hdone1
            cases hdone1 with
            | inl h =>
              cases h with
              | inl h => exact Or.inl h.1
              | inr h => exact Or.inr (Or.inl h.1)
            | inr h => exact Or.inr (Or.inr h.1)
          refine ⟨?_,
            (by simp only [St_setLgpd_stack, St_setSym_sc]; rw [hP.1]),
            (by simp only [St_setLgpd_heredocs, St_setSym_sc]; rw [hP.1]),
            fun _ => ⟨rfl, ?_⟩⟩
          · rcases hP.2 with h | h
            · subst h
              exact le_refl _
            · exact le_of_lt h
          · rcases hP.2 with h | h
            · subst h
              rcases hdone2 with h | h | h
              · exact Or.inr (Or.inr (Or.inl h))
              · exact Or.inr (Or.inr (Or.inr (Or.inl h)))
              · exact Or.inr (Or.inr (Or.inr (Or.inr (Or.inl h))))
            · exact Or.inl h
  · intro s2 st2 heq
    unfold extglob_iter at heq
    dsimp only at heq
    split at heq
    · exact absurd heq (by simp)
    · split at heq
      · exact absurd heq (by simp)
      · rename_i stP heq2
        have hP : stP.sc = st.sc ∧ (stP = st ∨ st.lx.pos < stP.lx.pos) := by
          split_ifs at heq2 with h124 hdep
          · injection heq2 with h
            rw [← h]
            exact ⟨rfl, Or.inr (by
              simp only [St_advance_lx, St_mark_end_lx, advance_pos, mark_end_pos]; omega)⟩
          · injection heq2 with h
            rw [← h]
            exact ⟨rfl, Or.inl rfl⟩
        split at heq
        · split at heq
          · exact absurd heq (by simp)
          · rename_i s3 stPP heq3
            have hPP : stPP.sc = stP.sc ∧ (stPP = stP ∨ stP.lx.pos < stPP.lx.pos) := by
              split_ifs at heq3 with h36 hsaw h40123 h40123b
              all_goals injection heq3 with h
              all_goals injection h with h1 h2
              all_goals rw [← h2]
              · exact ⟨rfl, Or.inr (by
                  simp only [St_advance_lx, St_mark_end_lx, advance_pos, mark_end_pos]; omega)⟩
              · exact ⟨rfl, Or.inr (by
                  simp only [St_advance_lx, St_mark_end_lx, advance_pos, mark_end_pos]; omega)⟩
              · exact ⟨rfl, Or.inl rfl⟩
            have h := extglob_iter_tail_inr s3 (iswspace stP.look) stPP s2 st2 heq
            refine ⟨?_, by rw [h.2, hPP.1, hP.1]⟩
            rcases hPP.2 with h' | h'
            · subst h'
              rcases hP.2 with h'' | h''
              · subst h''
                exact h.1
              · exact lt_trans h'' h.1
            · rcases hP.2 with h'' | h''
              · subst h''
                exact lt_trans h' h.1
              · exact lt_trans (lt_trans h'' h') h.1
        · exact absurd heq (by simp)

lemma extglob_loop_spec :
    ∀ (fuel : Nat) (s : ExtglobState) (st : St) (b : Bool) (st2 : St),
      extglob_loop fuel s st = (b, st2) →
      st.lx.pos ≤ st2.lx.pos ∧
      st2.sc.context_stack = st.sc.context_stack ∧
      st2.sc.heredocs = st.sc.heredocs ∧
      (b = true → st2.sym = some EXTGLOB_PATTERN ∧
        (st.lx.pos < st2.lx.pos ∨ iswspace st.look = true ∨ st.look = 41 ∨ st.look = 93 ∨
          st.look = 125 ∨ st.look = 34)) := by
  intro fuel
  induction fuel with
  | zero =>
    intro s st b st2 heq
    rw [extglob_loop] at heq
    injection heq with h1 h2
    subst h1
    subst h2
    exact ⟨le_refl _, rfl, rfl, fun h => by simp at h⟩
  | succ fuel ih =>
    intro s st b st2 heq
    rw [extglob_loop] at heq
    split at heq
    · rename_i r heq2
      subst heq
      exact (extglob_iter_spec s st).1 b st2 heq2
    · rename_i s3 st3 heq2
      have hi := (extglob_iter_spec s st).2 s3 st3 heq2
      have h := ih s3 st3 b st2 heq
      refine ⟨le_trans (le_of_lt hi.1) h.1, ?_, ?_, fun hb => ?_⟩
      · rw [h.2.1, hi.2]
      · rw [h.2.2.1, hi.2]
      · obtain ⟨hsym, _⟩ := h.2.2.2 hb
        exact ⟨hsym, Or.inl (lt_of_lt_of_le hi.1 h.1)⟩
lemma extglob_tail_ok : tailOK extglob_tail := by
  intro vs st b st2 heq
  unfold extglob_tail at heq
  split at heq
  · -- extglob inside a parameter expansion context: declined
    injection heq with h1 h2
    subst h1
    subst h2
    exact retOK_false (le_refl _) rfl (le_refl _)
  · split at heq
    · -- the main extglob block
      rename_i hg
      have hner : in_error_recovery vs = false := by
        simp only [Bool.and_eq_true, Bool.not_eq_true'] at hg
        exact hg.1.1.1.2
      dsimp only at heq
      have hst1 := advance_while_le iswspace (st.lx.input.length + 2) st.lx
      split at heq
      · -- the lookahead class admits a pattern
        split at heq
        · -- step 1 (backslash) returned
          rename_i r heq1
          subst heq
          split_ifs at heq1 with c92 csp
          injection heq1 with h
          injection h with h1 h2
          subst h1
          subst h2
          refine retOK_false_noER hner ?_
          simp only [St_advance_lx, St_withLx_lx, advance_pos]
          omega
        · rename_i stA heqA
          have hA : st.lx.pos ≤ stA.lx.pos ∧ stA.sc = st.sc := by
            split_ifs at heqA with c92 csp
            · injection heqA with h
              rw [← h]
              refine ⟨?_, rfl⟩
              simp only [St_advance_lx, St_withLx_lx, advance_pos]
              omega
            · injection heqA with h
              rw [← h]
              refine ⟨?_, rfl⟩
              simp only [St_withLx_lx]
              omega
          split at heq
          · -- step 2 (top-level closing parenthesis) returned
            rename_i r heq2
            subst heq
            split_ifs at heq2 with c41 csp
            injection heq2 with h
            injection h with h1 h2
            subst h1
            subst h2
            refine retOK_false_noER hner ?_
            have := hA.1
            simp only [St_advance_lx, St_mark_end_lx, advance_pos, mark_end_pos] at this ⊢
            omega
          · rename_i stB heqB
            have hB : st.lx.pos ≤ stB.lx.pos ∧ stB.sc = st.sc := by
              split_ifs at heqB with c41 csp
              · injection heqB with h
                rw [← h]
                refine ⟨?_, by simp [hA.2]⟩
                have := hA.1
                simp only [St_advance_lx, St_mark_end_lx, advance_pos, mark_end_pos]
                  at this ⊢
                omega
              · injection heqB with h
                rw [← h]
                exact hA
            split at heq
            · -- step 3 (the `esac` probe) returned
              rename_i r heq3
              subst heq
              split_ifs at heq3 with c91 c101 c115 c97 c99 cspx
              injection heq3 with h
              injection h with h1 h2
              subst h1
              subst h2
              refine retOK_false_noER hner ?_
              have := hB.1
              simp only [St_advance_lx, St_mark_end_lx, advance_pos, mark_end_pos] at this ⊢
              omega
            · rename_i stC heqC
              have hC : st.lx.pos ≤ stC.lx.pos ∧ stC.sc = st.sc ∧
                  (st.lx.pos < stC.lx.pos ∨ stC.look = 91) := by
                split_ifs at heqC with c91 c101 c115 c97 c99 cspx
                all_goals injection heqC with h
                all_goals rw [← h]
                all_goals try
                  (refine ⟨?_, by simp [hB.2], Or.inl ?_⟩ <;>
                    (have hq9 := hB.1
                     simp only [St_advance_lx, St_mark_end_lx, advance_pos, mark_end_pos]
                       at hq9 ⊢
                     omega))
                -- the remaining case: lookahead `[`, state unchanged
                refine ⟨?_, by simp [hB.2], Or.inr ?_⟩
                · have := hB.1
                  simp only [St_mark_end_lx, mark_end_pos] at this ⊢
                  omega
                · simp only [Bool.not_eq_true] at c91
                  have : (stB.mark_end.look != 91) = false := c91
                  simpa using this
              split at heq
              · -- step 4 (`-` with alphanumeric run) returned
                rename_i r heq4
                subst heq
                split_ifs at heq4 with c45 cstop
                injection heq4 with h
                injection h with h1 h2
                subst h1
                subst h2
                refine retOK_false_noER hner ?_
                have h2 := advance_while_le iswalnum
                  ((advance (mark_end stC.lx)).input.length + 2) (advance (mark_end stC.lx))
                have := hC.1
                simp only [St_withLx_lx, St_advance_lx, St_mark_end_lx, advance_pos,
                  mark_end_pos] at this h2 ⊢
                omega
              · rename_i stD heqD
                have hD : st.lx.pos ≤ stD.lx.pos ∧ stD.sc = st.sc ∧
                    (st.lx.pos < stD.lx.pos ∨ stD.look = 91) := by
                  split_ifs at heqD with c45 cstop
                  · injection heqD with h
                    rw [← h]
                    have h2 := advance_while_le iswalnum
                      ((advance (mark_end stC.lx)).input.length + 2)
                      (advance (mark_end stC.lx))
                    refine ⟨?_, by simp [hC.2.1], Or.inl ?_⟩ <;>
                      (have hq9 := hC.1
                       simp only [St_withLx_lx, St_advance_lx, St_mark_end_lx, advance_pos,
                         mark_end_pos] at hq9 h2 ⊢
                       omega)
                  · injection heqD with h
                    rw [← h]
                    exact ⟨hC.1, hC.2.1, hC.2.2⟩
                split at heq
                · -- step 5 (closing parenthesis then whitespace) returned
                  rename_i r heq5
                  subst heq
                  split_ifs at heq5 with c41b cspb
                  injection heq5 with h
                  injection h with h1 h2
                  subst h1
                  subst h2
                  refine retOK_noER EXTGLOB_PATTERN hner ?_ (fun _ => rfl) (by decide)
                    (fun _ _ => Or.inl ?_) <;>
                  · have := hD.1
                    simp only [St_setSym_lx, St_advance_lx, St_mark_end_lx, advance_pos,
                      mark_end_pos] at this ⊢
                    omega
                · rename_i stE heqE
                  have hE : st.lx.pos ≤ stE.lx.pos ∧ stE.sc = st.sc ∧
                      (st.lx.pos < stE.lx.pos ∨ stE.look = 91) := by
                    split_ifs at heqE with c41b cspb
                    · injection heqE with h
                      rw [← h]
                      refine ⟨?_, by simp [hD.2.1], Or.inl ?_⟩ <;>
                        (have hq9 := hD.1
                         simp only [St_advance_lx, St_mark_end_lx, advance_pos, mark_end_pos]
                           at hq9 ⊢
                         omega)
                    · injection heqE with h
                      rw [← h]
                      exact hD
                  split at heq
                  · -- whitespace: EXTGLOB_PATTERN ends here
                    rename_i hsp
                    injection heq with h1 h2
                    subst h1
                    subst h2
                    have hlt : st.lx.pos < stE.lx.pos := by
                      rcases hE.2.2 with h | h
                      · exact h
                      · rw [h] at hsp
                        exact absurd hsp (by decide)
                    refine retOK_noER EXTGLOB_PATTERN hner ?_ (fun _ => rfl) (by decide)
                      (fun _ _ => Or.inl ?_) <;>
                    · simp only [St_setLgpd_lx, St_setSym_lx, St_mark_end_lx, mark_end_pos]
                      omega
                  · -- no whitespace stop
                    split at heq
                    · -- step 6 (dollar) returned
                      rename_i r heq6
                      subst heq
                      split_ifs at heq6 with c36 copen
                      injection heq6 with h
                      injection h with h1 h2
                      subst h1
                      subst h2
                      refine retOK_noER EXTGLOB_PATTERN hner ?_ (fun _ => rfl) (by decide)
                        (fun _ _ => Or.inl ?_) <;>
                      · have := hE.1
                        simp only [St_setSym_lx, St_advance_lx, St_mark_end_lx, advance_pos,
                          mark_end_pos] at this ⊢
                        omega
                    · rename_i stF heqF
                      have hF : st.lx.pos ≤ stF.lx.pos ∧ stF.sc = st.sc ∧
                          (st.lx.pos < stF.lx.pos ∨ stF.look = 91) := by
                        split_ifs at heqF with c36 copen
                        · injection heqF with h
                          rw [← h]
                          refine ⟨?_, by simp [hE.2.1], Or.inl ?_⟩ <;>
                            (have hq9 := hE.1
                             simp only [St_advance_lx, St_mark_end_lx, advance_pos,
                               mark_end_pos] at hq9 ⊢
                             omega)
                        · injection heqF with h
                          rw [← h]
                          exact hE
                      split at heq
                      · -- pipe: EXTGLOB_PATTERN after consuming it
                        injection heq with h1 h2
                        subst h1
                        subst h2
                        refine retOK_noER EXTGLOB_PATTERN hner ?_ (fun _ => rfl) (by decide)
                          (fun _ _ => Or.inl ?_) <;>
                        · have := hF.1
                          simp only [St_setSym_lx, St_advance_lx, St_mark_end_lx, advance_pos,
                            mark_end_pos] at this ⊢
                          omega
                      · split at heq
                        · -- a character that cannot start a pattern
                          injection heq with h1 h2
                          subst h1
                          subst h2
                          exact retOK_false_noER hner hF.1
                        · -- the balancing loop
                          have h := extglob_loop_spec _ _ stF b st2 heq
                          refine retOK_noER EXTGLOB_PATTERN hner (le_trans hF.1 h.1)
                            (fun hb => (h.2.2.2 hb).1) (by decide) (fun hb _ => Or.inl ?_)
                          obtain ⟨_, hprog⟩ := h.2.2.2 hb
                          rcases hF.2.2 with hFlt | hF91
                          · exact lt_of_lt_of_le hFlt h.1
                          · rcases hprog with hp | hp | hp | hp | hp | hp
                            · exact lt_of_le_of_lt hF.1 hp
                            · rw [hF91] at hp
                              exact absurd hp (by decide)
                            · rw [hF91] at hp
                              exact absurd hp (by decide)
                            · rw [hF91] at hp
                              exact absurd hp (by decide)
                            · rw [hF91] at hp
                              exact absurd hp (by decide)
                            · rw [hF91] at hp
                              exact absurd hp (by decide)
      · -- the lookahead class rejects: decline with glob depth reset
        injection heq with h1 h2
        subst h1
        subst h2
        refine retOK_false_noER hner ?_
        simpa using hst1
    · -- fall through to the expansion-word tail
      exact expansion_word_tail_ok vs st b st2 heq

/-! ## The regex loop: stack growth and progress -/

lemma regex_update_adv (s : RegexState) (c : Nat) :
    (regex_update s c).advanced_once = s.advanced_once := by
  unfold regex_update
  split_ifs <;> rfl

lemma replicate_stack_trans {a b c : List Nat} {x : Nat}
    (h1 : ∃ m, b = a ++ List.replicate m x) (h2 : ∃ n, c = b ++ List.replicate n x) :
    ∃ k, c = a ++ List.replicate k x := by
  obtain ⟨m, h1⟩ := h1
  obtain ⟨n, h2⟩ := h2
  exact ⟨m + n, by rw [h2, h1, List.append_assoc, ← List.replicate_add]⟩

/-- `regex_finalize` keeps the lexer and scanner and emits one of the
    three regex terminals; REGEX itself only after an advance (or when
    REGEX is not even being asked for). -/
lemma regex_finalize_spec (vs : ValidFn) (s : RegexState) (st : St) (b : Bool) (st2 : St)
    (heq : regex_finalize vs s st = (b, st2)) :
    st2.lx = st.lx ∧ st2.sc = st.sc ∧
    (b = true → ∃ t, st2.sym = some t ∧ t ∈ regexTokens ∧
      (t = REGEX → (s.advanced_once = true ∨ vs REGEX = false) ∧
        vs REGEX_NO_SLASH = false ∧ vs REGEX_NO_SPACE = false)) := by
  have hadv : ¬((vs REGEX && !s.advanced_once) = true) →
      s.advanced_once = true ∨ vs REGEX = false := by
    intro h
    cases ha : s.advanced_once with
    | true => exact Or.inl rfl
    | false =>
      cases hr : vs REGEX with
      | false => exact Or.inr rfl
      | true => rw [ha, hr] at h; exact absurd rfl h
  have hoff : ∀ x : Bool, ¬(x = true) → x = false := by
    intro x hx
    cases x with
    | false => rfl
    | true => exact absurd rfl hx
  unfold regex_finalize at heq
  dsimp only at heq
  split_ifs at heq with h1 h2 h3 h4 h5 <;>
    (injection heq with hb hst; subst hb; subst hst) <;>
    refine ⟨rfl, rfl, fun hbt => ?_⟩
  · exact absurd hbt (by decide)
  · exact absurd hbt (by decide)
  · exact absurd hbt (by decide)
  · exact ⟨REGEX_NO_SLASH, by simp [*], by decide, fun ht => absurd ht (by decide)⟩
  · exact ⟨REGEX_NO_SPACE, by simp [*], by decide, fun ht => absurd ht (by decide)⟩
  · exact ⟨REGEX, by simp [*], by decide,
      fun _ => ⟨hadv (by assumption), hoff _ (by assumption), hoff _ (by assumption)⟩⟩

/-- The REGEX arm always continues, strictly advanced, scanner intact. -/
lemma regex_core_regex_spec (s2 : RegexState) (st : St) :
    (∀ b st2, regex_core_regex s2 st = Sum.inl (b, st2) → False) ∧
    (∀ s3 st2, regex_core_regex s2 st = Sum.inr (s3, st2) →
      st.lx.pos < st2.lx.pos ∧ st2.sc = st.sc ∧ s3.advanced_once = true) := by
  constructor
  · intro b st2 heq
    unfold regex_core_regex at heq
    dsimp only at heq
    split_ifs at heq
  · intro s3 st2 heq
    unfold regex_core_regex at heq
    dsimp only at heq
    split_ifs at heq
    all_goals injection heq with h
    all_goals injection h with h1 h2
    all_goals subst h1
    all_goals subst h2
    all_goals refine ⟨?_, rfl, rfl⟩
    all_goals simp only [St_advance_lx, St_mark_end_lx, advance_pos, mark_end_pos]
    all_goals omega

/-- The REGEX_NO_SLASH arm: a return emits REGEX_NO_SLASH without losing
    ground; a continuation strictly advances, growing the stack only by
    CTX_PARAMETER pushes. -/
lemma regex_core_noslash_spec (s2 : RegexState) (st : St) :
    (∀ b st2, regex_core_noslash s2 st = Sum.inl (b, st2) →
      st.lx.pos ≤ st2.lx.pos ∧ st2.sc = st.sc ∧
      (b = true → st2.sym = some REGEX_NO_SLASH)) ∧
    (∀ s3 st2, regex_core_noslash s2 st = Sum.inr (s3, st2) →
      st.lx.pos < st2.lx.pos ∧
      (∃ n, st2.sc.context_stack = st.sc.context_stack ++ List.replicate n CTX_PARAMETER) ∧
      st2.sc.heredocs = st.sc.heredocs ∧ s3.advanced_once = true) := by
  constructor
  · intro b st2 heq
    unfold regex_core_noslash at heq
    dsimp only at heq
    split_ifs at heq
    all_goals try exact Sum.noConfusion heq
    injection heq with h
    injection h with h1 h2
    subst h1
    subst h2
    exact ⟨by simp, rfl, fun _ => rfl⟩
  · intro s3 st2 heq
    unfold regex_core_noslash at heq
    dsimp only at heq
    split_ifs at heq
    all_goals injection heq with h
    all_goals injection h with h1 h2
    all_goals subst h1
    all_goals subst h2
    all_goals refine ⟨?_, ?_, ?_, rfl⟩
    all_goals first
      | (simp only [St_enterCtx_lx, St_advance_lx, St_mark_end_lx, advance_pos, mark_end_pos];
          omega)
      | (refine ⟨1, ?_⟩; simp; done)
      | (refine ⟨0, ?_⟩; simp; done)
      | rfl

/-- The REGEX_NO_SPACE arm: a return emits REGEX_NO_SPACE without losing
    ground; a continuation strictly advances with the scanner intact and
    the advanced-once flag carried through unchanged. -/
lemma regex_core_nospace_spec (s2 : RegexState) (st : St) :
    (∀ b st2, regex_core_nospace s2 st = Sum.inl (b, st2) →
      st.lx.pos ≤ st2.lx.pos ∧ st2.sc = st.sc ∧
      (b = true → st2.sym = some REGEX_NO_SPACE)) ∧
    (∀ s3 st2, regex_core_nospace s2 st = Sum.inr (s3, st2) →
      st.lx.pos < st2.lx.pos ∧ st2.sc = st.sc ∧
      s3.advanced_once = s2.advanced_once) := by
  constructor
  · intro b st2 heq
    unfold regex_core_nospace at heq
    dsimp only at heq
    split_ifs at heq
    all_goals injection heq with h
    all_goals injection h with h1 h2
    all_goals subst h1
    all_goals subst h2
    all_goals refine ⟨by simp, rfl, fun hb => ?_⟩
    all_goals first
      | exact absurd hb (by decide)
      | rfl
  · intro s3 st2 heq
    unfold regex_core_nospace at heq
    dsimp only at heq
    split_ifs at heq
    all_goals injection heq with h
    all_goals injection h with h1 h2
    all_goals subst h1
    all_goals subst h2
    all_goals refine ⟨?_, rfl, rfl⟩
    all_goals simp only [St_advance_lx, St_mark_end_lx, advance_pos, mark_end_pos]
    all_goals omega

/-- One pass of the regex loop body: a return keeps position monotone,
    grows the stack only by CTX_PARAMETER pushes and keeps the heredocs;
    a continuation strictly advances. -/
lemma regex_iter_core_spec (vs : ValidFn) (s : RegexState) (st : St) :
    (∀ b st2, regex_iter_core vs s st = Sum.inl (b, st2) →
      st.lx.pos ≤ st2.lx.pos ∧
      (∃ n, st2.sc.context_stack = st.sc.context_stack ++ List.replicate n CTX_PARAMETER) ∧
      st2.sc.heredocs = st.sc.heredocs ∧
      (b = true → ∃ t, st2.sym = some t ∧ t ∈ regexTokens ∧
        (t = REGEX → (s.advanced_once = true ∨ vs REGEX = false) ∧
          vs REGEX_NO_SLASH = false ∧ vs REGEX_NO_SPACE = false))) ∧
    (∀ s2 st2, regex_iter_core vs s st = Sum.inr (s2, st2) →
      st.lx.pos < st2.lx.pos ∧
      (∃ n, st2.sc.context_stack = st.sc.context_stack ++ List.replicate n CTX_PARAMETER) ∧
      st2.sc.heredocs = st.sc.heredocs ∧
      (vs REGEX = true → s2.advanced_once = true)) := by
  constructor
  · intro b st2 heq
    unfold regex_iter_core at heq
    dsimp only at heq
    split_ifs at heq with h0 h39 hdn hR hNSl hNSp
    · -- NUL lookahead: decline in place
      injection heq with h
      injection h with h1 h2
      subst h1
      subst h2
      exact ⟨le_refl _, ⟨0, by simp⟩, rfl, fun hb => absurd hb (by decide)⟩
    · -- a closer at depth zero: finalize
      injection heq with h
      have hf := regex_finalize_spec vs _ st b st2 h
      refine ⟨le_of_eq (by rw [hf.1]), ⟨0, by simp [hf.2.1]⟩, by rw [hf.2.1], fun hb => ?_⟩
      obtain ⟨t, hsym, hmem, hREG⟩ := hf.2.2 hb
      refine ⟨t, hsym, hmem, fun ht => ?_⟩
      have h3 := hREG ht
      rw [regex_update_adv] at h3
      exact h3
    · -- the REGEX arm never returns
      exact ((regex_core_regex_spec _ st).1 b st2 heq).elim
    · -- the NO_SLASH arm returned
      have h := (regex_core_noslash_spec (regex_update s st.look) st).1 b st2 heq
      exact ⟨h.1, ⟨0, by simp [h.2.1]⟩, by rw [h.2.1], fun hb =>
        ⟨REGEX_NO_SLASH, h.2.2 hb, by decide, fun ht => absurd ht (by decide)⟩⟩
    · -- the NO_SPACE arm returned
      have h := (regex_core_nospace_spec (regex_update s st.look) st).1 b st2 heq
      exact ⟨h.1, ⟨0, by simp [h.2.1]⟩, by rw [h.2.1], fun hb =>
        ⟨REGEX_NO_SPACE, h.2.2 hb, by decide, fun ht => absurd ht (by decide)⟩⟩
    · -- no regex terminal asked for: decline in place
      injection heq with h
      injection h with h1 h2
      subst h1
      subst h2
      exact ⟨le_refl _, ⟨0, by simp⟩, rfl, fun hb => absurd hb (by decide)⟩
  · intro s2 st2 heq
    unfold regex_iter_core at heq
    dsimp only at heq
    split_ifs at heq with h0 h39 hdn hR hNSl hNSp
    · -- a quote toggles single-quote mode and advances
      injection heq with h
      injection h with h1 h2
      subst h1
      subst h2
      exact ⟨by simp, ⟨0, by simp⟩, rfl, fun _ => rfl⟩
    · -- the REGEX arm continued
      have h := (regex_core_regex_spec (regex_update s st.look) st).2 s2 st2 heq
      exact ⟨h.1, ⟨0, by simp [h.2.1]⟩, by rw [h.2.1], fun _ => h.2.2⟩
    · -- the NO_SLASH arm continued
      have h := (regex_core_noslash_spec (regex_update s st.look) st).2 s2 st2 heq
      exact ⟨h.1, h.2.1, h.2.2.1, fun _ => h.2.2.2⟩
    · -- the NO_SPACE arm continued
      have h := (regex_core_nospace_spec (regex_update s st.look) st).2 s2 st2 heq
      exact ⟨h.1, ⟨0, by simp [h.2.1]⟩, by rw [h.2.1], fun hr => absurd hr hR⟩

/-- One full pass of the regex loop, including the single-quote exit
    step that pushes CTX_PARAMETER. -/
lemma regex_iter_spec (vs : ValidFn) (s : RegexState) (st : St) :
    (∀ b st2, regex_iter vs s st = Sum.inl (b, st2) →
      st.lx.pos ≤ st2.lx.pos ∧
      (∃ n, st2.sc.context_stack = st.sc.context_stack ++ List.replicate n CTX_PARAMETER) ∧
      st2.sc.heredocs = st.sc.heredocs ∧
      (b = true → ∃ t, st2.sym = some t ∧ t ∈ regexTokens ∧
        (t = REGEX → (s.advanced_once = true ∨ vs REGEX = false) ∧
          vs REGEX_NO_SLASH = false ∧ vs REGEX_NO_SPACE = false))) ∧
    (∀ s2 st2, regex_iter vs s st = Sum.inr (s2, st2) →
      st.lx.pos < st2.lx.pos ∧
      (∃ n, st2.sc.context_stack = st.sc.context_stack ++ List.replicate n CTX_PARAMETER) ∧
      st2.sc.heredocs = st.sc.heredocs ∧
      (vs REGEX = true → s2.advanced_once = true)) := by
  constructor
  · intro b st2 heq
    unfold regex_iter at heq
    dsimp only at heq
    split_ifs at heq with hq
    · have h := (regex_iter_core_spec vs { s with in_single_quote := false }
        ((st.advance.mark_end).enterCtx CTX_PARAMETER)).1 b st2 heq
      refine ⟨?_, ?_, ?_, fun hb => ?_⟩
      · refine le_trans ?_ h.1
        simp only [St_enterCtx_lx, St_advance_lx, St_mark_end_lx, advance_pos, mark_end_pos]
        omega
      · exact replicate_stack_trans ⟨1, by simp⟩ h.2.1
      · simp [h.2.2.1]
      · obtain ⟨t, hsym, hmem, hREG⟩ := h.2.2.2 hb
        exact ⟨t, hsym, hmem, fun ht => hREG ht⟩
    · exact (regex_iter_core_spec vs s st).1 b st2 heq
  · intro s2 st2 heq
    unfold regex_iter at heq
    dsimp only at heq
    split_ifs at heq with hq
    · have h := (regex_iter_core_spec vs { s with in_single_quote := false }
        ((st.advance.mark_end).enterCtx CTX_PARAMETER)).2 s2 st2 heq
      refine ⟨?_, ?_, ?_, h.2.2.2⟩
      · refine lt_of_le_of_lt ?_ h.1
        simp only [St_enterCtx_lx, St_advance_lx, St_mark_end_lx, advance_pos, mark_end_pos]
        omega
      · exact replicate_stack_trans ⟨1, by simp⟩ h.2.1
      · simp [h.2.2.1]
    · exact (regex_iter_core_spec vs s st).2 s2 st2 heq

/-- The regex loop: position monotone, stack growth only by
    CTX_PARAMETER pushes, heredocs kept; a successful return carries one
    of the three regex terminals, and REGEX itself appears only when the
    other two are not asked for, after an advance (unless the entry state
    had advanced already or REGEX is not asked for either). -/
lemma regex_loop_spec (vs : ValidFn) :
    ∀ (fuel : Nat) (s : RegexState) (st : St) (b : Bool) (st2 : St),
      regex_loop vs fuel s st = (b, st2) →
      st.lx.pos ≤ st2.lx.pos ∧
      (∃ n, st2.sc.context_stack = st.sc.context_stack ++ List.replicate n CTX_PARAMETER) ∧
      st2.sc.heredocs = st.sc.heredocs ∧
      (b = true → ∃ t, st2.sym = some t ∧ t ∈ regexTokens ∧
        (t = REGEX → (s.advanced_once = true ∨ st.lx.pos < st2.lx.pos ∨ vs REGEX = false) ∧
          vs REGEX_NO_SLASH = false ∧ vs REGEX_NO_SPACE = false)) := by
  intro fuel
  induction fuel with
  | zero =>
    intro s st b st2 heq
    rw [regex_loop] at heq
    injection heq with h1 h2
    subst h1
    subst h2
    exact ⟨le_refl _, ⟨0, by simp⟩, rfl, fun hb => absurd hb (by decide)⟩
  | succ fuel ih =>
    intro s st b st2 heq
    rw [regex_loop] at heq
    split at heq
    · rename_i r heq2
      subst heq
      have h := (regex_iter_spec vs s st).1 b st2 heq2
      refine ⟨h.1, h.2.1, h.2.2.1, fun hb => ?_⟩
      obtain ⟨t, hsym, hmem, hREG⟩ := h.2.2.2 hb
      refine ⟨t, hsym, hmem, fun ht => ?_⟩
      obtain ⟨hadv, hns, hnsp⟩ := hREG ht
      exact ⟨hadv.imp_right Or.inr, hns, hnsp⟩
    · rename_i s3 st3 heq2
      have hi := (regex_iter_spec vs s st).2 s3 st3 heq2
      have h := ih s3 st3 b st2 heq
      refine ⟨le_trans (le_of_lt hi.1) h.1, replicate_stack_trans hi.2.1 h.2.1,
        by rw [h.2.2.1, hi.2.2.1], fun hb => ?_⟩
      obtain ⟨t, hsym, hmem, hREG⟩ := h.2.2.2 hb
      refine ⟨t, hsym, hmem, fun ht => ?_⟩
      obtain ⟨_, hns, hnsp⟩ := hREG ht
      exact ⟨Or.inr (Or.inl (lt_of_lt_of_le hi.1 h.1)), hns, hnsp⟩

/-- The core of the regex block obeys the return contract when one of
    the three regex terminals is asked for outside error recovery. -/
lemma regex_tail_core_ok (vs : ValidFn) (st : St) (b : Bool) (st2 : St)
    (hner : in_error_recovery vs = false)
    (hg : (vs REGEX || vs REGEX_NO_SLASH || vs REGEX_NO_SPACE) = true)
    (heq : regex_tail_core vs st = (b, st2)) : retOK vs st b st2 := by
  unfold regex_tail_core at heq
  dsimp only at heq
  split_ifs at heq with hlook h36 h40
  · -- a dollar-paren right after the dollar: decline
    injection heq with h1 h2
    subst h1
    subst h2
    refine retOK_false_noER hner ?_
    simp only [St_mark_end_lx_pos, St_advance_lx_pos]
    omega
  · -- REGEX_NO_SLASH dollar prefix: run the loop one past the dollar
    have h := regex_loop_spec vs _ _ _ b st2 heq
    have hpos : st.lx.pos < st.mark_end.advance.mark_end.lx.pos := by
      simp only [St_mark_end_lx_pos, St_advance_lx_pos]
      omega
    refine ⟨le_trans (le_of_lt hpos) h.1, fun her => absurd her (by simp [hner]),
      fun hb => ?_⟩
    obtain ⟨t, hsym, hmem, _⟩ := h.2.2.2 hb
    refine ⟨t, hsym, fun _ => Or.inl (lt_of_lt_of_le hpos h.1), fun _ => ?_,
      fun her => absurd her (by simp [hner])⟩
    obtain ⟨n, hn⟩ := h.2.1
    exact ⟨n, by simpa using hn⟩
  · -- the main loop from the marked start
    have h := regex_loop_spec vs _ _ _ b st2 heq
    refine ⟨by simpa using h.1, fun her => absurd her (by simp [hner]), fun hb => ?_⟩
    obtain ⟨t, hsym, hmem, hREG⟩ := h.2.2.2 hb
    refine ⟨t, hsym, fun _ => ?_, fun _ => ?_, fun her => absurd her (by simp [hner])⟩
    · have hmem' : t = REGEX ∨ t = REGEX_NO_SLASH ∨ t = REGEX_NO_SPACE := by
        simpa [regexTokens] using hmem
      rcases hmem' with rfl | rfl | rfl
      · obtain ⟨hadv, hns, hnsp⟩ := hREG rfl
        rcases hadv with hadv | hadv | hadv
        · exact absurd hadv (by simp)
        · exact Or.inl (by simpa using hadv)
        · have hg2 : (vs REGEX = true ∨ vs REGEX_NO_SLASH = true) ∨
              vs REGEX_NO_SPACE = true := by
            simpa [Bool.or_eq_true] using hg
          rcases hg2 with (hgr | hgr) | hgr
          · rw [hadv] at hgr
            exact absurd hgr (by decide)
          · rw [hns] at hgr
            exact absurd hgr (by decide)
          · rw [hnsp] at hgr
            exact absurd hgr (by decide)
      · exact Or.inr (by decide)
      · exact Or.inr (by decide)
    · obtain ⟨n, hn⟩ := h.2.1
      exact ⟨n, by simpa using hn⟩
  · -- a quote rejects the regex block: fall through to extglob
    exact extglob_tail_ok vs st b st2 heq

/-- The regex block obeys the return contract from any start state. -/
lemma regex_tail_ok : tailOK regex_tail := by
  intro vs st b st2 heq
  unfold regex_tail at heq
  dsimp only at heq
  split_ifs at heq with hg hws
  · -- whitespace skipped first
    have hg' := hg
    simp only [Bool.and_eq_true, Bool.not_eq_true'] at hg'
    have hcore := regex_tail_core_ok vs
      (st.withLx (advance_while iswspace (st.lx.input.length + 2) st.lx)) b st2
      hg'.2 hg'.1 heq
    refine retOK_trans (nextOK_scEq ?_ (St_withLx_sc st _)) hcore
    simp only [St_withLx_lx]
    exact advance_while_le iswspace (st.lx.input.length + 2) st.lx
  · -- no whitespace skip for a bare REGEX_NO_SLASH
    have hg' := hg
    simp only [Bool.and_eq_true, Bool.not_eq_true'] at hg'
    exact regex_tail_core_ok vs st b st2 hg'.2 hg'.1 heq
  · -- none of the regex terminals: fall through to extglob
    exact extglob_tail_ok vs st b st2 heq

/-! ## The handler blocks obey the fall-through and return contracts -/

lemma newline_handler_ok : handlerOK newline_handler := by
  intro vs st
  constructor
  · intro st2 heq
    unfold newline_handler at heq
    try dsimp only at heq
    split_ifs at heq
    all_goals injection heq with h
    all_goals subst h
    all_goals first
      | exact nextOK_refl st
      | (refine nextOK_scEq ?_ rfl
         simp only [St_mark_end_lx, St_setSym_lx, St_withLx_lx, mark_end_pos]
         exact advance_while_le _ _ st.lx)
  · intro b st2 heq
    unfold newline_handler at heq
    try dsimp only at heq
    split_ifs at heq
    all_goals exact Step.noConfusion heq

lemma closing_brace_handler_ok : handlerOK closing_brace_handler := by
  intro vs st
  constructor
  · intro st2 heq
    unfold closing_brace_handler at heq
    try dsimp only at heq
    split_ifs at heq
    all_goals injection heq with h
    all_goals subst h
    all_goals exact nextOK_refl st
  · intro b st2 heq
    unfold closing_brace_handler at heq
    try dsimp only at heq
    split_ifs at heq with h1 h2
    injection heq with hb h
    subst hb
    subst h
    have h1' := h1
    simp only [Bool.and_eq_true, Bool.not_eq_true'] at h1'
    refine retOK_noER CLOSING_BRACE h1'.2 (by simp) (fun _ => rfl) (by decide)
      (fun _ _ => Or.inl (by simp))

lemma peek_bare_dollar_handler_ok : handlerOK peek_bare_dollar_handler := by
  intro vs st
  constructor
  · intro st2 heq
    unfold peek_bare_dollar_handler at heq
    try dsimp only at heq
    split_ifs at heq
    all_goals injection heq with h
    all_goals subst h
    all_goals exact nextOK_refl st
  · intro b st2 heq
    unfold peek_bare_dollar_handler at heq
    try dsimp only at heq
    split_ifs at heq with h1 h2
    injection heq with hb h
    subst hb
    subst h
    have h1' := h1
    simp only [Bool.and_eq_true, Bool.not_eq_true'] at h1'
    exact retOK_noER PEEK_BARE_DOLLAR h1'.2 (by simp) (fun _ => rfl) (by decide)
      (fun _ _ => Or.inr (by decide))

lemma brace_start_dollar_handler_ok : handlerOK brace_start_dollar_handler := by
  intro vs st
  constructor
  · intro st2 heq
    unfold brace_start_dollar_handler at heq
    try dsimp only at heq
    split_ifs at heq
    all_goals injection heq with h
    all_goals subst h
    all_goals exact nextOK_refl st
  · intro b st2 heq
    unfold brace_start_dollar_handler at heq
    try dsimp only at heq
    split_ifs at heq with h1 h2 h3
    injection heq with hb h
    subst hb
    subst h
    have h1' := h1
    simp only [Bool.and_eq_true, Bool.not_eq_true'] at h1'
    exact retOK_noER BRACE_START h1'.2 (by simp) (fun _ => rfl) (by decide)
      (fun _ _ => Or.inl (by simp))

lemma pattern_start_handler_ok : handlerOK pattern_start_handler := by
  intro vs st
  constructor
  · intro st2 heq
    unfold pattern_start_handler at heq
    try dsimp only at heq
    split_ifs at heq
    all_goals injection heq with h
    all_goals subst h
    all_goals exact nextOK_refl st
  · intro b st2 heq
    unfold pattern_start_handler at heq
    try dsimp only at heq
    split_ifs at heq with h1 h2
    injection heq with hb h
    subst hb
    subst h
    have h1' := h1
    simp only [Bool.and_eq_true, Bool.not_eq_true'] at h1'
    exact retOK_noER PATTERN_START h1'.2 (by simp) (fun _ => rfl) (by decide)
      (fun _ _ => Or.inr (by decide))

lemma pattern_suffix_start_handler_ok : handlerOK pattern_suffix_start_handler := by
  intro vs st
  constructor
  · intro st2 heq
    unfold pattern_suffix_start_handler at heq
    try dsimp only at heq
    split_ifs at heq
    all_goals injection heq with h
    all_goals subst h
    all_goals exact nextOK_refl st
  · intro b st2 heq
    unfold pattern_suffix_start_handler at heq
    try dsimp only at heq
    split_ifs at heq with h1 h2
    injection heq with hb h
    subst hb
    subst h
    have h1' := h1
    simp only [Bool.and_eq_true, Bool.not_eq_true'] at h1'
    exact retOK_noER PATTERN_SUFFIX_START h1'.2 (by simp) (fun _ => rfl) (by decide)
      (fun _ _ => Or.inr (by decide))

lemma colon_handler_ok : handlerOK colon_handler := by
  intro vs st
  constructor
  · intro st2 heq
    unfold colon_handler at heq
    try dsimp only at heq
    split_ifs at heq
    all_goals injection heq with h
    all_goals subst h
    all_goals exact nextOK_refl st
  · intro b st2 heq
    unfold colon_handler at heq
    try dsimp only at heq
    split_ifs at heq with h1
    injection heq with hb h
    subst hb
    subst h
    have h1' := h1
    simp only [Bool.and_eq_true, Bool.not_eq_true'] at h1'
    exact retOK_false_noER h1'.2 (by simp)

lemma hash_handler_ok : handlerOK hash_handler := by
  intro vs st
  constructor
  · intro st2 heq
    unfold hash_handler at heq
    try dsimp only at heq
    split_ifs at heq
    all_goals injection heq with h
    all_goals subst h
    all_goals exact nextOK_refl st
  · intro b st2 heq
    unfold hash_handler at heq
    try dsimp only at heq
    split_ifs at heq with h1 h2 h3 h4
    all_goals injection heq with hb h
    all_goals subst hb
    all_goals subst h
    all_goals
      have h1' := h1
    all_goals
      simp only [Bool.and_eq_true, Bool.not_eq_true'] at h1'
    · exact retOK_noER DOUBLE_HASH_PATTERN h1'.2
        (by simp only [St_mark_end_lx_pos, St_setSym_lx, St_advance_lx_pos]; omega)
        (fun _ => rfl) (by decide)
        (fun _ _ => Or.inl (by simp only [St_mark_end_lx_pos, St_setSym_lx, St_advance_lx_pos]; omega))
    · exact retOK_false_noER h1'.2 (by simp)
    · exact retOK_noER HASH_PATTERN h1'.2 (by simp) (fun _ => rfl) (by decide)
        (fun _ _ => Or.inl (by simp))
    · exact retOK_false_noER h1'.2 (by simp)

lemma immediate_double_hash_handler_ok : handlerOK immediate_double_hash_handler := by
  intro vs st
  constructor
  · intro st2 heq
    unfold immediate_double_hash_handler at heq
    try dsimp only at heq
    split_ifs at heq
    all_goals injection heq with h
    all_goals subst h
    all_goals first
      | exact nextOK_refl st
      | (refine nextOK_scEq ?_ rfl
         simp only [St_mark_end_lx_pos, St_advance_lx_pos, St_setSym_lx]
         omega)
  · intro b st2 heq
    unfold immediate_double_hash_handler at heq
    try dsimp only at heq
    split_ifs at heq with h1 h2 h3 h4
    injection heq with hb h
    subst hb
    subst h
    have h1' := h1
    simp only [Bool.and_eq_true, Bool.not_eq_true'] at h1'
    exact retOK_noER IMMEDIATE_DOUBLE_HASH h1'.2
      (by simp only [St_mark_end_lx_pos, St_setSym_lx, St_advance_lx_pos]; omega)
      (fun _ => rfl) (by decide)
      (fun _ _ => Or.inl (by simp only [St_mark_end_lx_pos, St_setSym_lx, St_advance_lx_pos]; omega))

lemma array_ops_handler_ok : handlerOK array_ops_handler := by
  intro vs st
  constructor
  · intro st2 heq
    unfold array_ops_handler at heq
    try dsimp only at heq
    split_ifs at heq
    all_goals injection heq with h
    all_goals subst h
    all_goals exact nextOK_refl st
  · intro b st2 heq
    unfold array_ops_handler at heq
    try dsimp only at heq
    split_ifs at heq with h1 h2 h3
    all_goals injection heq with hb h
    all_goals subst hb
    all_goals subst h
    all_goals
      have h1' := h1
    all_goals
      simp only [Bool.and_eq_true, Bool.not_eq_true'] at h1'
    · exact retOK_noER ARRAY_STAR_TOKEN h1'.2 (by simp) (fun _ => rfl) (by decide)
        (fun _ _ => Or.inl (by simp))
    · exact retOK_noER ARRAY_AT_TOKEN h1'.2 (by simp) (fun _ => rfl) (by decide)
        (fun _ _ => Or.inl (by simp))

lemma empty_value_handler_ok : handlerOK empty_value_handler := by
  intro vs st
  constructor
  · intro st2 heq
    unfold empty_value_handler at heq
    try dsimp only at heq
    split_ifs at heq
    all_goals injection heq with h
    all_goals subst h
    all_goals exact nextOK_refl st
  · intro b st2 heq
    unfold empty_value_handler at heq
    try dsimp only at heq
    split_ifs at heq with h1 h2
    injection heq with hb h
    subst hb
    subst h
    exact retOK_mk EMPTY_VALUE (by simp) (fun _ => rfl) (by decide) rfl (le_refl _)
      (fun _ _ => Or.inr (by decide))

lemma bare_dollar_handler_ok : handlerOK bare_dollar_handler := by
  intro vs st
  have hw := advance_while_lx_le
    (fun l => (l.lookahead == 32 || l.lookahead == 9) && !l.eof)
    (st.lx.input.length + 2) st.lx
  constructor
  · intro st2 heq
    unfold bare_dollar_handler at heq
    try dsimp only at heq
    split_ifs at heq
    all_goals injection heq with h
    all_goals subst h
    all_goals first
      | exact nextOK_refl st
      | (refine nextOK_scEq ?_ rfl
         simp only [St_withLx_lx]
         exact hw)
  · intro b st2 heq
    unfold bare_dollar_handler at heq
    try dsimp only at heq
    split_ifs at heq with h1
    all_goals injection heq with hb h
    all_goals subst hb
    all_goals subst h
    all_goals
      have h1' := h1
    all_goals
      simp only [Bool.and_eq_true, Bool.not_eq_true'] at h1'
    all_goals first
      | exact retOK_false_noER h1'.2
          (by simp only [St_withLx_lx, St_advance_lx_pos]; omega)
      | exact retOK_noER BARE_DOLLAR h1'.2
          (by simp only [setJBD_lx, St_mark_end_lx_pos, St_setSym_lx, St_advance_lx_pos, St_withLx_lx]; omega)
          (fun _ => rfl) (by decide)
          (fun _ _ => Or.inl (by simp only [setJBD_lx, St_mark_end_lx_pos, St_setSym_lx, St_advance_lx_pos, St_withLx_lx]; omega))

lemma bare_dollar2_handler_ok : handlerOK bare_dollar2_handler := by
  intro vs st
  have hs := scan_raw_dollar_spec st
  constructor
  · intro st2 heq
    unfold bare_dollar2_handler at heq
    try dsimp only at heq
    split_ifs at heq with h1
    · split at heq
      · exact Step.noConfusion heq
      · rename_i stX heq2
        injection heq with h
        subst h
        rw [heq2] at hs
        exact nextOK_scEq hs.1 hs.2.1
    · injection heq with h
      subst h
      exact nextOK_refl st
  · intro b st2 heq
    unfold bare_dollar2_handler at heq
    try dsimp only at heq
    split_ifs at heq with h1
    · split at heq
      · rename_i stX heq2
        injection heq with hb h
        subst hb
        subst h
        rw [heq2] at hs
        have h1' := h1
        simp only [Bool.and_eq_true, Bool.not_eq_true'] at h1'
        exact retOK_noER BARE_DOLLAR h1'.2 hs.1 (fun _ => (hs.2.2 rfl).1) (by decide)
          (fun _ _ => Or.inl (hs.2.2 rfl).2)
      · exact Step.noConfusion heq

lemma simple_variable_name_handler_ok : handlerOK simple_variable_name_handler := by
  intro vs st
  have hw := advance_while_le iswspace (st.lx.input.length + 2) st.lx
  constructor
  · intro st2 heq
    unfold simple_variable_name_handler at heq
    try dsimp only at heq
    split_ifs at heq
    all_goals injection heq with h
    all_goals subst h
    all_goals first
      | exact nextOK_refl st
      | (refine nextOK_scEq ?_ rfl
         simp only [St_withLx_lx]
         exact hw)
      | (refine nextOK_scEq ?_ rfl
         have h2 := advance_while_le (fun c => iswalnum c || c == 95)
           ((advance_while iswspace (st.lx.input.length + 2) st.lx).input.length + 2)
           (advance_while iswspace (st.lx.input.length + 2) st.lx)
         simp only [St_withLx_lx, advance_while_input] at h2 ⊢
         omega)
  · intro b st2 heq
    unfold simple_variable_name_handler at heq
    try dsimp only at heq
    split_ifs at heq with h1 h2 h3
    injection heq with hb h
    subst hb
    subst h
    have h1' := h1
    simp only [Bool.and_eq_true, Bool.not_eq_true'] at h1'
    refine retOK_noER SIMPLE_VARIABLE_NAME h1'.2 ?_ (fun _ => rfl) (by decide)
      (fun _ _ => Or.inl ?_)
    · refine le_trans hw ?_
      have h4 := advance_while_le (fun c => iswalnum c || c == 95)
        ((advance_while iswspace (st.lx.input.length + 2) st.lx).input.length + 2)
        (advance_while iswspace (st.lx.input.length + 2) st.lx)
      simp only [setJBD_lx, St_mark_end_lx_pos, St_setSym_lx, St_withLx_lx]
      exact h4
    · simp only [St_withLx_lx] at h3
      refine lt_of_le_of_lt hw ?_
      simp only [setJBD_lx, St_mark_end_lx_pos, St_setSym_lx, St_withLx_lx]
      exact h3

lemma special_variable_name_handler_ok : handlerOK special_variable_name_handler := by
  intro vs st
  have hw := advance_while_le iswspace (st.lx.input.length + 2) st.lx
  constructor
  · intro st2 heq
    unfold special_variable_name_handler at heq
    try dsimp only at heq
    split_ifs at heq
    all_goals injection heq with h
    all_goals subst h
    all_goals first
      | exact nextOK_refl st
      | (refine nextOK_scEq ?_ rfl
         simp only [St_withLx_lx]
         exact hw)
  · intro b st2 heq
    unfold special_variable_name_handler at heq
    try dsimp only at heq
    split_ifs at heq with h1 h2 h3
    all_goals injection heq with hb h
    all_goals subst hb
    all_goals subst h
    all_goals
      have h1' := h1
    all_goals
      simp only [Bool.and_eq_true, Bool.not_eq_true'] at h1'
    all_goals first
      | exact retOK_false_noER h1'.2
          (by simp only [St_withLx_lx, St_advance_lx_pos]; omega)
      | exact retOK_noER SPECIAL_VARIABLE_NAME h1'.2
          (by simp only [setJBD_lx, St_mark_end_lx_pos, St_setSym_lx, St_advance_lx_pos, St_withLx_lx]; omega)
          (fun _ => rfl) (by decide)
          (fun _ _ => Or.inl (by simp only [setJBD_lx, St_mark_end_lx_pos, St_setSym_lx, St_advance_lx_pos, St_withLx_lx]; omega))

lemma closing_bracket_handler_ok : handlerOK closing_bracket_handler := by
  intro vs st
  have hw := advance_while_le iswspace (st.lx.input.length + 2) st.lx
  constructor
  · intro st2 heq
    unfold closing_bracket_handler at heq
    try dsimp only at heq
    split_ifs at heq
    all_goals injection heq with h
    all_goals subst h
    all_goals first
      | exact nextOK_refl st
      | (refine nextOK_scEq ?_ rfl
         simp only [St_withLx_lx]
         exact hw)
  · intro b st2 heq
    unfold closing_bracket_handler at heq
    try dsimp only at heq
    split_ifs at heq with h1 h2 h3 h4
    all_goals injection heq with hb h
    all_goals subst hb
    all_goals subst h
    all_goals
      have h1' := h1
    all_goals
      simp only [Bool.and_eq_true, Bool.not_eq_true'] at h1'
    all_goals first
      | exact retOK_false_noER h1'.2
          (by simp only [St_withLx_lx, St_advance_lx_pos]; omega)
      | exact retOK_noER TEST_COMMAND_END h1'.2
          (by simp only [St_exitCtx_lx, St_mark_end_lx_pos, St_setSym_lx, St_advance_lx_pos, St_withLx_lx]; omega)
          (fun _ => rfl) (by decide)
          (fun _ _ => Or.inl (by simp only [St_exitCtx_lx, St_mark_end_lx_pos, St_setSym_lx, St_advance_lx_pos, St_withLx_lx]; omega))
      | exact retOK_noER CLOSING_BRACKET h1'.2
          (by simp only [setJBD_lx, St_mark_end_lx_pos, St_setSym_lx, St_advance_lx_pos, St_withLx_lx]; omega)
          (fun _ => rfl) (by decide)
          (fun _ _ => Or.inl (by simp only [setJBD_lx, St_mark_end_lx_pos, St_setSym_lx, St_advance_lx_pos, St_withLx_lx]; omega))

lemma closing_paren_handler_ok : handlerOK closing_paren_handler := by
  intro vs st
  have hw := advance_while_le iswspace (st.lx.input.length + 2) st.lx
  constructor
  · intro st2 heq
    unfold closing_paren_handler at heq
    try dsimp only at heq
    split_ifs at heq
    all_goals injection heq with h
    all_goals subst h
    all_goals first
      | exact nextOK_refl st
      | (refine nextOK_scEq ?_ rfl
         simp only [St_withLx_lx]
         exact hw)
  · intro b st2 heq
    unfold closing_paren_handler at heq
    try dsimp only at heq
    split_ifs at heq with h1 h2 h3 h4
    all_goals injection heq with hb h
    all_goals subst hb
    all_goals subst h
    all_goals
      have h1' := h1
    all_goals
      simp only [Bool.and_eq_true, Bool.not_eq_true'] at h1'
    all_goals first
      | exact retOK_false_noER h1'.2
          (by simp only [St_withLx_lx, St_advance_lx_pos]; omega)
      | exact retOK_noER CLOSING_DOUBLE_PAREN h1'.2
          (by simp only [St_exitCtx_lx, St_mark_end_lx_pos, St_setSym_lx, St_advance_lx_pos, St_withLx_lx]; omega)
          (fun _ => rfl) (by decide)
          (fun _ _ => Or.inl (by simp only [St_exitCtx_lx, St_mark_end_lx_pos, St_setSym_lx, St_advance_lx_pos, St_withLx_lx]; omega))
      | exact retOK_noER CLOSING_PAREN h1'.2
          (by simp only [St_exitCtx_lx, St_mark_end_lx_pos, St_setSym_lx, St_advance_lx_pos, St_withLx_lx]; omega)
          (fun _ => rfl) (by decide)
          (fun _ _ => Or.inl (by simp only [St_exitCtx_lx, St_mark_end_lx_pos, St_setSym_lx, St_advance_lx_pos, St_withLx_lx]; omega))

lemma opening_bracket_handler_ok : handlerOK opening_bracket_handler := by
  intro vs st
  have hw := advance_while_le iswspace (st.lx.input.length + 2) st.lx
  constructor
  · intro st2 heq
    unfold opening_bracket_handler at heq
    try dsimp only at heq
    split_ifs at heq
    all_goals injection heq with h
    all_goals subst h
    all_goals first
      | exact nextOK_refl st
      | (refine nextOK_scEq ?_ rfl
         simp only [St_withLx_lx]
         exact hw)
      | (refine nextOK_scEq ?_ rfl
         simp only [St_withLx_lx, St_advance_lx_pos, setJBD_lx, St_mark_end_lx_pos]
         omega)
  · intro b st2 heq
    unfold opening_bracket_handler at heq
    try dsimp only at heq
    split_ifs at heq with h1
    all_goals injection heq with hb h
    all_goals subst hb
    all_goals subst h
    all_goals
      have h1' := h1
    all_goals
      simp only [Bool.and_eq_true, Bool.not_eq_true'] at h1'
    all_goals first
      | exact retOK_noER TEST_COMMAND_START h1'.2
          (by simp only [St_enterCtx_lx, setJBD_lx, St_mark_end_lx_pos, St_setSym_lx, St_advance_lx_pos, St_withLx_lx]; omega)
          (fun _ => rfl) (by decide)
          (fun _ _ => Or.inl (by simp only [St_enterCtx_lx, setJBD_lx, St_mark_end_lx_pos, St_setSym_lx, St_advance_lx_pos, St_withLx_lx]; omega))
      | exact retOK_noER OPENING_BRACKET h1'.2
          (by simp only [St_enterCtx_lx, setJBD_lx, St_mark_end_lx_pos, St_setSym_lx, St_advance_lx_pos, St_withLx_lx]; omega)
          (fun _ => rfl) (by decide)
          (fun _ _ => Or.inl (by simp only [St_enterCtx_lx, setJBD_lx, St_mark_end_lx_pos, St_setSym_lx, St_advance_lx_pos, St_withLx_lx]; omega))

lemma opening_paren_handler_ok : handlerOK opening_paren_handler := by
  intro vs st
  have hw := advance_while_le iswspace (st.lx.input.length + 2) st.lx
  have hg := glob_flags_loop_le (st.lx.input.length + 2) false
    (advance (mark_end (advance (advance_while iswspace (st.lx.input.length + 2) st.lx))))
  simp only [advance_pos, mark_end_pos] at hg
  constructor
  · intro st2 heq
    unfold opening_paren_handler at heq
    try dsimp only at heq
    split_ifs at heq
    all_goals injection heq with h
    all_goals subst h
    all_goals first
      | exact nextOK_refl st
      | (refine nextOK_scEq ?_ rfl
         simp only [St_withLx_lx]
         exact hw)
      | (refine nextOK_scEq ?_ rfl
         simp only [St_withLx_lx, St_advance_lx_pos, setJBD_lx, St_mark_end_lx_pos]
         omega)
  · intro b st2 heq
    unfold opening_paren_handler at heq
    try dsimp only at heq
    split_ifs at heq with h1 h2 h3 h4 h5 h6 h7
    all_goals injection heq with hb h
    all_goals subst hb
    all_goals subst h
    all_goals
      have h1' := h1
    all_goals
      simp only [Bool.and_eq_true, Bool.not_eq_true'] at h1'
    · exact retOK_noER DOUBLE_OPENING_PAREN h1'.2
        (by simp only [St_enterCtx_lx, setJBD_lx, St_mark_end_lx_pos, St_setSym_lx, St_advance_lx_pos, St_withLx_lx]; omega)
        (fun _ => rfl) (by decide)
        (fun _ _ => Or.inl (by simp only [St_enterCtx_lx, setJBD_lx, St_mark_end_lx_pos, St_setSym_lx, St_advance_lx_pos, St_withLx_lx]; omega))
    · exact retOK_noER OPENING_PAREN h1'.2
        (by simp only [St_enterCtx_lx, setJBD_lx, St_mark_end_lx_pos, St_setSym_lx, St_advance_lx_pos, St_withLx_lx]; omega)
        (fun _ => rfl) (by decide)
        (fun _ _ => Or.inl (by simp only [St_enterCtx_lx, setJBD_lx, St_mark_end_lx_pos, St_setSym_lx, St_advance_lx_pos, St_withLx_lx]; omega))
    · refine retOK_noER ZSH_EXTENDED_GLOB_FLAGS h1'.2 ?_ (fun _ => rfl) (by decide)
        (fun _ _ => Or.inl ?_)
      · simp only [St_withLx_lx, St_mark_end_lx_pos, St_setSym_lx, St_advance_lx_pos,
          St_advance_lx, St_mark_end_lx, advance_input, mark_end_input, advance_while_input, advance_pos, mark_end_pos]
        omega
      · simp only [St_withLx_lx, St_mark_end_lx_pos, St_setSym_lx, St_advance_lx_pos,
          St_advance_lx, St_mark_end_lx, advance_input, mark_end_input, advance_while_input, advance_pos, mark_end_pos]
        omega
    · refine retOK_false_noER h1'.2 ?_
      simp only [St_withLx_lx, St_mark_end_lx_pos, St_setSym_lx, St_advance_lx_pos,
        St_advance_lx, St_mark_end_lx, advance_input, mark_end_input, advance_while_input, advance_pos, mark_end_pos]
      omega
    · exact retOK_noER OPENING_PAREN h1'.2
        (by simp only [St_enterCtx_lx, setJBD_lx, St_mark_end_lx_pos, St_setSym_lx, St_advance_lx_pos, St_withLx_lx]; omega)
        (fun _ => rfl) (by decide)
        (fun _ _ => Or.inl (by simp only [St_enterCtx_lx, setJBD_lx, St_mark_end_lx_pos, St_setSym_lx, St_advance_lx_pos, St_withLx_lx]; omega))

lemma concat_handler_ok : handlerOK concat_handler := by
  intro vs st
  have hw96 := advance_while_lx_le (fun l => l.lookahead != 96 && !l.eof)
    (st.lx.input.length + 2) (advance (mark_end st.lx))
  simp only [advance_pos, mark_end_pos] at hw96
  constructor
  · intro st2 heq
    unfold concat_handler at heq
    try dsimp only at heq
    split_ifs at heq with h1
    all_goals try dsimp only at heq
    all_goals try split_ifs at heq
    all_goals try exact Step.noConfusion heq
    all_goals injection heq with h
    all_goals subst h
    all_goals first
      | exact nextOK_refl st
      | (refine nextOK_scEq ?_ rfl
         simp only [St_mark_end_lx_pos, St_setSym_lx, St_advance_lx_pos]
         omega)
  · intro b st2 heq
    unfold concat_handler at heq
    try dsimp only at heq
    split_ifs at heq with h1
    all_goals try dsimp only at heq
    all_goals try split_ifs at heq
    all_goals try exact Step.noConfusion heq
    all_goals injection heq with hb h
    all_goals subst hb
    all_goals subst h
    all_goals
      have h1' := h1
    all_goals
      simp only [Bool.and_eq_true, Bool.not_eq_true'] at h1'
    all_goals first
      | exact retOK_false_noER h1'.2
          (by simp only [St_withLx_lx, St_mark_end_lx_pos, St_setSym_lx, St_advance_lx_pos, St_advance_lx, St_mark_end_lx, advance_input, mark_end_input, advance_pos, mark_end_pos]; omega)
      | exact retOK_noER CONCAT h1'.2
          (by simp only [St_withLx_lx, St_mark_end_lx_pos, St_setSym_lx, St_advance_lx_pos, St_advance_lx, St_mark_end_lx, advance_input, mark_end_input, advance_pos, mark_end_pos]; omega)
          (fun _ => rfl) (by decide) (fun _ _ => Or.inr (by decide))

lemma heredoc_body_handler_ok : handlerOK heredoc_body_handler := by
  intro vs st
  constructor
  · intro st2 heq
    unfold heredoc_body_handler at heq
    try dsimp only at heq
    split_ifs at heq
    all_goals injection heq with h
    all_goals subst h
    all_goals exact nextOK_refl st
  · intro b st2 heq
    unfold heredoc_body_handler at heq
    try dsimp only at heq
    split_ifs at heq with h1
    injection heq with hb h
    subst hb
    subst h
    have h1' := h1
    simp only [Bool.and_eq_true, Bool.not_eq_true', decide_eq_true_eq] at h1'
    have hsp := scan_heredoc_content_spec HEREDOC_BODY_BEGINNING SIMPLE_HEREDOC_BODY st
      (scan_heredoc_content HEREDOC_BODY_BEGINNING SIMPLE_HEREDOC_BODY st).1
      (scan_heredoc_content HEREDOC_BODY_BEGINNING SIMPLE_HEREDOC_BODY st).2 rfl
    refine ⟨hsp.1, fun her => absurd her (by simp [h1'.2]), fun hbt => ?_⟩
    obtain ⟨t, hsym, hmem, hprog⟩ := hsp.2 hbt
    refine ⟨t, hsym, fun hwf => ?_, fun htr => ?_,
      fun her => absurd her (by simp [h1'.2])⟩
    · rcases hprog hwf with hp2 | ⟨hteq, _⟩
      · exact Or.inl hp2
      · subst hteq
        exact Or.inr (by decide)
    · rcases hmem with rfl | rfl
      · exact absurd htr (by decide)
      · exact absurd htr (by decide)

lemma heredoc_content_handler_ok : handlerOK heredoc_content_handler := by
  intro vs st
  constructor
  · intro st2 heq
    unfold heredoc_content_handler at heq
    try dsimp only at heq
    split_ifs at heq
    all_goals injection heq with h
    all_goals subst h
    all_goals exact nextOK_refl st
  · intro b st2 heq
    unfold heredoc_content_handler at heq
    try dsimp only at heq
    split_ifs at heq with h1
    injection heq with hb h
    subst hb
    subst h
    have h1' := h1
    simp only [Bool.and_eq_true, Bool.not_eq_true', decide_eq_true_eq] at h1'
    have hsp := scan_heredoc_content_spec HEREDOC_CONTENT HEREDOC_END st
      (scan_heredoc_content HEREDOC_CONTENT HEREDOC_END st).1
      (scan_heredoc_content HEREDOC_CONTENT HEREDOC_END st).2 rfl
    refine ⟨hsp.1, fun her => absurd her (by simp [h1'.2]), fun hbt => ?_⟩
    obtain ⟨t, hsym, hmem, hprog⟩ := hsp.2 hbt
    refine ⟨t, hsym, fun hwf => ?_, fun htr => ?_,
      fun her => absurd her (by simp [h1'.2])⟩
    · rcases hprog hwf with hp2 | ⟨_, hmt⟩
      · exact Or.inl hp2
      · exact absurd hmt (by decide)
    · rcases hmem with rfl | rfl
      · exact absurd htr (by decide)
      · exact absurd htr (by decide)

lemma heredoc_end_handler_ok : handlerOK heredoc_end_handler := by
  intro vs st
  have hsp := scan_heredoc_end_identifier_spec st.back st.lx
  constructor
  · intro st2 heq
    unfold heredoc_end_handler at heq
    try dsimp only at heq
    split_ifs at heq with h1 h2
    all_goals injection heq with h
    all_goals subst h
    · -- delimiter not matched: fall through with the scratch word updated
      have h1' := h1
      simp only [Bool.and_eq_true, decide_eq_true_eq] at h1'
      have hne : st.sc.heredocs ≠ [] := List.length_pos.mp h1'.2
      refine ⟨by simpa using hsp.2.1, by simp, ?_, fun hwf => ?_⟩
      · simp only [St_withLx_sc]
        exact le_of_eq (St_modifyBack_length st _ hne)
      · simp only [St_withLx_sc]
        exact WFdelims_modifyBack hwf (Or.inl hsp.1)
    · exact nextOK_refl st
  · intro b st2 heq
    unfold heredoc_end_handler at heq
    try dsimp only at heq
    split_ifs at heq with h1 h2
    injection heq with hb h
    subst hb
    subst h
    have h1' := h1
    simp only [Bool.and_eq_true, decide_eq_true_eq] at h1'
    have hne : st.sc.heredocs ≠ [] := List.length_pos.mp h1'.2
    have hlen : (((st.modifyBack (fun _ => (scan_heredoc_end_identifier st.back st.lx).2.1)).withLx
        (scan_heredoc_end_identifier st.back st.lx).2.2).popBack).sc.heredocs.length ≤
        st.sc.heredocs.length := by
      have h3 := St_popBack_length ((st.modifyBack (fun _ =>
        (scan_heredoc_end_identifier st.back st.lx).2.1)).withLx
        (scan_heredoc_end_identifier st.back st.lx).2.2)
      have h4 := St_modifyBack_length st
        (fun _ => (scan_heredoc_end_identifier st.back st.lx).2.1) hne
      simp only [St_withLx_sc] at h3
      omega
    refine ⟨by simpa using hsp.2.1, fun _ => ⟨by simp, by simpa using hlen⟩, fun _ => ?_⟩
    refine ⟨HEREDOC_END, rfl, fun hwf => Or.inl ?_, fun htr => absurd htr (by decide),
      fun _ => by decide⟩
    have h5 := hsp.2.2 h2 (WFdelims_back hwf)
    simpa using h5

lemma nextOK_trans {st st1 st2 : St} (h1 : nextOK st st1) (h2 : nextOK st1 st2) :
    nextOK st st2 :=
  ⟨le_trans h1.1 h2.1, by rw [h2.2.1, h1.2.1], le_trans h2.2.2.1 h1.2.2.1,
    fun h => h2.2.2.2 (h1.2.2.2 h)⟩

lemma raw_dollar_step_ok : handlerOK raw_dollar_step := by
  intro vs st
  have hs := scan_raw_dollar_spec st
  constructor
  · intro st2 heq
    unfold raw_dollar_step at heq
    try dsimp only at heq
    split_ifs at heq with h1
    · split at heq
      · exact Step.noConfusion heq
      · rename_i stX heq2
        injection heq with h
        subst h
        rw [heq2] at hs
        exact nextOK_scEq hs.1 hs.2.1
    · injection heq with h
      subst h
      exact nextOK_refl st
  · intro b st2 heq
    unfold raw_dollar_step at heq
    try dsimp only at heq
    split_ifs at heq with h1
    · split at heq
      · rename_i stX heq2
        injection heq with hb h
        subst hb
        subst h
        rw [heq2] at hs
        have h1' := h1
        simp only [Bool.and_eq_true, Bool.not_eq_true'] at h1'
        exact retOK_noER BARE_DOLLAR h1'.2 hs.1 (fun _ => (hs.2.2 rfl).1) (by decide)
          (fun _ _ => Or.inl (hs.2.2 rfl).2)
      · exact Step.noConfusion heq

lemma test_operator_step2_ok : handlerOK test_operator_step2 := by
  intro vs st
  have hws := advance_while_le iswspace (st.lx.input.length + 2) (skip st.lx)
  have hwa1 := advance_while_le iswalpha (st.lx.input.length + 2) (advance st.lx)
  have hwa2 := advance_while_le iswalpha (st.lx.input.length + 2)
    (advance (advance_while iswspace (st.lx.input.length + 2) (skip st.lx)))
  simp only [skip_pos, advance_pos, mark_end_pos] at hws hwa1 hwa2
  constructor
  · intro st2 heq
    unfold test_operator_step2 at heq
    try dsimp only at heq
    split_ifs at heq
    all_goals try dsimp only at heq
    all_goals try exact Step.noConfusion heq
    all_goals
      have hr := (raw_dollar_step_ok vs _).1 st2 heq
    all_goals
      refine nextOK_trans (nextOK_scEq ?_ (by simp)) hr
    all_goals
      try simp only [St_withLx_lx, St_advance_lx, St_skip_lx, St_mark_end_lx, St_setSym_lx,
        skip_input, advance_input, mark_end_input, advance_while_input,
        skip_pos, advance_pos, mark_end_pos]
    all_goals omega
  · intro b st2 heq
    unfold test_operator_step2 at heq
    try dsimp only at heq
    split_ifs at heq
    all_goals try dsimp only at heq
    all_goals try exact Step.noConfusion heq
    all_goals try (injection heq with hb h; subst hb; subst h)
    all_goals first
      | (have hr := (raw_dollar_step_ok vs _).2 b st2 heq
         refine retOK_trans (nextOK_scEq ?_ (by first | rfl | simp)) hr
         try simp only [St_withLx_lx, St_advance_lx, St_skip_lx, St_mark_end_lx, St_setSym_lx, skip_input, advance_input, mark_end_input, advance_while_input, skip_pos, advance_pos, mark_end_pos]
         omega)
      | exact retOK_mk EXPANSION_WORD
          (by try simp only [St_withLx_lx, St_advance_lx, St_skip_lx, St_mark_end_lx, St_setSym_lx, skip_input, advance_input, mark_end_input, advance_while_input, skip_pos, advance_pos, mark_end_pos]; omega)
          (fun _ => rfl) (by decide) (by first | rfl | simp)
          (by first | exact le_refl _ | simp)
          (fun _ _ => Or.inr (by decide))
      | exact retOK_mk TEST_OPERATOR
          (by try simp only [St_withLx_lx, St_advance_lx, St_skip_lx, St_mark_end_lx, St_setSym_lx, skip_input, advance_input, mark_end_input, advance_while_input, skip_pos, advance_pos, mark_end_pos]; omega)
          (fun _ => rfl) (by decide) (by first | rfl | simp)
          (by first | exact le_refl _ | simp)
          (fun _ _ => Or.inl (by try simp only [St_withLx_lx, St_advance_lx, St_skip_lx, St_mark_end_lx, St_setSym_lx, skip_input, advance_input, mark_end_input, advance_while_input, skip_pos, advance_pos, mark_end_pos]; omega))
      | exact retOK_mk EXTGLOB_PATTERN
          (by try simp only [St_withLx_lx, St_advance_lx, St_skip_lx, St_mark_end_lx, St_setSym_lx, skip_input, advance_input, mark_end_input, advance_while_input, skip_pos, advance_pos, mark_end_pos]; omega)
          (fun _ => rfl) (by decide) (by first | rfl | simp)
          (by first | exact le_refl _ | simp)
          (fun _ _ => Or.inl (by try simp only [St_withLx_lx, St_advance_lx, St_skip_lx, St_mark_end_lx, St_setSym_lx, skip_input, advance_input, mark_end_input, advance_while_input, skip_pos, advance_pos, mark_end_pos]; omega))
      | exact retOK_false
          (by try simp only [St_withLx_lx, St_advance_lx, St_skip_lx, St_mark_end_lx, St_setSym_lx, skip_input, advance_input, mark_end_input, advance_while_input, skip_pos, advance_pos, mark_end_pos]; omega)
          (by first | rfl | simp) (by first | exact le_refl _ | simp)

attribute [irreducible] test_operator_step2

lemma test_operator_handler_ok : handlerOK test_operator_handler := by
  intro vs st
  have hw0 := advance_while_le (fun c => iswspace c && c != 10)
    (st.lx.input.length + 2) st.lx
  have hq1 := advance_while_le iswspace (st.lx.input.length + 2)
    (skip (skip (advance_while (fun c => iswspace c && c != 10) (st.lx.input.length + 2) st.lx)))
  have hq2 := advance_while_le iswspace (st.lx.input.length + 2)
    (skip (skip (skip (advance_while (fun c => iswspace c && c != 10) (st.lx.input.length + 2) st.lx))))
  have hq3 := advance_while_le iswspace (st.lx.input.length + 2)
    (skip (advance_while (fun c => iswspace c && c != 10) (st.lx.input.length + 2) st.lx))
  simp only [skip_pos] at hq1 hq2 hq3
  constructor
  · intro st2 heq
    unfold test_operator_handler at heq
    try dsimp only at heq
    split_ifs at heq
    all_goals try dsimp only at heq
    all_goals try exact Step.noConfusion heq
    all_goals try (injection heq with h; subst h)
    all_goals first
      | exact nextOK_refl st
      | (have hr := (test_operator_step2_ok vs _).1 st2 heq
         refine nextOK_trans (nextOK_scEq ?_ (by first | rfl | simp)) hr
         try simp only [St_withLx_lx, St_advance_lx, St_skip_lx, St_mark_end_lx, St_setSym_lx, skip_input, advance_input, mark_end_input, advance_while_input, skip_pos, advance_pos, mark_end_pos]
         omega)
  · intro b st2 heq
    unfold test_operator_handler at heq
    try dsimp only at heq
    split_ifs at heq
    all_goals try dsimp only at heq
    all_goals try exact Step.noConfusion heq
    all_goals first
      | (have hr := (test_operator_step2_ok vs _).2 b st2 heq
         refine retOK_trans (nextOK_scEq ?_ (by first | rfl | simp)) hr
         try simp only [St_withLx_lx, St_advance_lx, St_skip_lx, St_mark_end_lx, St_setSym_lx, skip_input, advance_input, mark_end_input, advance_while_input, skip_pos, advance_pos, mark_end_pos]
         omega)
      | (injection heq with hb h
         subst hb
         subst h
         have hr := extglob_tail_ok vs (st.withLx (advance_while
           (fun c => iswspace c && c != 10) (st.lx.input.length + 2) st.lx)) _ _ rfl
         refine retOK_trans (nextOK_scEq ?_ (by simp)) hr
         simp only [St_withLx_lx]
         exact hw0)
      | (injection heq with hb h
         subst hb
         subst h
         have hr := regex_tail_ok vs (st.withLx (advance_while
           (fun c => iswspace c && c != 10) (st.lx.input.length + 2) st.lx)) _ _ rfl
         refine retOK_trans (nextOK_scEq ?_ (by simp)) hr
         simp only [St_withLx_lx]
         exact hw0)
      | (injection heq with hb h
         subst hb
         subst h
         exact retOK_false (by try simp only [St_withLx_lx, St_advance_lx, St_skip_lx, St_mark_end_lx, St_setSym_lx, skip_input, advance_input, mark_end_input, advance_while_input, skip_pos, advance_pos, mark_end_pos]; omega)
           (by first | rfl | simp) (by first | exact le_refl _ | simp))

/-- The tail of the VARIABLE_NAME block after the identifier loop never
    falls through, keeps the scanner, and emits only VARIABLE_NAME or
    FILE_DESCRIPTOR. -/
lemma variable_name_final_spec (vs : ValidFn) (n : Bool) (st : St) :
    (∀ st2, variable_name_final vs n st = Step.next st2 → False) ∧
    (∀ b st2, variable_name_final vs n st = Step.ret b st2 →
      st.lx.pos ≤ st2.lx.pos ∧ st2.sc.context_stack = st.sc.context_stack ∧
      st2.sc.heredocs = st.sc.heredocs ∧
      (b = true → ∃ t, st2.sym = some t ∧ t ∉ regexTokens)) := by
  have hi := ident_loop_le (st.lx.input.length + 2) n st.lx
  constructor
  · intro st2 heq
    unfold variable_name_final at heq
    try dsimp only at heq
    split_ifs at heq
    all_goals exact Step.noConfusion heq
  · intro b st2 heq
    unfold variable_name_final at heq
    try dsimp only at heq
    split_ifs at heq
    all_goals injection heq with hb h
    all_goals subst hb
    all_goals subst h
    all_goals refine ⟨?_, by first | rfl | simp, by first | rfl | simp, ?_⟩
    all_goals first
      | (try simp only [setScJVN_lx, setJBD_lx, St_setSym_lx, St_mark_end_lx, St_advance_lx,
           St_withLx_lx, advance_pos, mark_end_pos]
         omega)
      | exact fun hbt => ⟨FILE_DESCRIPTOR, rfl, by decide⟩
      | exact fun hbt => ⟨VARIABLE_NAME, rfl, by decide⟩
      | exact fun hbt => absurd hbt (by decide)

attribute [irreducible] variable_name_final

/-- The initial-character dispatch of the VARIABLE_NAME block obeys the
    return contract and never falls through. -/
lemma variable_name_stepC_spec (vs : ValidFn) (st : St) :
    (∀ st2, variable_name_stepC vs st = Step.next st2 → False) ∧
    (∀ b st2, variable_name_stepC vs st = Step.ret b st2 → retOK vs st b st2) := by
  constructor
  · intro st2 heq
    unfold variable_name_stepC at heq
    try dsimp only at heq
    split_ifs at heq
    all_goals try dsimp only at heq
    all_goals first
      | exact (variable_name_final_spec vs _ _).1 st2 heq
      | exact Step.noConfusion heq
  · intro b st2 heq
    unfold variable_name_stepC at heq
    try dsimp only at heq
    split_ifs at heq
    all_goals try dsimp only at heq
    all_goals first
      | (have hf := (variable_name_final_spec vs _ _).2 b st2 heq
         refine ⟨le_trans (by simp only [St_advance_lx_pos]; omega) hf.1,
           fun _ => ⟨by simp [hf.2.1], le_of_eq (by simp [hf.2.2.1])⟩, fun hbt => ?_⟩
         obtain ⟨t, hsym, hreg⟩ := hf.2.2.2 hbt
         exact ⟨t, hsym,
           fun _ => Or.inl (lt_of_lt_of_le (by simp only [St_advance_lx_pos]; omega) hf.1),
           fun htr => absurd htr hreg, fun _ => hreg⟩)
      | (injection heq with hb h
         subst hb
         subst h
         first
           | exact brace_start_tail_ok vs st _ _ rfl
           | exact expansion_word_tail_ok vs st _ _ rfl
           | exact extglob_tail_ok vs st _ _ rfl
           | exact retOK_false (le_refl _) rfl (le_refl _))

attribute [irreducible] variable_name_stepC

/-- The HEREDOC_ARROW reader of the VARIABLE_NAME block obeys the
    return contract outside error recovery and never falls through. -/
lemma variable_name_stepB_spec (vs : ValidFn) (st : St)
    (hner : in_error_recovery vs = false) :
    (∀ st2, variable_name_stepB vs st = Step.next st2 → False) ∧
    (∀ b st2, variable_name_stepB vs st = Step.ret b st2 → retOK vs st b st2) := by
  constructor
  · intro st2 heq
    unfold variable_name_stepB at heq
    try dsimp only at heq
    split_ifs at heq
    all_goals try dsimp only at heq
    all_goals first
      | exact (variable_name_stepC_spec vs _).1 st2 heq
      | exact Step.noConfusion heq
  · intro b st2 heq
    unfold variable_name_stepB at heq
    try dsimp only at heq
    split_ifs at heq
    all_goals try dsimp only at heq
    all_goals first
      | exact (variable_name_stepC_spec vs _).2 b st2 heq
      | (injection heq with hb h
         subst hb
         subst h
         first
           | exact retOK_false_noER hner (by simp only [St_advance_lx_pos]; omega)
           | exact retOK_noER HEREDOC_ARROW_DASH hner
               (by simp only [St_setSym_lx, St_advance_lx_pos]; omega)
               (fun _ => rfl) (by decide)
               (fun _ _ => Or.inl (by simp only [St_setSym_lx, St_advance_lx_pos]; omega))
           | exact retOK_noER HEREDOC_ARROW hner
               (by simp only [St_setSym_lx, St_advance_lx_pos]; omega)
               (fun _ => rfl) (by decide)
               (fun _ _ => Or.inl (by simp only [St_setSym_lx, St_advance_lx_pos]; omega)))

attribute [irreducible] variable_name_stepB

/-- The special-character peek of the VARIABLE_NAME block obeys the
    return contract outside error recovery and never falls through. -/
lemma variable_name_stepA_spec (vs : ValidFn) (st : St)
    (hner : in_error_recovery vs = false) :
    (∀ st2, variable_name_stepA vs st = Step.next st2 → False) ∧
    (∀ b st2, variable_name_stepA vs st = Step.ret b st2 → retOK vs st b st2) := by
  constructor
  · intro st2 heq
    unfold variable_name_stepA at heq
    try dsimp only at heq
    split_ifs at heq
    all_goals try dsimp only at heq
    all_goals first
      | exact (variable_name_stepB_spec vs _ hner).1 st2 heq
      | exact Step.noConfusion heq
  · intro b st2 heq
    unfold variable_name_stepA at heq
    try dsimp only at heq
    split_ifs at heq
    all_goals try dsimp only at heq
    all_goals first
      | (have hr := (variable_name_stepB_spec vs _ hner).2 b st2 heq
         refine retOK_trans (nextOK_scEq ?_ (by first | rfl | simp)) hr
         try simp only [St_mark_end_lx_pos, St_advance_lx_pos]
         omega)
      | (injection heq with hb h
         subst hb
         subst h
         first
           | exact retOK_false_noER hner
               (by simp only [St_mark_end_lx_pos, St_advance_lx_pos]; omega)
           | exact retOK_noER EXTGLOB_PATTERN hner
               (by simp only [St_setSym_lx, St_mark_end_lx_pos, St_advance_lx_pos]; omega)
               (fun _ => rfl) (by decide)
               (fun _ _ => Or.inl (by simp only [St_setSym_lx, St_mark_end_lx_pos, St_advance_lx_pos]; omega)))

attribute [irreducible] variable_name_stepA

/-- The leading whitespace/line-continuation loop of the VARIABLE_NAME
    block: an early return obeys the return contract; a fall-through
    only skips characters. -/
lemma variable_name_ws_loop_spec (vs : ValidFn) :
    ∀ (fuel : Nat) (st : St),
      (∀ b st2, variable_name_ws_loop vs fuel st = Sum.inl (b, st2) → retOK vs st b st2) ∧
      (∀ st2, variable_name_ws_loop vs fuel st = Sum.inr st2 →
        st.lx.pos ≤ st2.lx.pos ∧ st2.sc = st.sc) := by
  intro fuel
  induction fuel with
  | zero =>
    intro st
    constructor
    · intro b st2 heq
      rw [variable_name_ws_loop] at heq
      exact Sum.noConfusion heq
    · intro st2 heq
      rw [variable_name_ws_loop] at heq
      injection heq with h
      subst h
      exact ⟨le_refl _, rfl⟩
  | succ fuel ih =>
    intro st
    constructor
    · intro b st2 heq
      rw [variable_name_ws_loop] at heq
      try dsimp only at heq
      split_ifs at heq
      all_goals first
        | (have h := (ih _).1 b st2 heq
           refine retOK_trans (nextOK_scEq ?_ (by first | rfl | simp)) h
           simp only [St_skip_lx_pos]
           omega)
        | (injection heq with h
           injection h with hb h2
           subst hb
           subst h2
           first
             | exact retOK_mk VARIABLE_NAME
                 (by simp only [setScJVN_lx, setJBD_lx, St_setSym_lx, St_mark_end_lx_pos, St_skip_lx_pos]; omega)
                 (fun _ => rfl) (by decide) (by simp) (by simp)
                 (fun _ _ => Or.inl (by simp only [setScJVN_lx, setJBD_lx, St_setSym_lx, St_mark_end_lx_pos, St_skip_lx_pos]; omega))
             | exact retOK_false
                 (by simp only [St_skip_lx_pos]; omega)
                 (by first | rfl | simp) (by first | exact le_refl _ | simp))
        | (injection heq with h
           have hr := expansion_word_tail_ok vs _ b st2 h
           refine retOK_trans (nextOK_scEq ?_ (by first | rfl | simp)) hr
           simp only [St_skip_lx_pos]
           omega)
    · intro st2 heq
      rw [variable_name_ws_loop] at heq
      try dsimp only at heq
      split_ifs at heq
      all_goals first
        | (have h := (ih _).2 st2 heq
           refine ⟨le_trans ?_ h.1, by simp [h.2]⟩
           simp only [St_skip_lx_pos]
           omega)
        | (injection heq with h
           subst h
           exact ⟨le_refl _, rfl⟩)

lemma variable_name_handler_ok : handlerOK variable_name_handler := by
  intro vs st
  constructor
  · intro st2 heq
    unfold variable_name_handler at heq
    try dsimp only at heq
    split_ifs at heq with h1
    · have h1' := h1
      simp only [Bool.and_eq_true, Bool.not_eq_true'] at h1'
      split at heq
      · exact Step.noConfusion heq
      · rename_i stX heqw
        exact ((variable_name_stepA_spec vs stX h1'.2).1 st2 heq).elim
    · injection heq with h
      subst h
      exact nextOK_refl st
  · intro b st2 heq
    unfold variable_name_handler at heq
    try dsimp only at heq
    split_ifs at heq with h1
    have h1' := h1
    simp only [Bool.and_eq_true, Bool.not_eq_true'] at h1'
    split at heq
    · rename_i r heqw
      injection heq with hb h
      subst hb
      subst h
      exact (variable_name_ws_loop_spec vs (st.lx.input.length + 2) st).1 r.1 r.2
        (by rw [heqw])
    · rename_i stX heqw
      have hw := (variable_name_ws_loop_spec vs (st.lx.input.length + 2) st).2 stX heqw
      exact retOK_trans (nextOK_scEq hw.1 hw.2)
        ((variable_name_stepA_spec vs stX h1'.2).2 b st2 heq)

set_option allowUnsafeReducibility true in
attribute [semireducible] variable_name_final

set_option allowUnsafeReducibility true in
attribute [semireducible] variable_name_stepC

set_option allowUnsafeReducibility true in
attribute [semireducible] variable_name_stepB

set_option allowUnsafeReducibility true in
attribute [semireducible] variable_name_stepA

set_option allowUnsafeReducibility true in
attribute [semireducible] test_operator_step2

set_option maxHeartbeats 1000000 in
lemma heredoc_start_handler_ok : handlerOK heredoc_start_handler := by
  intro vs st
  have hsp := scan_heredoc_start_spec st.back st.lx
  constructor
  · intro st2 heq
    unfold heredoc_start_handler at heq
    try dsimp only at heq
    split_ifs at heq
    all_goals injection heq with h
    all_goals subst h
    all_goals exact nextOK_refl st
  · intro b st2 heq
    unfold heredoc_start_handler at heq
    try dsimp only at heq
    split_ifs at heq with h1
    injection heq with hb h
    subst hb
    subst h
    have h1' := h1
    simp only [Bool.and_eq_true, Bool.not_eq_true', decide_eq_true_eq] at h1'
    exact retOK_noER HEREDOC_START h1'.1.2 (by simpa using hsp.2.1) (fun _ => hsp.1)
      (by decide) (fun hb2 _ => Or.inl (by simpa using hsp.2.2 hb2))

/-- Every handler block of `scan` obeys the fall-through and return
    contracts. -/
lemma main_handlers_ok : ∀ h ∈ main_handlers, handlerOK h := by
  intro h hh
  simp only [main_handlers, List.mem_cons, List.not_mem_nil, or_false] at hh
  rcases hh with rfl|rfl|rfl|rfl|rfl|rfl|rfl|rfl|rfl|rfl|rfl|rfl|rfl|rfl|rfl|rfl|rfl|rfl|rfl|rfl|rfl|rfl|rfl|rfl|rfl|rfl
  · exact newline_handler_ok
  · exact closing_brace_handler_ok
  · exact concat_handler_ok
  · exact bare_dollar_handler_ok
  · exact peek_bare_dollar_handler_ok
  · exact brace_start_dollar_handler_ok
  · exact opening_paren_handler_ok
  · exact opening_bracket_handler_ok
  · exact closing_bracket_handler_ok
  · exact closing_paren_handler_ok
  · exact pattern_start_handler_ok
  · exact pattern_suffix_start_handler_ok
  · exact colon_handler_ok
  · exact hash_handler_ok
  · exact immediate_double_hash_handler_ok
  · exact array_ops_handler_ok
  · exact empty_value_handler_ok
  · exact heredoc_body_handler_ok
  · exact heredoc_end_handler_ok
  · exact heredoc_content_handler_ok
  · exact heredoc_start_handler_ok
  · exact test_operator_handler_ok
  · exact simple_variable_name_handler_ok
  · exact special_variable_name_handler_ok
  · exact variable_name_handler_ok
  · exact bare_dollar2_handler_ok

/-- The whole of `scan` obeys the return contract from its start state
    (the given scanner with the two history flags cleared). -/
lemma scan_retOK (scanner : Scanner) (lexer : Lexer) (vs : ValidFn) :
    retOK vs
      { sc := { scanner with
          just_returned_variable_name := false
          just_returned_bare_dollar := false }
        lx := lexer
        sym := none
        was_just_variable_name := scanner.just_returned_variable_name
        was_just_bare_dollar := scanner.just_returned_bare_dollar }
      (scan scanner lexer vs).1 (scan scanner lexer vs).2 := by
  exact runChain_ok vs (regex_tail vs)
    (fun st => regex_tail_ok vs st (regex_tail vs st).1 (regex_tail vs st).2 rfl)
    main_handlers main_handlers_ok
    { sc := { scanner with
        just_returned_variable_name := false
        just_returned_bare_dollar := false }
      lx := lexer
      sym := none
      was_just_variable_name := scanner.just_returned_variable_name
      was_just_bare_dollar := scanner.just_returned_bare_dollar }

/-- C2: a successful scan either strictly advances the input position
    or ends with one of the fixed zero-width result symbols
    (PEEK_BARE_DOLLAR, CONCAT, EMPTY_VALUE, PATTERN_START,
    PATTERN_SUFFIX_START, HEREDOC_BODY_BEGINNING, REGEX_NO_SLASH,
    REGEX_NO_SPACE, EXPANSION_WORD), for every scanner whose pending
    heredoc delimiters are empty or free of a leading NUL byte. -/
theorem c2_scan_progress_or_zero_width (scanner : Scanner) (lexer : Lexer) (vs : ValidFn)
    (b : Bool) (st2 : St) (heq : scan scanner lexer vs = (b, st2))
    (hb : b = true) (hwf : WFdelims scanner.heredocs) :
    lexer.pos < st2.lx.pos ∨ ∃ t, st2.sym = some t ∧ t ∈ zeroWidthTokens := by
  have h := scan_retOK scanner lexer vs
  rw [heq] at h
  obtain ⟨t, hsym, hprog, _, _⟩ := h.2.2 hb
  rcases hprog hwf with hlt | hzw
  · exact Or.inl hlt
  · exact Or.inr ⟨t, hsym, hzw⟩

/-- C2 witness: the PEEK_BARE_DOLLAR scan over `$` is a successful scan
    on a well-formed scanner, and the conclusion holds there (through
    the zero-width branch). -/
theorem c2_scan_progress_or_zero_width_witness :
    (scan freshScanner c2LxDollar vsPEEK).1 = true ∧
    WFdelims freshScanner.heredocs ∧
    (c2LxDollar.pos < (scan freshScanner c2LxDollar vsPEEK).2.lx.pos ∨
      ∃ t, (scan freshScanner c2LxDollar vsPEEK).2.sym = some t ∧ t ∈ zeroWidthTokens) :=
  ⟨by decide, fun h hh => absurd hh (List.not_mem_nil h),
    c2_scan_progress_or_zero_width freshScanner c2LxDollar vsPEEK
      (scan freshScanner c2LxDollar vsPEEK).1 (scan freshScanner c2LxDollar vsPEEK).2 rfl
      (by decide) (fun h hh => absurd hh (List.not_mem_nil h))⟩

/-- C4: when a successful scan emits one of the regex terminals (REGEX,
    REGEX_NO_SLASH, REGEX_NO_SPACE), the context stack afterwards is the
    original stack with zero or more CTX_PARAMETER entries pushed on
    top; nothing is popped or replaced. -/
theorem c4_regex_tokens_push_only_parameter (scanner : Scanner) (lexer : Lexer) (vs : ValidFn)
    (b : Bool) (st2 : St) (t : TokenType) (heq : scan scanner lexer vs = (b, st2))
    (hb : b = true) (hsym : st2.sym = some t) (ht : t ∈ regexTokens) :
    ∃ n, st2.sc.context_stack = scanner.context_stack ++ List.replicate n CTX_PARAMETER := by
  have h := scan_retOK scanner lexer vs
  rw [heq] at h
  obtain ⟨t2, hsym2, _, hstk, _⟩ := h.2.2 hb
  have ht2 : t2 = t := by
    rw [hsym2] at hsym
    exact Option.some.inj hsym
  subst ht2
  exact hstk ht

/-- C4 witness: the REGEX scan over a single-quoted span pushes one
    CTX_PARAMETER entry. -/
theorem c4_regex_tokens_push_only_parameter_witness :
    ∃ n, (scan freshScanner c4Lx vsREGEX).2.sc.context_stack =
      freshScanner.context_stack ++ List.replicate n CTX_PARAMETER :=
  c4_regex_tokens_push_only_parameter freshScanner c4Lx vsREGEX
    (scan freshScanner c4Lx vsREGEX).1 (scan freshScanner c4Lx vsREGEX).2 REGEX rfl
    (by decide) (by decide) (by decide)

/-- C9: with ERROR_RECOVERY among the valid symbols, a scan call leaves
    the context stack exactly as it was, never grows the heredoc list,
    and a successful return never carries one of the regex terminals;
    the scan is not, however, forced to return false. -/
theorem c9_error_recovery_keeps_state (scanner : Scanner) (lexer : Lexer) (vs : ValidFn)
    (b : Bool) (st2 : St) (heq : scan scanner lexer vs = (b, st2))
    (her : in_error_recovery vs = true) :
    st2.sc.context_stack = scanner.context_stack ∧
    st2.sc.heredocs.length ≤ scanner.heredocs.length ∧
    (b = true → ∀ t, st2.sym = some t → t ∉ regexTokens) := by
  have h := scan_retOK scanner lexer vs
  rw [heq] at h
  obtain ⟨hstk, hlen⟩ := h.2.1 her
  refine ⟨hstk, hlen, fun hb t hsym => ?_⟩
  obtain ⟨t2, hsym2, _, _, hreg⟩ := h.2.2 hb
  have ht2 : t2 = t := by
    rw [hsym2] at hsym
    exact Option.some.inj hsym
  subst ht2
  exact hreg her

/-- C9 witness: the error-recovery EXPANSION_WORD scan keeps the
    pattern-substitution context stack and its heredoc count, and its
    successful return carries no regex terminal. -/
theorem c9_error_recovery_keeps_state_witness :
    in_error_recovery vsEW_ER = true ∧
    (scan c3Sc c9Lx vsEW_ER).2.sc.context_stack = c3Sc.context_stack ∧
    (scan c3Sc c9Lx vsEW_ER).2.sc.heredocs.length ≤ c3Sc.heredocs.length ∧
    ((scan c3Sc c9Lx vsEW_ER).1 = true →
      ∀ t, (scan c3Sc c9Lx vsEW_ER).2.sym = some t → t ∉ regexTokens) :=
  ⟨by decide,
    c9_error_recovery_keeps_state c3Sc c9Lx vsEW_ER
      (scan c3Sc c9Lx vsEW_ER).1 (scan c3Sc c9Lx vsEW_ER).2 rfl (by decide)⟩

end ZshScanner
